import Mathlib

/-!
# headless-gl native binding (`src/native/webgl.cc`, `webgl.h`)

A shallow embedding of the parts of `WebGLRenderingContext` that carry the
binding's logic: the pixel unpack transform (`unpackPixels`), the shadow error
register (`setError`, `getError`), the active-context switch (`setActive`) and
disposal (`dispose`) with the object registry.

Conventions.
* `GLint` values are `Int`; every `int` operation of the source is followed by
  `wrapInt32`, the two's-complement reduction to 32 bits.
* `GLenum`/`GLuint` values and bytes are `Nat`.
* A byte buffer is a `List Nat`; reading is `List.getD _ _ 0`, writing is
  `List.set`.
* Pointers to contexts are `Nat`, `NULL` is `none`.
* Calls into EGL / GL are appended to a trace; what the driver answers is an
  explicit parameter.
-/

namespace WebGL

/-! ## Constants of the GLES2 header -/

/-- Modelled from the spec: the GLES2 header `GLES2/gl2.h` is not among the
sources; the values are the ones the Khronos header assigns. -/
def GL_NO_ERROR : Nat := 0
/-- Modelled from the spec: header constant, see `GL_NO_ERROR`. -/
def GL_INVALID_ENUM : Nat := 0x0500
/-- Modelled from the spec: header constant, see `GL_NO_ERROR`. -/
def GL_INVALID_VALUE : Nat := 0x0501
/-- Modelled from the spec: header constant, see `GL_NO_ERROR`. -/
def GL_UNSIGNED_BYTE : Nat := 0x1401
/-- Modelled from the spec: header constant, see `GL_NO_ERROR`. -/
def GL_FLOAT : Nat := 0x1406
/-- Modelled from the spec: header constant, see `GL_NO_ERROR`. -/
def GL_ALPHA : Nat := 0x1906
/-- Modelled from the spec: header constant, see `GL_NO_ERROR`. -/
def GL_RGB : Nat := 0x1907
/-- Modelled from the spec: header constant, see `GL_NO_ERROR`. -/
def GL_RGBA : Nat := 0x1908
/-- Modelled from the spec: header constant, see `GL_NO_ERROR`. -/
def GL_LUMINANCE : Nat := 0x1909
/-- Modelled from the spec: header constant, see `GL_NO_ERROR`. -/
def GL_LUMINANCE_ALPHA : Nat := 0x190A
/-- Modelled from the spec: header constant, see `GL_NO_ERROR`. -/
def GL_UNSIGNED_SHORT_4_4_4_4 : Nat := 0x8033
/-- Modelled from the spec: header constant, see `GL_NO_ERROR`. -/
def GL_UNSIGNED_SHORT_5_5_5_1 : Nat := 0x8034
/-- Modelled from the spec: header constant, see `GL_NO_ERROR`. -/
def GL_UNSIGNED_SHORT_5_6_5 : Nat := 0x8363

/-! ## 32-bit integer arithmetic -/

/-- The value a 32-bit two's-complement `int` holds for the mathematical
integer `x`. -/
def wrapInt32 (x : Int) : Int := (x + 2147483648) % 4294967296 - 2147483648

/-! ## `unpackPixels`: pixel size and row stride (webgl.cc 729-759) -/

/-- The `pixelSize` local of `unpackPixels` (webgl.cc 730-751). The `switch`
has no `default`, so an unlisted format leaves `pixelSize` as it is. -/
def pixelSize (type format : Nat) : Int :=
  if type = GL_UNSIGNED_BYTE ∨ type = GL_FLOAT then
    let pixelSize : Int := if type = GL_FLOAT then 4 else 1
    if format = GL_ALPHA ∨ format = GL_LUMINANCE then pixelSize
    else if format = GL_LUMINANCE_ALPHA then wrapInt32 (pixelSize * 2)
    else if format = GL_RGB then wrapInt32 (pixelSize * 3)
    else if format = GL_RGBA then wrapInt32 (pixelSize * 4)
    else pixelSize
  else 2

/-- The `rowStride` local of `unpackPixels` (webgl.cc 754-757); `%` of C++ is
the truncating `Int.tmod`. -/
def rowStride (type format : Nat) (width unpack_alignment : Int) : Int :=
  let rowStride := wrapInt32 (pixelSize type format * width)
  if Int.tmod rowStride unpack_alignment ≠ 0 then
    wrapInt32 (rowStride +
      wrapInt32 (unpack_alignment - Int.tmod rowStride unpack_alignment))
  else rowStride

/-- The `imageSize` local of `unpackPixels` (webgl.cc 759). -/
def imageSize (type format : Nat) (width height unpack_alignment : Int) : Int :=
  wrapInt32 (rowStride type format width unpack_alignment * height)

/-- None of the `int` operations that compute the row stride
(webgl.cc 754-757) overflows: the product `pixelSize * width`, the alignment
itself, and the rounded-up sum that is formed when the remainder is not
zero. -/
def StrideFits (type format : Nat) (width a : Int) : Prop :=
  pixelSize type format * width ≤ 2147483647 ∧ a ≤ 2147483647 ∧
  ((pixelSize type format * width) % a ≠ 0 →
    pixelSize type format * width + (a - (pixelSize type format * width) % a) ≤ 2147483647)

instance (type format : Nat) (width a : Int) : Decidable (StrideFits type format width a) := by
  unfold StrideFits
  infer_instance

/-! ## The context record (webgl.h 17-121) -/

/-- The kinds of server-side objects a context tracks (webgl.h 17-25). -/
inductive GLObjectType where
  | GLOBJECT_TYPE_BUFFER
  | GLOBJECT_TYPE_FRAMEBUFFER
  | GLOBJECT_TYPE_PROGRAM
  | GLOBJECT_TYPE_RENDERBUFFER
  | GLOBJECT_TYPE_SHADER
  | GLOBJECT_TYPE_TEXTURE
  | GLOBJECT_TYPE_VERTEX_ARRAY
  deriving DecidableEq, Repr

/-- The lifecycle states of a context (webgl.h 27-32). -/
inductive GLContextState where
  | GLCONTEXT_STATE_INIT
  | GLCONTEXT_STATE_OK
  | GLCONTEXT_STATE_DESTROY
  | GLCONTEXT_STATE_ERROR
  deriving DecidableEq, Repr

open GLObjectType GLContextState

/-- The key type of the object map, `std::pair<GLuint, GLObjectType>`
(webgl.h 34): the object id first, its kind second. -/
abbrev GLObjectReference := Nat × GLObjectType

/-- The non-static data members of `struct WebGLRenderingContext`
(webgl.h 43-121). Native handles are numbers. `objects` holds the keys of the
`std::map`, in the map's iteration order; the mapped `bool` is only ever
written as `true` and never read. `next` and `prev` point into the heap of
contexts. -/
structure WebGLRenderingContext where
  context : Nat
  config : Nat
  surface : Nat
  state : GLContextState
  unpack_flip_y : Bool
  unpack_premultiply_alpha : Bool
  unpack_colorspace_conversion : Int
  unpack_alignment : Int
  objects : List GLObjectReference
  next : Option Nat
  prev : Option Nat
  lastError : Nat
  preferredDepth : Nat

/-- A context as the constructor's initialiser list leaves it (webgl.cc 42-49)
with the given lifecycle state and native handles; the unpack alignment is 4. -/
def newContext (state : GLContextState) (context surface : Nat) : WebGLRenderingContext :=
  { context := context, config := 0, surface := surface, state := state
    unpack_flip_y := false, unpack_premultiply_alpha := false
    unpack_colorspace_conversion := 0x9244, unpack_alignment := 4
    objects := [], next := none, prev := none, lastError := GL_NO_ERROR
    preferredDepth := 0 }

/-! ## The shadow error register (webgl.cc 164-172, 419-426) -/

/-- Modelled from the spec: the driver's `glGetError` belongs to the ANGLE
library, whose implementation is not among the sources. `driver` lists the
error codes pending in the driver, oldest first (none of them is
`GL_NO_ERROR`). The query returns the oldest pending code and clears it
("exactly one error code is consumed and cleared per call", as in OpenGL ES);
with nothing pending it returns `GL_NO_ERROR`. -/
def glGetError (driver : List Nat) : Nat × List Nat :=
  match driver with
  | [] => (GL_NO_ERROR, [])
  | error :: rest => (error, rest)

/-- `WebGLRenderingContext::setError` (webgl.cc 164-172): the context and the
driver's pending errors after the call. -/
def setError (self : WebGLRenderingContext) (driver : List Nat) (error : Nat) :
    WebGLRenderingContext × List Nat :=
  if error = GL_NO_ERROR ∨ self.lastError ≠ GL_NO_ERROR then (self, driver)
  else
    let prevError := (glGetError driver).1
    let driver := (glGetError driver).2
    if prevError = GL_NO_ERROR then ({ self with lastError := error }, driver)
    else (self, driver)

/-- `WebGLRenderingContext::getError` (webgl.cc 419-426): the returned code, the
context and the driver's pending errors after the call. -/
def getError (self : WebGLRenderingContext) (driver : List Nat) :
    Nat × WebGLRenderingContext × List Nat :=
  let error := (glGetError driver).1
  let driver := (glGetError driver).2
  let error := if self.lastError ≠ GL_NO_ERROR then self.lastError else error
  (error, { self with lastError := GL_NO_ERROR }, driver)

/-! ## The object registry (webgl.h 55-61) -/

/-- The numeric value of an enumerator of `GLObjectType`. -/
def GLObjectType.toNat : GLObjectType → Nat
  | GLOBJECT_TYPE_BUFFER => 0
  | GLOBJECT_TYPE_FRAMEBUFFER => 1
  | GLOBJECT_TYPE_PROGRAM => 2
  | GLOBJECT_TYPE_RENDERBUFFER => 3
  | GLOBJECT_TYPE_SHADER => 4
  | GLOBJECT_TYPE_TEXTURE => 5
  | GLOBJECT_TYPE_VERTEX_ARRAY => 6

/-- The ordering of the map's keys: `operator<` of `std::pair`, lexicographic
on the id and then the kind. -/
def keyLess (a b : GLObjectReference) : Bool :=
  a.1 < b.1 || (a.1 == b.1 && a.2.toNat < b.2.toNat)

/-- The assignment `objects[key] = true` on the sorted key list of a
`std::map`: a key equivalent to `key` (neither is less than the other) is kept,
otherwise `key` is inserted at its place in the order. -/
def mapInsert (key : GLObjectReference) : List GLObjectReference → List GLObjectReference
  | [] => [key]
  | k :: rest =>
    if keyLess key k then key :: k :: rest
    else if keyLess k key then k :: mapInsert key rest
    else k :: rest

/-- `registerGLObj` (webgl.h 56-58). -/
def registerGLObj (self : WebGLRenderingContext) (type : GLObjectType) (obj : Nat) :
    WebGLRenderingContext :=
  { self with objects := mapInsert (obj, type) self.objects }

/-- `unregisterGLObj` (webgl.h 59-61): `std::map::erase` by key. -/
def unregisterGLObj (self : WebGLRenderingContext) (type : GLObjectType) (obj : Nat) :
    WebGLRenderingContext :=
  { self with objects := self.objects.erase (obj, type) }

/-- A call of one of the two registry methods. -/
inductive RegistryCall where
  | register (type : GLObjectType) (obj : Nat)
  | unregister (type : GLObjectType) (obj : Nat)
  deriving DecidableEq, Repr

/-- The effect of one registry call on a context. -/
def applyRegistryCall (self : WebGLRenderingContext) : RegistryCall → WebGLRenderingContext
  | .register type obj => registerGLObj self type obj
  | .unregister type obj => unregisterGLObj self type obj

/-- The registry of a context whose map started empty (as constructed) and
then saw the registry calls `history`, oldest first. -/
def registryAfter (history : List RegistryCall) : List GLObjectReference :=
  (history.foldl applyRegistryCall (newContext GLCONTEXT_STATE_OK 0 0)).objects

/-- The pair `(obj, type)` was registered in `history` and not unregistered
since. -/
def registeredSince (history : List RegistryCall) (key : GLObjectReference) : Prop :=
  ∃ before after, history = before ++ RegistryCall.register key.2 key.1 :: after ∧
    RegistryCall.unregister key.2 key.1 ∉ after

/-! ## Process state, `setActive` and `dispose` (webgl.cc 149-162, 174-234) -/

/-- A non-negative binary floating-point number `m * 2^e`. -/
structure BinFloat where
  m : Nat
  e : Int
  deriving DecidableEq, Repr

/-- The calls into EGL / GL that the modelled functions make, with the
arguments that vary (the display argument is always `DISPLAY`; `none` stands
for `EGL_NO_SURFACE` / `EGL_NO_CONTEXT`; attribute lists are fixed in the
source and left out; `glTexImage2D` carries the bytes of its buffer;
`glReadPixels` fills the buffer it is given, whose address is left out). -/
inductive NativeCall where
  | eglMakeCurrent (draw read context : Option Nat)
  | eglDestroyContext (context : Nat)
  | glDeleteProgram (obj : Nat)
  | glDeleteBuffers (obj : Nat)
  | glDeleteFramebuffers (obj : Nat)
  | glDeleteRenderbuffers (obj : Nat)
  | glDeleteShader (obj : Nat)
  | glDeleteTextures (obj : Nat)
  | glDeleteVertexArraysOES (obj : Nat)
  | eglGetDisplay
  | eglInitialize
  | eglTerminate
  | eglChooseConfig
  | eglCreateContext (config : Nat)
  | eglCreatePbufferSurface (config : Nat) (width height : Int)
  | glGetString (name : Nat)
  | glTexImage2D (target : Nat) (level : Int) (internalformat : Nat) (width height border : Int)
      (format type : Nat) (data : List Nat)
  | glRenderbufferStorage (target internalformat : Nat) (width height : Int)
  | glFramebufferTexture2D (target attachment : Nat) (textarget texture level : Int)
  | glFramebufferRenderbuffer (target attachment renderbuffertarget renderbuffer : Nat)
  | glBindFramebuffer (target buffer : Int)
  | glBindTexture (target : Nat) (texture : Int)
  | glClearColor (red green blue alpha : BinFloat)
  | glClear (mask : Int)
  | glCopyTexImage2D (target : Nat) (level : Int) (internalformat : Nat)
      (x y width height border : Int)
  | glReadPixels (x y width height : Int) (format type : Nat)
  deriving DecidableEq, Repr

/-- The process: the contexts by address, the static members of
`WebGLRenderingContext` (webgl.cc 7-10) and the native calls issued so far,
oldest first. -/
structure World where
  heap : Nat → WebGLRenderingContext
  ACTIVE : Option Nat
  CONTEXT_LIST_HEAD : Option Nat
  HAS_DISPLAY : Bool
  calls : List NativeCall

/-- A store through the pointer `p`: the object at `p` becomes `f` of it. -/
def World.modify (w : World) (p : Nat)
    (f : WebGLRenderingContext → WebGLRenderingContext) : World :=
  { w with heap := fun q => if q = p then f (w.heap q) else w.heap q }

/-- `registerContext` (webgl.h 66-73). -/
def registerContext (w : World) (this : Nat) : World :=
  let w := match w.CONTEXT_LIST_HEAD with
    | some head => w.modify head (fun c => { c with prev := some this })
    | none => w
  let w := w.modify this (fun c => { c with next := w.CONTEXT_LIST_HEAD })
  let w := w.modify this (fun c => { c with prev := none })
  { w with CONTEXT_LIST_HEAD := some this }

/-- First statement of `unregisterContext` (webgl.h 75-77):
`if(next) next->prev = this->prev;`. -/
def unlinkNext (w : World) (this : Nat) : World :=
  match (w.heap this).next with
  | some next => w.modify next (fun c => { c with prev := (w.heap this).prev })
  | none => w

/-- Second statement of `unregisterContext` (webgl.h 78-80):
`if(prev) prev->next = this->next;`. -/
def unlinkPrev (w : World) (this : Nat) : World :=
  match (w.heap this).prev with
  | some prev => w.modify prev (fun c => { c with next := (w.heap this).next })
  | none => w

/-- Third statement of `unregisterContext` (webgl.h 81-83):
`if(CONTEXT_LIST_HEAD == this) CONTEXT_LIST_HEAD = this->next;`. -/
def unlinkHead (w : World) (this : Nat) : World :=
  if w.CONTEXT_LIST_HEAD = some this then
    { w with CONTEXT_LIST_HEAD := (w.heap this).next }
  else w

/-- `unregisterContext` (webgl.h 74-85): the three statements above, then
`next = prev = NULL;`. -/
def unregisterContext (w : World) (this : Nat) : World :=
  (unlinkHead (unlinkPrev (unlinkNext w this) this) this).modify this
    (fun c => { c with next := none, prev := none })

/-- The `eglMakeCurrent(DISPLAY, surface, surface, context)` call of a context. -/
def makeCurrentCall (self : WebGLRenderingContext) : NativeCall :=
  .eglMakeCurrent (some self.surface) (some self.surface) (some self.context)

/-- `WebGLRenderingContext::setActive` (webgl.cc 149-162). `egl` is the driver:
applied to the native calls issued so far, the last of which is an
`eglMakeCurrent`, it tells whether that call is accepted. -/
def setActive (egl : List NativeCall → Bool) (w : World) (this : Nat) : Bool × World :=
  if (w.heap this).state ≠ GLCONTEXT_STATE_OK then (false, w)
  else if some this = w.ACTIVE then (true, w)
  else
    let w := { w with calls := w.calls ++ [makeCurrentCall (w.heap this)] }
    if egl w.calls = false then
      (false, w.modify this (fun c => { c with state := GLCONTEXT_STATE_ERROR }))
    else (true, { w with ACTIVE := some this })

/-- The native delete call `dispose` issues for a registry entry
(webgl.cc 198-222); every enumerator has its case. -/
def deleteCall (type : GLObjectType) (obj : Nat) : NativeCall :=
  match type with
  | GLOBJECT_TYPE_PROGRAM => .glDeleteProgram obj
  | GLOBJECT_TYPE_BUFFER => .glDeleteBuffers obj
  | GLOBJECT_TYPE_FRAMEBUFFER => .glDeleteFramebuffers obj
  | GLOBJECT_TYPE_RENDERBUFFER => .glDeleteRenderbuffers obj
  | GLOBJECT_TYPE_SHADER => .glDeleteShader obj
  | GLOBJECT_TYPE_TEXTURE => .glDeleteTextures obj
  | GLOBJECT_TYPE_VERTEX_ARRAY => .glDeleteVertexArraysOES obj

/-- The loop over `objects` in `dispose` (webgl.cc 190-223): one native delete
call per entry, in the map's order. -/
def deleteObjects (w : World) (objects : List GLObjectReference) : World :=
  objects.foldl (fun w iter => { w with calls := w.calls ++ [deleteCall iter.2 iter.1] }) w

/-- `WebGLRenderingContext::dispose` (webgl.cc 174-234). -/
def dispose (egl : List NativeCall → Bool) (w : World) (this : Nat) : World :=
  let w := unregisterContext w this
  let active := setActive egl w this
  if active.1 = false then
    active.2.modify this (fun c => { c with state := GLCONTEXT_STATE_ERROR })
  else
    let w := active.2.modify this (fun c => { c with state := GLCONTEXT_STATE_DESTROY })
    let w := deleteObjects w (w.heap this).objects
    let w := { w with
      calls := w.calls ++ [NativeCall.eglMakeCurrent none none none], ACTIVE := none }
    { w with calls := w.calls ++ [NativeCall.eglDestroyContext (w.heap this).context] }

/-- A call of `setActive` or `dispose` on the context at an address. -/
inductive ContextCall where
  | setActive (this : Nat)
  | dispose (this : Nat)
  deriving DecidableEq, Repr

/-- The process after one such call. -/
def step (egl : List NativeCall → Bool) (w : World) : ContextCall → World
  | .setActive this => (setActive egl w this).2
  | .dispose this => dispose egl w this

/-- The process after a sequence of such calls, oldest first. -/
def run (egl : List NativeCall → Bool) (w : World) (calls : List ContextCall) : World :=
  calls.foldl (step egl) w

/-! ## Floating-point arithmetic used by the premultiply step

The source computes `alpha / 255.0` in `double`, narrows it to `float` where
the variable is a `float`, multiplies and converts back to an integer. The
values are IEEE-754 binary64 / binary32 numbers, rounded to nearest, ties to
even; all of them are non-negative and far from the exponent limits, so a
number is a pair `m * 2^e` and only the significand width matters. -/

/-- The quotient `n / d` rounded to the nearest natural number, ties to the
even one. -/
def divRoundEven (n d : Nat) : Nat :=
  if 2 * (n % d) < d then n / d
  else if d < 2 * (n % d) then n / d + 1
  else if (n / d) % 2 = 0 then n / d
  else n / d + 1

/-- Helper of `log2`: halve at most `fuel` times. -/
def log2Aux : Nat → Nat → Nat
  | 0, _ => 0
  | fuel + 1, n => if 2 ≤ n then log2Aux fuel (n / 2) + 1 else 0

/-- The position of the leading bit of `n` (0 for `n ≤ 1`). -/
def log2 (n : Nat) : Nat := log2Aux n n

/-- Numerator of the value of a `BinFloat` as a fraction. -/
def BinFloat.num (x : BinFloat) : Nat :=
  if 0 ≤ x.e then x.m * 2 ^ x.e.toNat else x.m

/-- Denominator of the value of a `BinFloat` as a fraction. -/
def BinFloat.den (x : BinFloat) : Nat :=
  if 0 ≤ x.e then 1 else 2 ^ (-x.e).toNat

/-- The fraction `n / d` (`d > 0`) rounded to a number with `p` significand
bits. `k` is the exponent of the leading bit of `n / d`; the result is the
multiple of `2^(k - (p - 1))` nearest to `n / d`. -/
def roundQuot (p n d : Nat) : BinFloat :=
  if n = 0 then ⟨0, 0⟩
  else
    let k : Int := (log2 n : Int) - (log2 d : Int) -
      (if n * 2 ^ log2 d < d * 2 ^ log2 n then 1 else 0)
    let e : Int := k - ((p : Int) - 1)
    if 0 ≤ e then ⟨divRoundEven n (d * 2 ^ e.toNat), e⟩
    else ⟨divRoundEven (n * 2 ^ (-e).toNat) d, e⟩

/-- The `double` quotient of two integers, `a / 255.0` (binary64 has 53
significand bits). -/
def doubleDiv (a b : Nat) : BinFloat := roundQuot 53 a b

/-- Narrowing of a `double` to `float` (binary32 has 24 significand bits). -/
def toFloat32 (x : BinFloat) : BinFloat := roundQuot 24 x.num x.den

/-- The product of the integer `c` (converted exactly) and `x`, rounded to `p`
significand bits. -/
def mulNat (p c : Nat) (x : BinFloat) : BinFloat := roundQuot p (c * x.num) x.den

/-- Conversion of a floating-point value to an integer: truncation. -/
def BinFloat.trunc (x : BinFloat) : Nat := x.num / x.den

/-! ## `unpackPixels`: the buffer (webgl.cc 759-815) -/

/-- The call `memcpy(dst + dOff, src + sOff, n)`: after `n` bytes have been
copied. -/
def memcpy (dst : List Nat) (dOff : Nat) (src : List Nat) (sOff : Nat) : Nat → List Nat
  | 0 => dst
  | n + 1 => (memcpy dst dOff src sOff n).set (dOff + n) (src.getD (sOff + n) 0)

/-- The buffer `unpacked` after the first `n` iterations of the flip loop
(webgl.cc 763-768): iteration `n` has `i = n`, `j = height - 1 - n` and copies
`width * pixelSize` bytes from `pixels + i*rowStride` to
`unpacked + j*rowStride`. -/
def flipRows (pixels : List Nat) (rowStride pixelSize width height : Int)
    (unpacked : List Nat) : Nat → List Nat
  | 0 => unpacked
  | n + 1 =>
    memcpy (flipRows pixels rowStride pixelSize width height unpacked n)
      (wrapInt32 ((height - 1 - (n : Int)) * rowStride)).toNat
      pixels
      (wrapInt32 ((n : Int) * rowStride)).toNat
      (wrapInt32 (width * pixelSize)).toNat

/-- The buffer `unpacked` as it stands before the premultiply step
(webgl.cc 759-774). `fresh k` is the byte the new allocation happens to hold at
offset `k`: `new unsigned char[imageSize]` does not initialise it. With flip-Y
the loop runs while `j >= 0`, that is `height` times. -/
def unpackedRows (self : WebGLRenderingContext) (type format : Nat) (width height : Int)
    (pixels : List Nat) (fresh : Nat → Nat) : List Nat :=
  let pixelSize := pixelSize type format
  let rowStride := rowStride type format width self.unpack_alignment
  let imageSize := imageSize type format width height self.unpack_alignment
  let unpacked := (List.range imageSize.toNat).map fresh
  if self.unpack_flip_y then
    flipRows pixels rowStride pixelSize width height unpacked height.toNat
  else
    memcpy unpacked 0 pixels 0 imageSize.toNat

/-- The body of the premultiply loops for the pixel at byte offset `pixel` of
`unpacked` (webgl.cc 783-809). -/
def premultiplyPixel (type format : Nat) (unpacked : List Nat) (pixel : Nat) : List Nat :=
  if format = GL_LUMINANCE_ALPHA then
    unpacked.set pixel
      ((mulNat 53 (unpacked.getD pixel 0)
        (doubleDiv (unpacked.getD (pixel + 1) 0) 255)).trunc % 256)
  else if type = GL_UNSIGNED_BYTE then
    let scale := toFloat32 (doubleDiv (unpacked.getD (pixel + 3) 0) 255)
    let u0 := unpacked.set pixel ((mulNat 24 (unpacked.getD pixel 0) scale).trunc % 256)
    let u1 := u0.set (pixel + 1) ((mulNat 24 (u0.getD (pixel + 1) 0) scale).trunc % 256)
    u1.set (pixel + 2) ((mulNat 24 (u1.getD (pixel + 2) 0) scale).trunc % 256)
  else if type = GL_UNSIGNED_SHORT_4_4_4_4 then
    let r := unpacked.getD pixel 0 &&& 0x0f
    let g := unpacked.getD pixel 0 >>> 4
    let b := unpacked.getD (pixel + 1) 0 &&& 0x0f
    let a := unpacked.getD (pixel + 1) 0 >>> 4
    let scale := toFloat32 (doubleDiv a 15)
    let r := (mulNat 24 r scale).trunc
    let g := (mulNat 24 g scale).trunc
    let b := (mulNat 24 b scale).trunc
    (unpacked.set pixel ((r + (g <<< 4)) % 256)).set (pixel + 1) ((b + (a <<< 4)) % 256)
  else if type = GL_UNSIGNED_SHORT_5_5_5_1 then
    if unpacked.getD pixel 0 &&& 1 = 0 then
      (unpacked.set pixel 1).set (pixel + 1) 0
    else unpacked
  else unpacked

/-- The byte offset `(row * rowStride) + (col * pixelSize)` of a pixel
(webgl.cc 783). -/
def pixelOffset (rowStride pixelSize : Int) (row col : Nat) : Nat :=
  (wrapInt32 ((row : Int) * rowStride) + wrapInt32 ((col : Int) * pixelSize)).toNat

/-- The buffer after the first `n` iterations of the inner (`col`) loop of row
`row` (webgl.cc 782-810). -/
def premultiplyCols (type format : Nat) (rowStride pixelSize : Int) (row : Nat)
    (unpacked : List Nat) : Nat → List Nat
  | 0 => unpacked
  | n + 1 =>
    premultiplyPixel type format
      (premultiplyCols type format rowStride pixelSize row unpacked n)
      (pixelOffset rowStride pixelSize row n)

/-- The buffer after the first `n` iterations of the outer (`row`) loop
(webgl.cc 781-811); each runs the inner loop `width` times. -/
def premultiplyRows (type format : Nat) (rowStride pixelSize width : Int)
    (unpacked : List Nat) : Nat → List Nat
  | 0 => unpacked
  | n + 1 =>
    premultiplyCols type format rowStride pixelSize n
      (premultiplyRows type format rowStride pixelSize width unpacked n) width.toNat

/-- `WebGLRenderingContext::unpackPixels` (webgl.cc 722-815): the returned
buffer. -/
def unpackPixels (self : WebGLRenderingContext) (type format : Nat) (width height : Int)
    (pixels : List Nat) (fresh : Nat → Nat) : List Nat :=
  let unpacked := unpackedRows self type format width height pixels fresh
  if self.unpack_premultiply_alpha ∧
      (format = GL_LUMINANCE_ALPHA ∨ format = GL_RGBA) then
    premultiplyRows type format (rowStride type format width self.unpack_alignment)
      (pixelSize type format) width unpacked height.toNat
  else unpacked

/-- The pixel at byte offset `pixel` of `buf` has its alpha at the maximum, for
the three layouts with an alpha channel that the premultiply step scales by:
alpha byte 255 in 1-byte `RGBA` (byte 3) and 1-byte `LUMINANCE_ALPHA` (byte 1),
alpha bit 1 in packed 5-5-5-1 (bit 0 of byte 0). -/
def alphaIsMax (type format : Nat) (buf : List Nat) (pixel : Nat) : Prop :=
  (type = GL_UNSIGNED_BYTE ∧ format = GL_RGBA ∧ buf.getD (pixel + 3) 0 = 255) ∨
  (type = GL_UNSIGNED_BYTE ∧ format = GL_LUMINANCE_ALPHA ∧ buf.getD (pixel + 1) 0 = 255) ∨
  (type = GL_UNSIGNED_SHORT_5_5_5_1 ∧ format = GL_RGBA ∧ buf.getD pixel 0 % 2 = 1)

instance (type format : Nat) (buf : List Nat) (pixel : Nat) :
    Decidable (alphaIsMax type format buf pixel) := by
  unfold alphaIsMax
  infer_instance

/-! ## Auxiliary relations and the concrete inputs of the examples -/

/-- Two contexts agree on everything but their list links. -/
def SameButLinks (c c' : WebGLRenderingContext) : Prop :=
  c'.state = c.state ∧ c'.objects = c.objects ∧ c'.context = c.context ∧
  c'.surface = c.surface ∧ c'.lastError = c.lastError

/-- Two processes agree on everything but the context list. -/
def World.SameButLinks (w w' : World) : Prop :=
  w'.calls = w.calls ∧ w'.ACTIVE = w.ACTIVE ∧ w'.HAS_DISPLAY = w.HAS_DISPLAY ∧
  ∀ q, WebGL.SameButLinks (w.heap q) (w'.heap q)

/-- A context with flip-Y set, premultiply-alpha clear and the default unpack
alignment 4. -/
def flipContext : WebGLRenderingContext :=
  { newContext GLCONTEXT_STATE_OK 1 1 with unpack_flip_y := true }

/-- A context with premultiply-alpha set, flip-Y clear and the default unpack
alignment 4. -/
def premultiplyContext : WebGLRenderingContext :=
  { newContext GLCONTEXT_STATE_OK 1 1 with unpack_premultiply_alpha := true }

/-- The process used in the witnesses: contexts at addresses 0 and 1, both
Ready, with native context handles 10, 11 and surfaces 20, 21; nothing is
current and no native call has been issued. -/
def twoContexts : World :=
  { heap := fun p =>
      if p = 0 then newContext GLCONTEXT_STATE_OK 10 20 else newContext GLCONTEXT_STATE_OK 11 21
    ACTIVE := none, CONTEXT_LIST_HEAD := none, HAS_DISPLAY := true, calls := [] }

/-- The two-context process in which context 0 has registered texture 3,
buffer 1, texture 3 again, shader 3 and buffer 2, and unregistered buffer 1. -/
def twoContextsWithObjects : World :=
  { twoContexts with
    heap := fun p =>
      if p = 0 then
        { newContext GLCONTEXT_STATE_OK 10 20 with
          objects := registryAfter
            [.register GLOBJECT_TYPE_TEXTURE 3, .register GLOBJECT_TYPE_BUFFER 1,
             .register GLOBJECT_TYPE_TEXTURE 3, .register GLOBJECT_TYPE_SHADER 3,
             .register GLOBJECT_TYPE_BUFFER 2, .unregister GLOBJECT_TYPE_BUFFER 1] }
      else newContext GLCONTEXT_STATE_OK 11 21 }

/-! ## The context list as a list, and `DisposeAll` (webgl.h 63-85, webgl.cc 245-256) -/

/-- Reading of the intrusive list: starting at the pointer `cur`, whose node
must have `prev` as its `prev` link, following `next` visits exactly the
nodes of the list and ends in `NULL`; every node's `prev` is the node before
it. -/
def linked (heap : Nat → WebGLRenderingContext) : Option Nat → Option Nat → List Nat → Prop
  | _, cur, [] => cur = none
  | prev, cur, c :: rest =>
    cur = some c ∧ (heap c).prev = prev ∧ linked heap (some c) (heap c).next rest

instance linkedDecidable (heap : Nat → WebGLRenderingContext) :
    ∀ (prev cur : Option Nat) (l : List Nat), Decidable (linked heap prev cur l)
  | _, cur, [] => inferInstanceAs (Decidable (cur = none))
  | prev, cur, c :: rest =>
    have := linkedDecidable heap (some c) (heap c).next rest
    inferInstanceAs (Decidable (cur = some c ∧ (heap c).prev = prev ∧
      linked heap (some c) (heap c).next rest))

/-- The process-wide context set is the duplicate-free list `l`: the nodes
reachable from `CONTEXT_LIST_HEAD` through `next`, with `prev` mirroring
`next` and the head's `prev` being `NULL`. -/
def IsContextList (w : World) (l : List Nat) : Prop :=
  l.Nodup ∧ linked w.heap none w.CONTEXT_LIST_HEAD l

instance (w : World) (l : List Nat) : Decidable (IsContextList w l) := by
  unfold IsContextList
  infer_instance

/-- The loop `while(CONTEXT_LIST_HEAD) CONTEXT_LIST_HEAD->dispose();` of
`DisposeAll` (webgl.cc 248-250), run for at most `fuel` iterations: `none`
when the loop has not ended by then. -/
def disposeLoop (egl : List NativeCall → Bool) : Nat → World → Option World
  | 0, w => if w.CONTEXT_LIST_HEAD = none then some w else none
  | fuel + 1, w =>
    match w.CONTEXT_LIST_HEAD with
    | none => some w
    | some head => disposeLoop egl fuel (dispose egl w head)

/-- The rest of `DisposeAll` after the loop (webgl.cc 252-255). -/
def terminateDisplay (w : World) : World :=
  if w.HAS_DISPLAY = true then
    { w with calls := w.calls ++ [NativeCall.eglTerminate], HAS_DISPLAY := false }
  else w

/-- `WebGLRenderingContext::DisposeAll` (webgl.cc 245-256) with at most `fuel`
iterations of its loop. -/
def DisposeAll (egl : List NativeCall → Bool) (fuel : Nat) (w : World) : Option World :=
  (disposeLoop egl fuel w).map terminateDisplay

/-- The two-context process with both contexts in the context list, context 1
registered last: the list is `[1, 0]` and context 1 is `ACTIVE`. -/
def twoContextsRegistered : World :=
  { (registerContext (registerContext twoContextsWithObjects 0) 1) with ACTIVE := some 1 }

/-! ## More constants of the GLES2 / EGL headers -/

/-- Modelled from the spec: header constant, see `GL_NO_ERROR`. -/
def GL_EXTENSIONS : Nat := 0x1F03
/-- Modelled from the spec: header constant, see `GL_NO_ERROR`. -/
def GL_DEPTH_COMPONENT16 : Nat := 0x81A5
/-- Modelled from the spec: header constant (`GLES2/gl2ext.h`), see `GL_NO_ERROR`. -/
def GL_DEPTH_COMPONENT24_OES : Nat := 0x81A6
/-- Modelled from the spec: header constant (`GLES2/gl2ext.h`), see `GL_NO_ERROR`. -/
def GL_DEPTH_COMPONENT32_OES : Nat := 0x81A7
/-- Modelled from the spec: header constant (`GLES2/gl2ext.h`), see `GL_NO_ERROR`. -/
def GL_DEPTH_STENCIL_OES : Nat := 0x84F9
/-- Modelled from the spec: header constant (`GLES2/gl2ext.h`), see `GL_NO_ERROR`. -/
def GL_DEPTH24_STENCIL8_OES : Nat := 0x88F0
/-- Modelled from the spec: header constant, see `GL_NO_ERROR`. -/
def GL_DEPTH_ATTACHMENT : Nat := 0x8D00
/-- Modelled from the spec: header constant, see `GL_NO_ERROR`. -/
def GL_STENCIL_ATTACHMENT : Nat := 0x8D20

/-! ## The constructor (webgl.cc 12-16, 31-147) -/

/-- The array `REQUIRED_EXTENSIONS` (webgl.cc 12-16), without its `NULL`
terminator. -/
def REQUIRED_EXTENSIONS : List (List Char) :=
  ["GL_OES_packed_depth_stencil".toList, "GL_ANGLE_instanced_arrays".toList]

/-- The test `strstr(haystack, needle) != NULL` of the C library: `needle`
occurs in `haystack`. -/
def strstr : List Char → List Char → Bool
  | [], needle => needle.isEmpty
  | c :: rest, needle => needle.isPrefixOf (c :: rest) || strstr rest needle

/-- What the EGL / GL driver answers. Every answer is a function of the native
calls issued so far, the last of which is the call being answered.
`eglGetDisplay`, `eglCreateContext` and `eglCreatePbufferSurface` answer `none`
for `EGL_NO_DISPLAY`, `EGL_NO_CONTEXT` and `EGL_NO_SURFACE`; `eglChooseConfig`
answers its return value, `num_config` and the value `config` holds after the
call; `glGetString` answers the extension string. -/
structure Driver where
  eglGetDisplay : List NativeCall → Option Nat
  eglInitialize : List NativeCall → Bool
  eglChooseConfig : List NativeCall → Bool × Int × Nat
  eglCreateContext : List NativeCall → Option Nat
  eglCreatePbufferSurface : List NativeCall → Option Nat
  eglMakeCurrent : List NativeCall → Bool
  glGetString : List NativeCall → List Char

/-- The process after one more native call has been issued. -/
def issue (w : World) (call : NativeCall) : World :=
  { w with calls := w.calls ++ [call] }

/-- The two statements `state = GLCONTEXT_STATE_ERROR; return;` of a failing
constructor step. -/
def constructFail (w : World) (this : Nat) : World :=
  w.modify this (fun c => { c with state := GLCONTEXT_STATE_ERROR })

/-- The member initialiser list of the constructor (webgl.cc 42-49); `objects`
is default-constructed, the native handles and `preferredDepth` are not
initialised and keep what the memory held. -/
def constructInit (w : World) (this : Nat) : World :=
  w.modify this (fun c =>
    { c with
      state := GLCONTEXT_STATE_INIT, unpack_flip_y := false, unpack_premultiply_alpha := false
      unpack_colorspace_conversion := 0x9244, unpack_alignment := 4, objects := []
      next := none, prev := none, lastError := GL_NO_ERROR })

/-- The loop over `REQUIRED_EXTENSIONS` (webgl.cc 132-138): false as soon as
one of them is not found in the extension string. -/
def checkExtensions (extensionString : List Char) : List (List Char) → Bool
  | [] => true
  | rext :: rest =>
    if strstr extensionString rext = false then false
    else checkExtensions extensionString rest

/-- The choice of the preferred depth format (webgl.cc 141-146). -/
def selectPreferredDepth (extensionString : List Char) : Nat :=
  if strstr extensionString "GL_OES_depth32".toList = true then GL_DEPTH_COMPONENT32_OES
  else if strstr extensionString "GL_OES_depth24".toList = true then GL_DEPTH_COMPONENT24_OES
  else GL_DEPTH_COMPONENT16

/-- The constructor from `initPointers()` on (webgl.cc 125-146). `initPointers`
(defined outside the sources) loads the function pointers and has no result
the constructor looks at. -/
def constructExtensions (drv : Driver) (w : World) (this : Nat) : World :=
  let w := issue w (NativeCall.glGetString GL_EXTENSIONS)
  let extensionString := drv.glGetString w.calls
  if checkExtensions extensionString REQUIRED_EXTENSIONS = false then
    constructFail (dispose drv.eglMakeCurrent w this) this
  else
    w.modify this (fun c => { c with preferredDepth := selectPreferredDepth extensionString })

/-- The constructor from `//Set active` on (webgl.cc 114-146). -/
def constructMakeCurrent (drv : Driver) (w : World) (this : Nat) : World :=
  let w := issue w (makeCurrentCall (w.heap this))
  if drv.eglMakeCurrent w.calls = false then constructFail w this
  else
    let w := w.modify this (fun c => { c with state := GLCONTEXT_STATE_OK })
    let w := registerContext w this
    let w := { w with ACTIVE := some this }
    constructExtensions drv w this

/-- The constructor from the creation of the surface on (webgl.cc 103-146);
`EGL_NO_SURFACE` is stored as 0. -/
def constructSurface (drv : Driver) (w : World) (this : Nat) (width height : Int) : World :=
  let w := issue w
    (NativeCall.eglCreatePbufferSurface (w.heap this).config (wrapInt32 width) (wrapInt32 height))
  let surface := drv.eglCreatePbufferSurface w.calls
  let w := w.modify this (fun c => { c with surface := surface.getD 0 })
  if surface = none then constructFail w this
  else constructMakeCurrent drv w this

/-- The constructor from `//Create context` on (webgl.cc 92-146);
`EGL_NO_CONTEXT` is stored as 0. -/
def constructContext (drv : Driver) (w : World) (this : Nat) (width height : Int) : World :=
  let w := issue w (NativeCall.eglCreateContext (w.heap this).config)
  let context := drv.eglCreateContext w.calls
  let w := w.modify this (fun c => { c with context := context.getD 0 })
  if context = none then constructFail w this
  else constructSurface drv w this width height

/-- The constructor from `//Set up configuration` on (webgl.cc 69-146). -/
def constructConfig (drv : Driver) (w : World) (this : Nat) (width height : Int) : World :=
  let w := issue w NativeCall.eglChooseConfig
  let chosen := drv.eglChooseConfig w.calls
  let w := w.modify this (fun c => { c with config := chosen.2.2 })
  if chosen.1 = false ∨ chosen.2.1 ≠ 1 then constructFail w this
  else constructContext drv w this width height

/-- The constructor `WebGLRenderingContext::WebGLRenderingContext`
(webgl.cc 31-147) for the object at address `this`; only `width` and `height`
of its parameters are used by the body. -/
def construct (drv : Driver) (w : World) (this : Nat) (width height : Int) : World :=
  let w := constructInit w this
  if w.HAS_DISPLAY = false then
    let w := issue w NativeCall.eglGetDisplay
    if drv.eglGetDisplay w.calls = none then constructFail w this
    else
      let w := issue w NativeCall.eglInitialize
      if drv.eglInitialize w.calls = false then constructFail w this
      else constructConfig drv { w with HAS_DISPLAY := true } this width height
  else constructConfig drv w this width height

/-! ### The steps of a construction, as the driver sees them

The native calls a construction has issued when it reaches each step, and the
handles it has received, written out from the process `w` it starts in. -/

/-- The calls up to and including `eglChooseConfig`. -/
def callsAtChooseConfig (w : World) : List NativeCall :=
  w.calls ++ (if w.HAS_DISPLAY = false then [NativeCall.eglGetDisplay, NativeCall.eglInitialize]
    else []) ++ [NativeCall.eglChooseConfig]

/-- The config the driver chose. -/
def chosenConfig (drv : Driver) (w : World) : Nat :=
  (drv.eglChooseConfig (callsAtChooseConfig w)).2.2

/-- The calls up to and including `eglCreateContext`. -/
def callsAtCreateContext (drv : Driver) (w : World) : List NativeCall :=
  callsAtChooseConfig w ++ [NativeCall.eglCreateContext (chosenConfig drv w)]

/-- The calls up to and including `eglCreatePbufferSurface`. -/
def callsAtCreateSurface (drv : Driver) (w : World) (width height : Int) : List NativeCall :=
  callsAtCreateContext drv w ++
    [NativeCall.eglCreatePbufferSurface (chosenConfig drv w) (wrapInt32 width) (wrapInt32 height)]

/-- The calls up to and including the `eglMakeCurrent` of the constructor. -/
def callsAtMakeCurrent (drv : Driver) (w : World) (width height : Int) : List NativeCall :=
  callsAtCreateSurface drv w width height ++
    [NativeCall.eglMakeCurrent
      (some ((drv.eglCreatePbufferSurface (callsAtCreateSurface drv w width height)).getD 0))
      (some ((drv.eglCreatePbufferSurface (callsAtCreateSurface drv w width height)).getD 0))
      (some ((drv.eglCreateContext (callsAtCreateContext drv w)).getD 0))]

/-- The extension string the driver returns to the constructor. -/
def constructedExtensionString (drv : Driver) (w : World) (width height : Int) : List Char :=
  drv.glGetString (callsAtMakeCurrent drv w width height ++ [NativeCall.glGetString GL_EXTENSIONS])

/-- Every step of the construction succeeds: the display is there already or
is obtained and initialised, `eglChooseConfig` returns true with `num_config`
1, the native context and the surface are created, the make-current is
accepted and every required extension occurs in the extension string. -/
def ConstructionSucceeds (drv : Driver) (w : World) (width height : Int) : Prop :=
  (w.HAS_DISPLAY = true ∨
    (drv.eglGetDisplay (w.calls ++ [NativeCall.eglGetDisplay]) ≠ none ∧
      drv.eglInitialize (w.calls ++ [NativeCall.eglGetDisplay, NativeCall.eglInitialize])
        = true)) ∧
  ((drv.eglChooseConfig (callsAtChooseConfig w)).1 = true ∧
    (drv.eglChooseConfig (callsAtChooseConfig w)).2.1 = 1) ∧
  drv.eglCreateContext (callsAtCreateContext drv w) ≠ none ∧
  drv.eglCreatePbufferSurface (callsAtCreateSurface drv w width height) ≠ none ∧
  drv.eglMakeCurrent (callsAtMakeCurrent drv w width height) = true ∧
  (∀ rext ∈ REQUIRED_EXTENSIONS, strstr (constructedExtensionString drv w width height) rext = true)

instance (drv : Driver) (w : World) (width height : Int) :
    Decidable (ConstructionSucceeds drv w width height) := by
  unfold ConstructionSucceeds
  infer_instance

/-- A driver that accepts everything: display 1, one config 2, context 3,
surface 4, and the given extension string. -/
def acceptingDriver (extensions : List Char) : Driver :=
  { eglGetDisplay := fun _ => some 1, eglInitialize := fun _ => true
    eglChooseConfig := fun _ => (true, 1, 2), eglCreateContext := fun _ => some 3
    eglCreatePbufferSurface := fun _ => some 4, eglMakeCurrent := fun _ => true
    glGetString := fun _ => extensions }

/-- A process in which nothing has happened yet: no display, no context in the
list, no native call. -/
def emptyWorld : World :=
  { heap := fun _ => newContext GLCONTEXT_STATE_INIT 0 0
    ACTIVE := none, CONTEXT_LIST_HEAD := none, HAS_DISPLAY := false, calls := [] }

/-! ## Entry points (webgl.cc 20-29, 817-880, 1005-1036, 1499-1526, 1589-1605) -/

/-- The macro `GL_BOILERPLATE` (webgl.cc 20-29) for a receiver that wraps the
context at `this`: the result of `inst->setActive()`; false makes the entry
point throw "Invalid GL context" and return. -/
def GL_BOILERPLATE (egl : List NativeCall → Bool) (w : World) (this : Nat) : Bool × World :=
  setActive egl w this

/-- `GL_METHOD(RenderbufferStorage)` (webgl.cc 1589-1605). -/
def RenderbufferStorage (egl : List NativeCall → Bool) (w : World) (this : Nat)
    (target internalformat : Nat) (width height : Int) : World :=
  let inst := GL_BOILERPLATE egl w this
  if inst.1 = false then inst.2
  else
    let internalformat :=
      if internalformat = GL_DEPTH_STENCIL_OES then GL_DEPTH24_STENCIL8_OES
      else if internalformat = GL_DEPTH_COMPONENT32_OES then (inst.2.heap this).preferredDepth
      else internalformat
    issue inst.2 (NativeCall.glRenderbufferStorage target internalformat width height)

/-- `GL_METHOD(FramebufferTexture2D)` (webgl.cc 1005-1036). -/
def FramebufferTexture2D (egl : List NativeCall → Bool) (w : World) (this : Nat)
    (target attachment : Nat) (textarget texture level : Int) : World :=
  let inst := GL_BOILERPLATE egl w this
  if inst.1 = false then inst.2
  else if attachment = 0x821A then
    issue
      (issue inst.2
        (NativeCall.glFramebufferTexture2D target GL_DEPTH_ATTACHMENT textarget texture level))
      (NativeCall.glFramebufferTexture2D target GL_STENCIL_ATTACHMENT textarget texture level)
  else
    issue inst.2 (NativeCall.glFramebufferTexture2D target attachment textarget texture level)

/-- `GL_METHOD(FramebufferRenderbuffer)` (webgl.cc 1499-1526). -/
def FramebufferRenderbuffer (egl : List NativeCall → Bool) (w : World) (this : Nat)
    (target attachment renderbuffertarget renderbuffer : Nat) : World :=
  let inst := GL_BOILERPLATE egl w this
  if inst.1 = false then inst.2
  else if attachment = 0x821A then
    issue
      (issue inst.2
        (NativeCall.glFramebufferRenderbuffer target GL_DEPTH_ATTACHMENT renderbuffertarget
          renderbuffer))
      (NativeCall.glFramebufferRenderbuffer target GL_STENCIL_ATTACHMENT renderbuffertarget
        renderbuffer)
  else
    issue inst.2
      (NativeCall.glFramebufferRenderbuffer target attachment renderbuffertarget renderbuffer)

/-- The value a 64-bit `size_t` holds for the integer `x`. -/
def wrapSizeT (x : Int) : Nat := (x % 18446744073709551616).toNat

/-- The `length` of the zero-filled buffer of `TexImage2D` (webgl.cc 862-865):
`width * height * 4` is computed in `int` and converted to `size_t`, the
multiplication by 4 for `GL_FLOAT` is done in `size_t`. -/
def zeroBufferLength (width height : Int) (type : Nat) : Nat :=
  let length := wrapSizeT (wrapInt32 (wrapInt32 (width * height) * 4))
  if type = GL_FLOAT then wrapSizeT ((length : Int) * 4) else length

/-- `GL_METHOD(TexImage2D)` (webgl.cc 817-880). `pixels` is `none` when the
ninth argument has no contents; `fresh` is what the scratch allocation of
`unpackPixels` holds. -/
def TexImage2D (egl : List NativeCall → Bool) (w : World) (this : Nat)
    (target : Nat) (level : Int) (internalformat : Nat) (width height border : Int)
    (format type : Nat) (pixels : Option (List Nat)) (fresh : Nat → Nat) : World :=
  let inst := GL_BOILERPLATE egl w this
  if inst.1 = false then inst.2
  else
    match pixels with
    | some pixels =>
      if (inst.2.heap this).unpack_flip_y = true ∨
          (inst.2.heap this).unpack_premultiply_alpha = true then
        issue inst.2
          (NativeCall.glTexImage2D target level internalformat width height border format type
            (unpackPixels (inst.2.heap this) type format width height pixels fresh))
      else
        issue inst.2
          (NativeCall.glTexImage2D target level internalformat width height border format type
            pixels)
    | none =>
      issue inst.2
        (NativeCall.glTexImage2D target level internalformat width height border format type
          (List.replicate (zeroBufferLength width height type) 0))

/-- A process whose contexts are Ready with unpack alignment 8 (set through
`PixelStorei`), context 0 current. -/
def alignment8World : World :=
  { heap := fun _ => { newContext GLCONTEXT_STATE_OK 10 20 with unpack_alignment := 8 }
    ACTIVE := some 0, CONTEXT_LIST_HEAD := none, HAS_DISPLAY := true, calls := [] }

/-- The extension string of the examples: both required extensions and
`GL_OES_depth24`. -/
def exampleExtensions : List Char :=
  "GL_OES_packed_depth_stencil GL_ANGLE_instanced_arrays GL_OES_depth24".toList

/-! ## Checkers for the premultiply table

Boolean functions that the proofs evaluate: they recompute a rounding from a
given exponent instead of searching for it. -/

/-- The function `f` applied to the value of `x`. -/
def withNat (x : Nat) (f : Nat → Bool) : Bool := Nat.rec (f 0) (fun k _ => f (k + 1)) x

/-- `f k` holds for every `k < n`. -/
def allBelow (f : Nat → Bool) (n : Nat) : Bool := Nat.rec true (fun k ih => f k && ih) n

/-- `divRoundEven` with Boolean tests. -/
def divRoundEvenB (n d : Nat) : Nat :=
  bif Nat.blt (2 * (n % d)) d then n / d
  else bif Nat.blt d (2 * (n % d)) then n / d + 1
  else bif Nat.beq ((n / d) % 2) 0 then n / d
  else n / d + 1

/-- The position of the leading bit of a byte. -/
def lg8 (c : Nat) : Nat :=
  bif Nat.blt c 16 then
    (bif Nat.blt c 4 then (bif Nat.blt c 2 then 0 else 1) else (bif Nat.blt c 8 then 2 else 3))
  else
    (bif Nat.blt c 64 then (bif Nat.blt c 32 then 4 else 5) else (bif Nat.blt c 128 then 6 else 7))

/-- For the scale `m * 2^(-D)` of alpha `a` and the colour byte `c`: the `float`
product `c * scale`, rounded with the exponent `-E` that brackets it, truncates
to `c * a / 255`. -/
def mulCheck (a m D c : Nat) : Bool :=
  withNat (c * m) fun n =>
  bif Nat.beq n 0 then Nat.beq (c * a / 255) 0
  else
    withNat (bif Nat.blt (n * 2 ^ (D - lg8 c)) (2 ^ (24 + D)) then D - lg8 c else D - lg8 c - 1)
    fun E => withNat (n * 2 ^ E) fun N =>
      Nat.ble 1 E && Nat.ble (2 ^ (23 + D)) N && Nat.blt N (2 ^ (24 + D)) &&
      Nat.beq (divRoundEvenB N (2 ^ D) / 2 ^ E % 256) (c * a / 255)

/-- The check `mulCheck` for alpha `a` and every colour byte. -/
def rowCheck (a : Nat) : Bool :=
  (fun s : BinFloat => decide (s.e ≤ 0) &&
    withNat s.m fun m => withNat (-s.e).toNat fun D => allBelow (mulCheck a m D) 256)
    (toFloat32 (doubleDiv a 255))

/-- The check `rowCheck` for the alphas `lo`, ..., `lo + n - 1`. -/
def rowsCheck (lo n : Nat) : Bool := allBelow (fun a => withNat (lo + a) rowCheck) n

/-- The premultiplied 4-4-4-4 pixel as the property describes it, for the two
bytes `b0`, `b1` of a pixel in memory order: the pixel is the little-endian
16-bit value `b0 + 256 * b1` with R in bits 15-12, G in bits 11-8, B in bits
7-4 and A in bits 3-0; R, G, B are scaled by `A / 15` rounding down and the
value is repacked. The result is the pair of bytes in memory order. -/
def premultiply4444Expected (b0 b1 : Nat) : Nat × Nat :=
  let v := b0 + 256 * b1
  let r := v / 4096 % 16
  let g := v / 256 % 16
  let b := v / 16 % 16
  let a := v % 16
  let v' := (r * a / 15) * 4096 + (g * a / 15) * 256 + (b * a / 15) * 16 + a
  (v' % 256, v' / 256)

/-! ## Sequences of constructions -/

/-- The process after the constructions `reqs` (address, width, height), oldest
first. -/
def constructAll (drv : Driver) (w : World) (reqs : List (Nat × Int × Int)) : World :=
  reqs.foldl (fun w r => construct drv w r.1 r.2.1 r.2.2) w

/-- The second process has the display flag of the first and as many
`eglGetDisplay` and `eglInitialize` calls in its trace. -/
def SameDisplaySetup (w w' : World) : Prop :=
  w'.HAS_DISPLAY = w.HAS_DISPLAY ∧
  w'.calls.count NativeCall.eglGetDisplay = w.calls.count NativeCall.eglGetDisplay ∧
  w'.calls.count NativeCall.eglInitialize = w.calls.count NativeCall.eglInitialize

/-! ## `unpackPixels`: the offsets it accesses (webgl.cc 759-812)

The offsets, relative to the start of a buffer, of the bytes the statements of
`unpackPixels` read or write, in the order of the accesses. Offsets are
integers: nothing here assumes that they are in range. -/

/-- The offsets `memcpy` touches in a buffer it is given at offset `off`, for
`n` bytes. -/
def memcpyOffsets (off : Int) (n : Nat) : List Int :=
  (List.range n).map (fun (k : Nat) => off + (k : Int))

/-- The offsets the first `n` iterations of the flip loop (webgl.cc 763-768)
read in `pixels`: iteration `i` reads `width * pixelSize` bytes from
`pixels + i*rowStride`. -/
def flipReads (rowStride pixelSize width : Int) : Nat → List Int
  | 0 => []
  | n + 1 =>
    flipReads rowStride pixelSize width n ++
      memcpyOffsets (wrapInt32 ((n : Int) * rowStride)) (wrapInt32 (width * pixelSize)).toNat

/-- The offsets the first `n` iterations of the flip loop write in `unpacked`:
iteration `i` writes at `unpacked + j*rowStride` with `j = height - 1 - i`. -/
def flipWrites (rowStride pixelSize width height : Int) : Nat → List Int
  | 0 => []
  | n + 1 =>
    flipWrites rowStride pixelSize width height n ++
      memcpyOffsets (wrapInt32 ((height - 1 - (n : Int)) * rowStride))
        (wrapInt32 (width * pixelSize)).toNat

/-- The offsets the loop body of the premultiply step (webgl.cc 783-809)
accesses for the pixel at offset `pixel`: `pixel[0]` and `pixel[1]` for
`LUMINANCE_ALPHA` and packed 4-4-4-4, `pixel[3]`, `pixel[0]`, `pixel[1]`,
`pixel[2]` for 1-byte `RGBA`, and for packed 5-5-5-1 `pixel[0]`, with
`pixel[1]` when the alpha bit is clear. -/
def premultiplyPixelAccesses (type format : Nat) (unpacked : List Nat) (pixel : Int) :
    List Int :=
  if format = GL_LUMINANCE_ALPHA then [pixel, pixel + 1]
  else if type = GL_UNSIGNED_BYTE then [pixel + 3, pixel, pixel + 1, pixel + 2]
  else if type = GL_UNSIGNED_SHORT_4_4_4_4 then [pixel, pixel + 1]
  else if type = GL_UNSIGNED_SHORT_5_5_5_1 then
    if unpacked.getD pixel.toNat 0 &&& 1 = 0 then [pixel, pixel + 1] else [pixel]
  else []

/-- The offsets the first `n` iterations of the inner loop of row `row`
access. -/
def premultiplyColsAccesses (type format : Nat) (rowStride pixelSize : Int) (row : Nat)
    (unpacked : List Nat) : Nat → List Int
  | 0 => []
  | n + 1 =>
    premultiplyColsAccesses type format rowStride pixelSize row unpacked n ++
      premultiplyPixelAccesses type format
        (premultiplyCols type format rowStride pixelSize row unpacked n)
        (wrapInt32 ((row : Int) * rowStride) + wrapInt32 ((n : Int) * pixelSize))

/-- The offsets the first `n` iterations of the outer loop access. -/
def premultiplyRowsAccesses (type format : Nat) (rowStride pixelSize width : Int)
    (unpacked : List Nat) : Nat → List Int
  | 0 => []
  | n + 1 =>
    premultiplyRowsAccesses type format rowStride pixelSize width unpacked n ++
      premultiplyColsAccesses type format rowStride pixelSize n
        (premultiplyRows type format rowStride pixelSize width unpacked n) width.toNat

/-- The offsets `unpackPixels` reads in the source `pixels` (webgl.cc 762-774). -/
def unpackPixelsSourceReads (self : WebGLRenderingContext) (type format : Nat)
    (width height : Int) : List Int :=
  if self.unpack_flip_y then
    flipReads (rowStride type format width self.unpack_alignment) (pixelSize type format) width
      height.toNat
  else
    memcpyOffsets 0 (imageSize type format width height self.unpack_alignment).toNat

/-- The offsets `unpackPixels` reads or writes in its output buffer `unpacked`
(webgl.cc 762-812): the writes of the copy, then the accesses of the
premultiply step. -/
def unpackPixelsOutputAccesses (self : WebGLRenderingContext) (type format : Nat)
    (width height : Int) (pixels : List Nat) (fresh : Nat → Nat) : List Int :=
  (if self.unpack_flip_y then
    flipWrites (rowStride type format width self.unpack_alignment) (pixelSize type format) width
      height height.toNat
  else
    memcpyOffsets 0 (imageSize type format width height self.unpack_alignment).toNat) ++
  (if self.unpack_premultiply_alpha ∧ (format = GL_LUMINANCE_ALPHA ∨ format = GL_RGBA) then
    premultiplyRowsAccesses type format (rowStride type format width self.unpack_alignment)
      (pixelSize type format) width
      (unpackedRows self type format width height pixels fresh) height.toNat
  else [])

/-! ## Reachable processes and the current context -/

/-- Whether a native call is an `eglMakeCurrent`. -/
def NativeCall.isMakeCurrent : NativeCall → Bool
  | .eglMakeCurrent _ _ _ => true
  | _ => false

/-- The most recent `eglMakeCurrent` call the driver accepted, scanning the
calls that follow the calls `done`; `cur` is the one found in `done`. The
driver `egl` is asked about a call with the trace up to and including it. -/
def lastCurrentFrom (egl : List NativeCall → Bool) (done : List NativeCall)
    (cur : Option NativeCall) : List NativeCall → Option NativeCall
  | [] => cur
  | c :: rest =>
    lastCurrentFrom egl (done ++ [c])
      (if c.isMakeCurrent = true ∧ egl (done ++ [c]) = true then some c else cur) rest

/-- The most recent `eglMakeCurrent` call of the trace that the driver
accepted. -/
def lastCurrent (egl : List NativeCall → Bool) (calls : List NativeCall) : Option NativeCall :=
  lastCurrentFrom egl [] none calls

/-- `ACTIVE` is `NULL` or points to a context that is Ready and whose
surface/context pair is the target of the most recent accepted
`eglMakeCurrent`. -/
def ActiveIsCurrent (egl : List NativeCall → Bool) (w : World) : Prop :=
  ∀ a, w.ACTIVE = some a →
    (w.heap a).state = GLCONTEXT_STATE_OK ∧
    lastCurrent egl w.calls = some (makeCurrentCall (w.heap a))

/-- The processes reachable from a start with `ACTIVE == NULL` through
constructions, `setActive`, `dispose` and `DisposeAll`. A construction runs on
the storage of a new object, which is not that of the context `ACTIVE` points
to. -/
inductive Reachable (drv : Driver) : World → Prop
  | start (w : World) : w.ACTIVE = none → Reachable drv w
  | construct {w : World} (this : Nat) (width height : Int) :
      Reachable drv w → w.ACTIVE ≠ some this → Reachable drv (construct drv w this width height)
  | setActive {w : World} (this : Nat) :
      Reachable drv w → Reachable drv (setActive drv.eglMakeCurrent w this).2
  | dispose {w : World} (this : Nat) :
      Reachable drv w → Reachable drv (dispose drv.eglMakeCurrent w this)
  | disposeAll {w w' : World} (fuel : Nat) :
      Reachable drv w → DisposeAll drv.eglMakeCurrent fuel w = some w' → Reachable drv w'

/-! ## Clear, copy and read entry points (webgl.cc 428-431, 669-678, 713-720, 951-955, 995-1002, 1233-1246, 1623-1635) -/

/-- `GL_METHOD(BindFramebuffer)` (webgl.cc 995-1002). -/
def BindFramebuffer (egl : List NativeCall → Bool) (w : World) (this : Nat)
    (target buffer : Int) : World :=
  let inst := GL_BOILERPLATE egl w this
  if inst.1 = false then inst.2
  else issue inst.2 (NativeCall.glBindFramebuffer target buffer)

/-- `GL_METHOD(BindTexture)` (webgl.cc 713-720). -/
def BindTexture (egl : List NativeCall → Bool) (w : World) (this : Nat)
    (target : Nat) (texture : Int) : World :=
  let inst := GL_BOILERPLATE egl w this
  if inst.1 = false then inst.2
  else issue inst.2 (NativeCall.glBindTexture target texture)

/-- `GL_METHOD(ClearColor)` (webgl.cc 669-678): the four `double` arguments
(non-negative here) are narrowed to `GLfloat`. -/
def ClearColor (egl : List NativeCall → Bool) (w : World) (this : Nat)
    (red green blue alpha : BinFloat) : World :=
  let inst := GL_BOILERPLATE egl w this
  if inst.1 = false then inst.2
  else
    issue inst.2
      (NativeCall.glClearColor (toFloat32 red) (toFloat32 green) (toFloat32 blue)
        (toFloat32 alpha))

/-- `GL_METHOD(Clear)` (webgl.cc 951-955). -/
def Clear (egl : List NativeCall → Bool) (w : World) (this : Nat) (mask : Int) : World :=
  let inst := GL_BOILERPLATE egl w this
  if inst.1 = false then inst.2
  else issue inst.2 (NativeCall.glClear mask)

/-- `GL_METHOD(CopyTexImage2D)` (webgl.cc 1233-1246). -/
def CopyTexImage2D (egl : List NativeCall → Bool) (w : World) (this : Nat)
    (target : Nat) (level : Int) (internalformat : Nat) (x y width height border : Int) : World :=
  let inst := GL_BOILERPLATE egl w this
  if inst.1 = false then inst.2
  else
    issue inst.2 (NativeCall.glCopyTexImage2D target level internalformat x y width height border)

/-- `GL_METHOD(ReadPixels)` (webgl.cc 1623-1635); the driver writes into the
contents of the seventh argument. -/
def ReadPixels (egl : List NativeCall → Bool) (w : World) (this : Nat)
    (x y width height : Int) (format type : Nat) : World :=
  let inst := GL_BOILERPLATE egl w this
  if inst.1 = false then inst.2
  else issue inst.2 (NativeCall.glReadPixels x y width height format type)

/-- The `double` 1.0. -/
def BinFloat.one : BinFloat := ⟨1, 0⟩

/-- The `double` 0.0. -/
def BinFloat.zero : BinFloat := ⟨0, 0⟩

/-- The `GLfloat` 1.0f, with a 24-bit significand. -/
def BinFloat.oneF : BinFloat := ⟨8388608, -23⟩

/-- A call of one of the entry points that bind, attach, upload, clear, copy
or read, with its arguments; `pixels` of `texImage2D` is `none` when the caller
gives no buffer. -/
inductive EntryCall where
  | bindFramebuffer (target buffer : Int)
  | bindTexture (target : Nat) (texture : Int)
  | texImage2D (target : Nat) (level : Int) (internalformat : Nat) (width height border : Int)
      (format type : Nat) (pixels : Option (List Nat))
  | framebufferTexture2D (target attachment : Nat) (textarget texture level : Int)
  | framebufferRenderbuffer (target attachment renderbuffertarget renderbuffer : Nat)
  | clearColor (red green blue alpha : BinFloat)
  | clear (mask : Int)
  | copyTexImage2D (target : Nat) (level : Int) (internalformat : Nat)
      (x y width height border : Int)
  | readPixels (x y width height : Int) (format type : Nat)
  deriving DecidableEq, Repr

/-- The entry point of the binding that a call names, run on the context at
`this`. -/
def EntryCall.run (egl : List NativeCall → Bool) (fresh : Nat → Nat) (w : World) (this : Nat) :
    EntryCall → World
  | .bindFramebuffer target buffer => BindFramebuffer egl w this target buffer
  | .bindTexture target texture => BindTexture egl w this target texture
  | .texImage2D target level internalformat width height border format type pixels =>
    TexImage2D egl w this target level internalformat width height border format type pixels fresh
  | .framebufferTexture2D target attachment textarget texture level =>
    FramebufferTexture2D egl w this target attachment textarget texture level
  | .framebufferRenderbuffer target attachment renderbuffertarget renderbuffer =>
    FramebufferRenderbuffer egl w this target attachment renderbuffertarget renderbuffer
  | .clearColor red green blue alpha => ClearColor egl w this red green blue alpha
  | .clear mask => Clear egl w this mask
  | .copyTexImage2D target level internalformat x y width height border =>
    CopyTexImage2D egl w this target level internalformat x y width height border
  | .readPixels x y width height format type =>
    ReadPixels egl w this x y width height format type

/-- Modelled from the spec: what `eglChooseConfig` answers when the configs
`matching` match the attribute list and the caller gives room for `configSize`
configs (EGL 1.4, section 3.4.1): it returns `EGL_TRUE`, stores the first
`configSize` matching configs and sets `num_config` to the number of configs
stored. The third component is what the one-element `config` of the
constructor holds afterwards, `old` when nothing was stored. -/
def chooseConfigAnswer (matching : List Nat) (configSize : Nat) (old : Nat) : Bool × Int × Nat :=
  (true, ((matching.take configSize).length : Int), (matching.take configSize).headD old)

/-- A driver like `acceptingDriver` for which the configs `matching` match the
attribute list of the constructor, which asks for at most one config
(`config_size` 1, webgl.cc 85). -/
def matchingDriver (matching : List Nat) (extensions : List Char) : Driver :=
  { acceptingDriver extensions with
    eglChooseConfig := fun _ => chooseConfigAnswer matching 1 0 }

/-- A driver like `acceptingDriver` whose `eglInitialize` fails the first time
it is called and succeeds from the second call on. -/
def flakyDriver (extensions : List Char) : Driver :=
  { acceptingDriver extensions with
    eglInitialize := fun calls => decide (2 ≤ calls.count NativeCall.eglInitialize) }

/-! ## Lemmas: 32-bit arithmetic, pixel size, row stride -/

theorem wrapInt32_eq_self {x : Int} (h0 : -2147483648 ≤ x) (h1 : x ≤ 2147483647) :
    wrapInt32 x = x := by
  unfold wrapInt32
  omega

theorem pixelSize_pos (type format : Nat) : 1 ≤ pixelSize type format := by
  unfold pixelSize wrapInt32
  dsimp only
  split_ifs <;> omega

theorem pixelSize_le (type format : Nat) : pixelSize type format ≤ 16 := by
  unfold pixelSize wrapInt32
  dsimp only
  split_ifs <;> omega

/-- Without overflow the stride is the product rounded up with the
non-negative remainder. -/
theorem rowStride_eq (type format : Nat) (width a : Int)
    (hw : 0 ≤ width) (ha : 1 ≤ a)
    (hov : StrideFits type format width a) :
    rowStride type format width a =
      if (pixelSize type format * width) % a = 0 then pixelSize type format * width
      else pixelSize type format * width + (a - (pixelSize type format * width) % a) := by
  obtain ⟨hprod31, ha31, hsum31⟩ := hov
  have hp := pixelSize_pos type format
  have hprod : 0 ≤ pixelSize type format * width := by positivity
  have hm0 : 0 ≤ (pixelSize type format * width) % a := Int.emod_nonneg _ (by omega)
  have hm1 : (pixelSize type format * width) % a < a := Int.emod_lt_of_pos _ (by omega)
  have htm : Int.tmod (pixelSize type format * width) a = (pixelSize type format * width) % a :=
    Int.tmod_eq_emod hprod (by omega)
  unfold rowStride
  simp only []
  rw [wrapInt32_eq_self (by omega) (by omega), htm]
  by_cases h : pixelSize type format * width % a = 0
  · rw [if_neg (not_not.mpr h), if_pos h]
  · have hs := hsum31 h
    rw [if_pos h, if_neg h,
      wrapInt32_eq_self (x := a - pixelSize type format * width % a) (by omega) (by omega),
      wrapInt32_eq_self (by omega) (by omega)]

/-- Without overflow the row stride is at least `pixelSize * width`, less
than `pixelSize * width + a`, and fits an `int`. -/
theorem rowStride_bounds (type format : Nat) (width a : Int)
    (hw : 0 ≤ width) (ha : 1 ≤ a)
    (hov : StrideFits type format width a) :
    pixelSize type format * width ≤ rowStride type format width a ∧
    rowStride type format width a < pixelSize type format * width + a ∧
    rowStride type format width a ≤ 2147483647 := by
  have hm0 : 0 ≤ (pixelSize type format * width) % a := Int.emod_nonneg _ (by omega)
  have hm1 : (pixelSize type format * width) % a < a := Int.emod_lt_of_pos _ (by omega)
  rw [rowStride_eq type format width a hw ha hov]
  obtain ⟨hprod31, ha31, hsum31⟩ := hov
  split_ifs with h
  · exact ⟨le_refl _, by omega, hprod31⟩
  · exact ⟨by omega, by omega, hsum31 h⟩

/-! ## Lemmas: buffers -/

theorem getD_set (l : List Nat) (i j a : Nat) :
    (l.set i a).getD j 0 = if i = j ∧ i < l.length then a else l.getD j 0 := by
  simp only [List.getD_eq_getElem?_getD, List.getElem?_set]
  by_cases h : i = j
  · subst h
    by_cases h2 : i < l.length
    · simp [h2]
    · simp [h2, List.getElem?_eq_none (Nat.le_of_not_lt h2)]
  · simp [h]

theorem set_getD_self (l : List Nat) (i : Nat) : l.set i (l.getD i 0) = l := by
  by_cases h : i < l.length
  · apply List.ext_getElem (by simp)
    intro n h1 h2
    rw [List.getElem_set]
    split_ifs with hn
    · subst hn
      exact List.getD_eq_getElem l 0 h
    · rfl
  · exact List.set_eq_of_length_le (Nat.le_of_not_lt h)

theorem getD_map_range (fresh : Nat → Nat) (n k : Nat) (hk : k < n) :
    ((List.range n).map fresh).getD k 0 = fresh k := by
  simp [List.getD_eq_getElem?_getD, List.getElem?_map, List.getElem?_range hk]

theorem ext_getD {l₁ l₂ : List Nat} (hlen : l₁.length = l₂.length)
    (h : ∀ k, k < l₁.length → l₁.getD k 0 = l₂.getD k 0) : l₁ = l₂ := by
  apply List.ext_getElem hlen
  intro n h1 h2
  have := h n h1
  rwa [List.getD_eq_getElem l₁ 0 h1, List.getD_eq_getElem l₂ 0 h2] at this

theorem memcpy_length (dst : List Nat) (dOff : Nat) (src : List Nat) (sOff n : Nat) :
    (memcpy dst dOff src sOff n).length = dst.length := by
  induction n with
  | zero => rfl
  | succ n ih => simp [memcpy, ih]

/-- Byte `k` of the destination after `memcpy`: the source byte when `k` lies in
the copied range, the old byte otherwise. -/
theorem memcpy_getD (dst : List Nat) (dOff : Nat) (src : List Nat) (sOff n k : Nat) :
    (memcpy dst dOff src sOff n).getD k 0 =
      if dOff ≤ k ∧ k < dOff + n ∧ k < dst.length then src.getD (sOff + (k - dOff)) 0
      else dst.getD k 0 := by
  induction n with
  | zero =>
    have h0 : ¬ (dOff ≤ k ∧ k < dOff + 0 ∧ k < dst.length) := by omega
    rw [if_neg h0]
    rfl
  | succ n ih =>
    simp only [memcpy, getD_set, memcpy_length, ih]
    by_cases h1 : dOff + n = k
    · subst h1
      by_cases h2 : dOff + n < dst.length
      · have e : dOff + n - dOff = n := by omega
        simp [h2, e]
      · have h3 : ¬ (dOff ≤ dOff + n ∧ dOff + n < dOff + (n + 1) ∧ dOff + n < dst.length) := by
          omega
        have h4 : ¬ (dOff ≤ dOff + n ∧ dOff + n < dOff + n ∧ dOff + n < dst.length) := by
          omega
        simp only [h2, and_false, if_false, if_neg h3, if_neg h4]
    · have h5 : (dOff ≤ k ∧ k < dOff + (n + 1) ∧ k < dst.length) ↔
          (dOff ≤ k ∧ k < dOff + n ∧ k < dst.length) := by omega
      simp only [h1, false_and, if_false, h5]

/-- Rows of `rs` bytes do not overlap: an offset `r * rs + c` with `c < rs`
lies in the first `n ≤ rs` bytes of row `j` exactly when `r = j` and `c < n`. -/
theorem row_index_cases (rs r j c n : Nat) (hc : c < rs) (hn : n ≤ rs) :
    (j * rs ≤ r * rs + c ∧ r * rs + c < j * rs + n) ↔ (r = j ∧ c < n) := by
  constructor
  · rintro ⟨h1, h2⟩
    rcases Nat.lt_trichotomy r j with h | h | h
    · have := Nat.mul_le_mul_right rs (Nat.succ_le_of_lt h)
      rw [Nat.succ_mul] at this
      omega
    · subst h
      exact ⟨rfl, by omega⟩
    · have := Nat.mul_le_mul_right rs (Nat.succ_le_of_lt h)
      rw [Nat.succ_mul] at this
      omega
  · rintro ⟨rfl, h⟩
    omega

/-- Row offsets computed in 32-bit arithmetic are exact inside an image whose
size fits. -/
theorem wrap_row_offset (rs h j : Nat) (hsz : rs * h ≤ 2147483647) (hj : j < h) :
    (wrapInt32 ((j : Int) * (rs : Int))).toNat = j * rs := by
  have h1 : j * rs ≤ rs * h := by
    rw [Nat.mul_comm rs h]
    exact Nat.mul_le_mul_right rs (Nat.le_of_lt hj)
  have h2 : ((j * rs : Nat) : Int) ≤ 2147483647 := by exact_mod_cast (le_trans h1 hsz)
  have h3 : (0 : Int) ≤ ((j * rs : Nat) : Int) := Int.natCast_nonneg _
  rw [← Nat.cast_mul, wrapInt32_eq_self (by omega) h2, Int.toNat_natCast]

theorem flipRows_length (pixels : List Nat) (rowStride pixelSize width height : Int)
    (unpacked : List Nat) (m : Nat) :
    (flipRows pixels rowStride pixelSize width height unpacked m).length = unpacked.length := by
  induction m with
  | zero => rfl
  | succ m ih => simp [flipRows, memcpy_length, ih]

/-- The flip loop after `m ≤ h` iterations, byte by byte: destination row `r`
has received the first `n` bytes of source row `h - 1 - r` once iteration
`h - 1 - r` has run; every other byte is untouched. -/
theorem flipRows_getD (pixels unpacked : List Nat) (rowStride pixelSize width height : Int)
    (rs n h : Nat) (hrs : rowStride = (rs : Int)) (hh : height = (h : Int))
    (hn : wrapInt32 (width * pixelSize) = (n : Int)) (hnrs : n ≤ rs)
    (hsz : rs * h ≤ 2147483647) (hlen : unpacked.length = rs * h)
    (m : Nat) (hm : m ≤ h) (r c : Nat) (hr : r < h) (hc : c < rs) :
    (flipRows pixels rowStride pixelSize width height unpacked m).getD (r * rs + c) 0 =
      if h - 1 - r < m ∧ c < n then pixels.getD ((h - 1 - r) * rs + c) 0
      else unpacked.getD (r * rs + c) 0 := by
  induction m with
  | zero => simp [flipRows]
  | succ m ih =>
    have ih := ih (by omega)
    have hj : (height - 1 - (m : Int)) = ((h - 1 - m : Nat) : Int) := by
      rw [hh]
      omega
    have hin : r * rs + c < rs * h := by
      have := Nat.mul_le_mul_right rs (Nat.succ_le_of_lt hr)
      rw [Nat.succ_mul, Nat.mul_comm h rs] at this
      omega
    simp only [flipRows]
    rw [memcpy_getD, flipRows_length, hlen, ih, hn, Int.toNat_natCast, hj, hrs,
      wrap_row_offset rs h (h - 1 - m) hsz (by omega), wrap_row_offset rs h m hsz (by omega)]
    have hcase := row_index_cases rs r (h - 1 - m) c n hc hnrs
    by_cases hrow : r = h - 1 - m
    · have e1 : h - 1 - r = m := by omega
      by_cases hcn : c < n
      · have hcond : (h - 1 - m) * rs ≤ r * rs + c ∧ r * rs + c < (h - 1 - m) * rs + n ∧
            r * rs + c < rs * h := ⟨(hcase.mpr ⟨hrow, hcn⟩).1, (hcase.mpr ⟨hrow, hcn⟩).2, hin⟩
        rw [if_pos hcond, if_pos ⟨by omega, hcn⟩, e1]
        congr 1
        rw [hrow]
        omega
      · have hcond : ¬ ((h - 1 - m) * rs ≤ r * rs + c ∧ r * rs + c < (h - 1 - m) * rs + n ∧
            r * rs + c < rs * h) := fun hx => hcn (hcase.mp ⟨hx.1, hx.2.1⟩).2
        rw [if_neg hcond, if_neg (fun hx => hcn hx.2), if_neg (fun hx => hcn hx.2)]
    · have hcond : ¬ ((h - 1 - m) * rs ≤ r * rs + c ∧ r * rs + c < (h - 1 - m) * rs + n ∧
          r * rs + c < rs * h) := fun hx => hrow (hcase.mp ⟨hx.1, hx.2.1⟩).1
      have e2 : (h - 1 - r < m + 1 ∧ c < n) ↔ (h - 1 - r < m ∧ c < n) := by omega
      rw [if_neg hcond]
      simp only [e2]

/-- The image size in 32-bit arithmetic is exact when it fits. -/
theorem imageSize_toNat (self : WebGLRenderingContext) (type format : Nat) (w h rs : Nat)
    (hrs : rowStride type format (w : Int) self.unpack_alignment = (rs : Int))
    (hsz : rs * h ≤ 2147483647) :
    (imageSize type format (w : Int) (h : Int) self.unpack_alignment).toNat = rs * h := by
  have h2 : ((rs * h : Nat) : Int) ≤ 2147483647 := by exact_mod_cast hsz
  have h3 : (0 : Int) ≤ ((rs * h : Nat) : Int) := Int.natCast_nonneg _
  unfold imageSize
  rw [hrs, ← Nat.cast_mul, wrapInt32_eq_self (by omega) h2, Int.toNat_natCast]

/-- With flip-Y set, the buffer built before the premultiply step has
`rs * h` bytes; in row `i` the first `ps * w` bytes are those of source row
`h - 1 - i` and the remaining (padding) bytes are what the allocation held. -/
theorem unpackedRows_flip (self : WebGLRenderingContext) (type format : Nat)
    (w h rs ps : Nat) (pixels : List Nat) (fresh : Nat → Nat)
    (hflip : self.unpack_flip_y = true)
    (ha : 1 ≤ self.unpack_alignment)
    (hps : pixelSize type format = (ps : Int))
    (hov : StrideFits type format (w : Int) self.unpack_alignment)
    (hrs : rowStride type format (w : Int) self.unpack_alignment = (rs : Int))
    (hsz : rs * h ≤ 2147483647) :
    (unpackedRows self type format w h pixels fresh).length = rs * h ∧
    ∀ i k, i < h → k < rs →
      (unpackedRows self type format w h pixels fresh).getD (i * rs + k) 0 =
        if k < ps * w then pixels.getD ((h - 1 - i) * rs + k) 0 else fresh (i * rs + k) := by
  have hC1 := rowStride_bounds type format w self.unpack_alignment
    (Int.natCast_nonneg w) ha hov
  have hn0 : ((ps * w : Nat) : Int) = (w : Int) * pixelSize type format := by
    rw [hps]
    push_cast
    ring
  have hnle : ((ps * w : Nat) : Int) ≤ (rs : Int) := by
    rw [hn0, ← hrs, mul_comm]
    exact hC1.1
  have hnrs : ps * w ≤ rs := by exact_mod_cast hnle
  have hn : wrapInt32 ((w : Int) * pixelSize type format) = ((ps * w : Nat) : Int) := by
    rw [← hn0]
    exact wrapInt32_eq_self (by omega) (by omega)
  have himg := imageSize_toNat self type format w h rs hrs hsz
  have hlen0 : ((List.range (rs * h)).map fresh).length = rs * h := by simp
  unfold unpackedRows
  simp only [hflip, if_true, himg, Int.toNat_natCast]
  refine ⟨by rw [flipRows_length, hlen0], ?_⟩
  intro i k hi hk
  have hin : i * rs + k < rs * h := by
    have := Nat.mul_le_mul_right rs (Nat.succ_le_of_lt hi)
    rw [Nat.succ_mul, Nat.mul_comm h rs] at this
    omega
  rw [flipRows_getD pixels _ _ _ _ _ rs (ps * w) h hrs rfl hn hnrs hsz hlen0 h (le_refl h)
    i k hi hk, getD_map_range fresh _ _ hin]
  have e : (h - 1 - i < h ∧ k < ps * w) ↔ k < ps * w := by omega
  simp only [e]

/-- An offset below `rs * h` is `i * rs + k` for a row `i < h` and `k < rs`. -/
theorem offset_split (rs h idx : Nat) (hidx : idx < rs * h) :
    idx / rs < h ∧ idx % rs < rs ∧ idx / rs * rs + idx % rs = idx := by
  have hrs : 0 < rs := by
    rcases Nat.eq_zero_or_pos rs with h0 | h0
    · subst h0
      simp at hidx
    · exact h0
  refine ⟨(Nat.div_lt_iff_lt_mul hrs).mpr (by rwa [Nat.mul_comm] at hidx), Nat.mod_lt _ hrs, ?_⟩
  rw [Nat.mul_comm]
  exact Nat.div_add_mod idx rs

/-- With premultiply-alpha clear `unpackPixels` returns the buffer of the
flip / copy step. -/
theorem unpackPixels_of_not_premultiply (self : WebGLRenderingContext) (type format : Nat)
    (width height : Int) (pixels : List Nat) (fresh : Nat → Nat)
    (hpre : self.unpack_premultiply_alpha = false) :
    unpackPixels self type format width height pixels fresh =
      unpackedRows self type format width height pixels fresh := by
  simp [unpackPixels, hpre]

/-! ## Lemmas: the premultiply step on opaque pixels -/

theorem scale_one_float : toFloat32 (doubleDiv 255 255) = ⟨8388608, -23⟩ := by decide

theorem scale_one_double : doubleDiv 255 255 = ⟨4503599627370496, -52⟩ := by decide

set_option maxRecDepth 100000 in
theorem mulNat_one_float :
    ∀ c < 256, (mulNat 24 c ⟨8388608, -23⟩).trunc % 256 = c := by decide

set_option maxRecDepth 100000 in
theorem mulNat_one_double :
    ∀ c < 256, (mulNat 53 c ⟨4503599627370496, -52⟩).trunc % 256 = c := by decide

/-- On a pixel whose alpha is at the maximum the loop body changes no byte. -/
theorem premultiplyPixel_alphaMax (type format : Nat) (buf : List Nat) (pixel : Nat)
    (hbytes : ∀ k, buf.getD k 0 < 256) (hop : alphaIsMax type format buf pixel) :
    premultiplyPixel type format buf pixel = buf := by
  rcases hop with ⟨ht, hf, hal⟩ | ⟨ht, hf, hal⟩ | ⟨ht, hf, hal⟩
  · subst ht hf
    have hf1 : ¬ (GL_RGBA = GL_LUMINANCE_ALPHA) := by decide
    simp only [premultiplyPixel, if_neg hf1, if_true, hal, scale_one_float]
    rw [mulNat_one_float _ (hbytes pixel), set_getD_self,
      mulNat_one_float _ (hbytes (pixel + 1)), set_getD_self,
      mulNat_one_float _ (hbytes (pixel + 2)), set_getD_self]
  · subst ht hf
    simp only [premultiplyPixel, if_true, hal, scale_one_double]
    rw [mulNat_one_double _ (hbytes pixel), set_getD_self]
  · subst ht hf
    have hf1 : ¬ (GL_RGBA = GL_LUMINANCE_ALPHA) := by decide
    have ht1 : ¬ (GL_UNSIGNED_SHORT_5_5_5_1 = GL_UNSIGNED_BYTE) := by decide
    have ht2 : ¬ (GL_UNSIGNED_SHORT_5_5_5_1 = GL_UNSIGNED_SHORT_4_4_4_4) := by decide
    have hbit : ¬ (buf.getD pixel 0 &&& 1 = 0) := by
      rw [Nat.and_one_is_mod]
      omega
    simp only [premultiplyPixel, if_neg hf1, if_neg ht1, if_neg ht2, if_true, if_neg hbit]

/-- Pixel offsets computed in 32-bit arithmetic are exact inside an image whose
size fits. -/
theorem pixelOffset_eq (rs ps w h row col : Nat) (hnrs : ps * w ≤ rs)
    (hsz : rs * h ≤ 2147483647) (hrs31 : rs ≤ 2147483647) (hrow : row < h) (hcol : col < w) :
    pixelOffset (rs : Int) (ps : Int) row col = row * rs + col * ps := by
  have h1 : row * rs ≤ rs * h := by
    rw [Nat.mul_comm rs h]
    exact Nat.mul_le_mul_right rs (Nat.le_of_lt hrow)
  have h2 : col * ps ≤ ps * w := by
    rw [Nat.mul_comm ps w]
    exact Nat.mul_le_mul_right ps (Nat.le_of_lt hcol)
  have h3 : ((row * rs : Nat) : Int) ≤ 2147483647 := by exact_mod_cast (le_trans h1 hsz)
  have h4 : ((col * ps : Nat) : Int) ≤ 2147483647 := by
    exact_mod_cast (le_trans h2 (le_trans hnrs hrs31))
  have h5 : (0 : Int) ≤ ((row * rs : Nat) : Int) := Int.natCast_nonneg _
  have h6 : (0 : Int) ≤ ((col * ps : Nat) : Int) := Int.natCast_nonneg _
  unfold pixelOffset
  rw [← Nat.cast_mul, ← Nat.cast_mul, wrapInt32_eq_self (by omega) h3,
    wrapInt32_eq_self (by omega) h4, ← Nat.cast_add, Int.toNat_natCast]

/-- Byte `k` of pixel `(row, col)` lies inside the image. -/
theorem pixel_byte_in_image (rs ps w h row col k : Nat) (hnrs : ps * w ≤ rs)
    (hrow : row < h) (hcol : col < w) (hk : k < ps) :
    row * rs + col * ps + k < rs * h := by
  have h1 := Nat.mul_le_mul_right rs (Nat.succ_le_of_lt hrow)
  have h2 := Nat.mul_le_mul_right ps (Nat.succ_le_of_lt hcol)
  rw [Nat.succ_mul] at h1 h2
  rw [Nat.mul_comm h rs] at h1
  rw [Nat.mul_comm w ps] at h2
  omega

/-- The premultiply loops change nothing when every pixel they visit has its
alpha at the maximum. -/
theorem premultiplyRows_alphaMax (type format : Nat) (rs ps w h : Nat) (buf : List Nat)
    (hnrs : ps * w ≤ rs) (hsz : rs * h ≤ 2147483647) (hrs31 : rs ≤ 2147483647)
    (hbytes : ∀ k, buf.getD k 0 < 256)
    (hop : ∀ row, row < h → ∀ col, col < w → alphaIsMax type format buf (row * rs + col * ps))
    (m : Nat) (hm : m ≤ h) :
    premultiplyRows type format (rs : Int) (ps : Int) (w : Int) buf m = buf := by
  induction m with
  | zero => rfl
  | succ m ih =>
    have hcols : ∀ n, n ≤ w →
        premultiplyCols type format (rs : Int) (ps : Int) m buf n = buf := by
      intro n hn
      induction n with
      | zero => rfl
      | succ n ihn =>
        simp only [premultiplyCols]
        rw [ihn (by omega), pixelOffset_eq rs ps w h m n hnrs hsz hrs31 (by omega) (by omega)]
        exact premultiplyPixel_alphaMax type format buf _ hbytes (hop m (by omega) n (by omega))
    simp only [premultiplyRows]
    rw [ih (by omega), Int.toNat_natCast]
    exact hcols w (le_refl w)

/-- Without flip-Y the buffer built before the premultiply step holds the
first `rs * h` bytes of the source. -/
theorem unpackedRows_copy (self : WebGLRenderingContext) (type format : Nat)
    (w h rs : Nat) (pixels : List Nat) (fresh : Nat → Nat)
    (hflip : self.unpack_flip_y = false)
    (hrs : rowStride type format (w : Int) self.unpack_alignment = (rs : Int))
    (hsz : rs * h ≤ 2147483647) :
    (unpackedRows self type format w h pixels fresh).length = rs * h ∧
    ∀ k, (unpackedRows self type format w h pixels fresh).getD k 0 =
      if k < rs * h then pixels.getD k 0 else 0 := by
  have himg := imageSize_toNat self type format w h rs hrs hsz
  have hlen0 : ((List.range (rs * h)).map fresh).length = rs * h := by simp
  unfold unpackedRows
  simp only [hflip, himg]
  refine ⟨by simp [memcpy_length], ?_⟩
  intro k
  rw [if_neg (by simp), memcpy_getD, hlen0]
  by_cases hk : k < rs * h
  · rw [if_pos ⟨Nat.zero_le k, by omega, hk⟩, if_pos hk]
    simp
  · rw [if_neg (fun hx => hk hx.2.2), if_neg hk]
    exact List.getD_eq_default _ _ (by rw [hlen0]; omega)

/-! ## Lemmas: the context list leaves everything but the links alone -/

theorem World.SameButLinks.refl (w : World) : w.SameButLinks w :=
  ⟨rfl, rfl, rfl, fun _ => ⟨rfl, rfl, rfl, rfl, rfl⟩⟩

theorem World.SameButLinks.trans {w₁ w₂ w₃ : World} (h₁ : w₁.SameButLinks w₂)
    (h₂ : w₂.SameButLinks w₃) : w₁.SameButLinks w₃ := by
  obtain ⟨a1, a2, a3, a4⟩ := h₁
  obtain ⟨b1, b2, b3, b4⟩ := h₂
  refine ⟨b1.trans a1, b2.trans a2, b3.trans a3, fun q => ?_⟩
  obtain ⟨c1, c2, c3, c4, c5⟩ := a4 q
  obtain ⟨d1, d2, d3, d4, d5⟩ := b4 q
  exact ⟨d1.trans c1, d2.trans c2, d3.trans c3, d4.trans c4, d5.trans c5⟩

theorem modify_sameButLinks (w : World) (p : Nat)
    (f : WebGLRenderingContext → WebGLRenderingContext)
    (hf : ∀ c, WebGL.SameButLinks c (f c)) : w.SameButLinks (w.modify p f) := by
  refine ⟨rfl, rfl, rfl, fun q => ?_⟩
  unfold World.modify
  dsimp only
  split_ifs
  · exact hf _
  · exact ⟨rfl, rfl, rfl, rfl, rfl⟩

theorem unlinkNext_sameButLinks (w : World) (this : Nat) :
    w.SameButLinks (unlinkNext w this) := by
  unfold unlinkNext
  split
  · exact modify_sameButLinks w _ _ (fun _ => ⟨rfl, rfl, rfl, rfl, rfl⟩)
  · exact World.SameButLinks.refl w

theorem unlinkPrev_sameButLinks (w : World) (this : Nat) :
    w.SameButLinks (unlinkPrev w this) := by
  unfold unlinkPrev
  split
  · exact modify_sameButLinks w _ _ (fun _ => ⟨rfl, rfl, rfl, rfl, rfl⟩)
  · exact World.SameButLinks.refl w

theorem unlinkHead_sameButLinks (w : World) (this : Nat) :
    w.SameButLinks (unlinkHead w this) := by
  unfold unlinkHead
  split_ifs
  · exact ⟨rfl, rfl, rfl, fun _ => ⟨rfl, rfl, rfl, rfl, rfl⟩⟩
  · exact World.SameButLinks.refl w

/-- `unregisterContext` touches only `next`, `prev` and `CONTEXT_LIST_HEAD`. -/
theorem unregisterContext_sameButLinks (w : World) (this : Nat) :
    w.SameButLinks (unregisterContext w this) := by
  unfold unregisterContext
  exact ((unlinkNext_sameButLinks w this).trans
    ((unlinkPrev_sameButLinks _ this).trans (unlinkHead_sameButLinks _ this))).trans
    (modify_sameButLinks _ _ _ (fun _ => ⟨rfl, rfl, rfl, rfl, rfl⟩))

/-- `setActive` on a context that is not Ready. -/
theorem setActive_of_not_ok (egl : List NativeCall → Bool) (w : World) (this : Nat)
    (h : (w.heap this).state ≠ GLCONTEXT_STATE_OK) : setActive egl w this = (false, w) := by
  unfold setActive
  rw [if_pos h]

/-- The lifecycle state of the context at `q` after a store through `p` that
sets the state. -/
theorem modify_state (w : World) (p q : Nat) (st : GLContextState) :
    ((w.modify p (fun c => { c with state := st })).heap q).state =
      if q = p then st else (w.heap q).state := by
  unfold World.modify
  dsimp only
  split_ifs <;> rfl

/-- `setActive` on the Ready context that is already `ACTIVE`. -/
theorem setActive_of_active (egl : List NativeCall → Bool) (w : World) (this : Nat)
    (hstate : (w.heap this).state = GLCONTEXT_STATE_OK) (hact : w.ACTIVE = some this) :
    setActive egl w this = (true, w) := by
  unfold setActive
  rw [if_neg (not_not.mpr hstate), if_pos hact.symm]

/-- `setActive` on a Ready context that is not `ACTIVE`, make-current accepted. -/
theorem setActive_of_accepted (egl : List NativeCall → Bool) (w : World) (this : Nat)
    (hstate : (w.heap this).state = GLCONTEXT_STATE_OK) (hact : w.ACTIVE ≠ some this)
    (hegl : egl (w.calls ++ [makeCurrentCall (w.heap this)]) = true) :
    setActive egl w this =
      (true, { w with calls := w.calls ++ [makeCurrentCall (w.heap this)], ACTIVE := some this }) := by
  unfold setActive
  rw [if_neg (not_not.mpr hstate), if_neg (fun h => hact h.symm)]
  dsimp only
  rw [if_neg (by rw [hegl]; decide)]

/-- `setActive` on a Ready context that is not `ACTIVE`, make-current rejected. -/
theorem setActive_of_rejected (egl : List NativeCall → Bool) (w : World) (this : Nat)
    (hstate : (w.heap this).state = GLCONTEXT_STATE_OK) (hact : w.ACTIVE ≠ some this)
    (hegl : egl (w.calls ++ [makeCurrentCall (w.heap this)]) = false) :
    setActive egl w this =
      (false, ({ w with calls := w.calls ++ [makeCurrentCall (w.heap this)] } : World).modify this
        (fun c => { c with state := GLCONTEXT_STATE_ERROR })) := by
  unfold setActive
  rw [if_neg (not_not.mpr hstate), if_neg (fun h => hact h.symm)]
  dsimp only
  rw [if_pos hegl]

/-- `setActive` moves no context into the Ready state: a state it changes
becomes `Error`. -/
theorem setActive_state (egl : List NativeCall → Bool) (w : World) (this q : Nat) :
    ((setActive egl w this).2.heap q).state = (w.heap q).state ∨
    ((setActive egl w this).2.heap q).state = GLCONTEXT_STATE_ERROR := by
  by_cases hstate : (w.heap this).state = GLCONTEXT_STATE_OK
  · by_cases hact : w.ACTIVE = some this
    · rw [setActive_of_active egl w this hstate hact]
      exact Or.inl rfl
    · cases hegl : egl (w.calls ++ [makeCurrentCall (w.heap this)])
      · rw [setActive_of_rejected egl w this hstate hact hegl]
        dsimp only
        rw [modify_state]
        split_ifs
        · exact Or.inr rfl
        · exact Or.inl rfl
      · rw [setActive_of_accepted egl w this hstate hact hegl]
        exact Or.inl rfl
  · rw [setActive_of_not_ok egl w this hstate]
    exact Or.inl rfl

/-- `dispose` moves no context into the Ready state either. -/
theorem dispose_state (egl : List NativeCall → Bool) (w : World) (this q : Nat) :
    ((dispose egl w this).heap q).state = (w.heap q).state ∨
    ((dispose egl w this).heap q).state = GLCONTEXT_STATE_ERROR ∨
    ((dispose egl w this).heap q).state = GLCONTEXT_STATE_DESTROY := by
  have hu := (unregisterContext_sameButLinks w this).2.2.2 q
  have hs := setActive_state egl (unregisterContext w this) this q
  rw [hu.1] at hs
  unfold dispose
  dsimp only
  split_ifs
  · rw [modify_state]
    split_ifs
    · exact Or.inr (Or.inl rfl)
    · rcases hs with hs | hs
      · exact Or.inl hs
      · exact Or.inr (Or.inl hs)
  · have hd : ∀ (objs : List GLObjectReference) (v : World),
        (deleteObjects v objs).heap = v.heap := by
      intro objs
      induction objs with
      | nil => intro v; rfl
      | cons o os ih => intro v; exact ih _
    show ((deleteObjects _ _).heap q).state = _ ∨ ((deleteObjects _ _).heap q).state = _ ∨
      ((deleteObjects _ _).heap q).state = _
    rw [hd, modify_state]
    split_ifs
    · exact Or.inr (Or.inr rfl)
    · rcases hs with hs | hs
      · exact Or.inl hs
      · exact Or.inr (Or.inl hs)

/-- A context in state `Error` or `Destroyed` stays in one of the two under any
sequence of `setActive` and `dispose` calls. -/
theorem run_state_final (egl : List NativeCall → Bool) (c : Nat) (calls : List ContextCall) :
    ∀ w : World,
      ((w.heap c).state = GLCONTEXT_STATE_ERROR ∨ (w.heap c).state = GLCONTEXT_STATE_DESTROY) →
      (((run egl w calls).heap c).state = GLCONTEXT_STATE_ERROR ∨
        ((run egl w calls).heap c).state = GLCONTEXT_STATE_DESTROY) := by
  induction calls with
  | nil => intro w h; exact h
  | cons call rest ih =>
    intro w h
    show ((run egl (step egl w call) rest).heap c).state = _ ∨ _
    apply ih
    cases call with
    | setActive this =>
      show ((setActive egl w this).2.heap c).state = _ ∨
        ((setActive egl w this).2.heap c).state = _
      rcases setActive_state egl w this c with hs | hs
      · rw [hs]
        exact h
      · exact Or.inl hs
    | dispose this =>
      show ((dispose egl w this).heap c).state = _ ∨ ((dispose egl w this).heap c).state = _
      rcases dispose_state egl w this c with hs | hs | hs
      · rw [hs]
        exact h
      · exact Or.inl hs
      · exact Or.inr hs

/-! ## Lemmas: the object registry -/

theorem keyLess_iff (a b : GLObjectReference) :
    keyLess a b = true ↔ a.1 < b.1 ∨ (a.1 = b.1 ∧ a.2.toNat < b.2.toNat) := by
  simp [keyLess]

theorem GLObjectType.toNat_injective (a b : GLObjectType) (h : a.toNat = b.toNat) : a = b := by
  cases a <;> cases b <;> first | rfl | exact absurd h (by decide)

theorem keyLess_irrefl (a : GLObjectReference) : ¬ keyLess a a = true := by
  rw [keyLess_iff]
  omega

theorem keyLess_trans (a b c : GLObjectReference) (h₁ : keyLess a b = true)
    (h₂ : keyLess b c = true) : keyLess a c = true := by
  rw [keyLess_iff] at *
  omega

/-- Keys that are equivalent for the map (neither is less) are equal. -/
theorem keyLess_equiv (a b : GLObjectReference) (h₁ : ¬ keyLess a b = true)
    (h₂ : ¬ keyLess b a = true) : a = b := by
  rw [keyLess_iff] at *
  have h1 : a.1 = b.1 := by omega
  have h2 : a.2.toNat = b.2.toNat := by omega
  exact Prod.ext h1 (GLObjectType.toNat_injective _ _ h2)

theorem mem_mapInsert (key x : GLObjectReference) (l : List GLObjectReference) :
    x ∈ mapInsert key l ↔ x = key ∨ x ∈ l := by
  induction l with
  | nil => simp [mapInsert]
  | cons k rest ih =>
    unfold mapInsert
    split_ifs with h1 h2
    · simp
    · simp only [List.mem_cons, ih]
      tauto
    · have hk : key = k := keyLess_equiv key k h1 h2
      subst hk
      simp

/-- The key list stays strictly sorted under `objects[key] = true`. -/
theorem mapInsert_sorted (key : GLObjectReference) (l : List GLObjectReference)
    (hl : l.Pairwise (fun a b => keyLess a b = true)) :
    (mapInsert key l).Pairwise (fun a b => keyLess a b = true) := by
  induction l with
  | nil => simp [mapInsert]
  | cons k rest ih =>
    rw [List.pairwise_cons] at hl
    unfold mapInsert
    split_ifs with h1 h2
    · rw [List.pairwise_cons]
      refine ⟨?_, List.pairwise_cons.mpr hl⟩
      intro x hx
      rcases List.mem_cons.mp hx with hx | hx
      · rw [hx]
        exact h1
      · exact keyLess_trans key k x h1 (hl.1 x hx)
    · rw [List.pairwise_cons]
      refine ⟨?_, ih hl.2⟩
      intro x hx
      rcases (mem_mapInsert key x rest).mp hx with hx | hx
      · rw [hx]
        exact h2
      · exact hl.1 x hx
    · exact List.pairwise_cons.mpr hl

theorem sorted_nodup (l : List GLObjectReference)
    (hl : l.Pairwise (fun a b => keyLess a b = true)) : l.Nodup := by
  unfold List.Nodup
  refine List.Pairwise.imp ?_ hl
  intro a b h hab
  subst hab
  exact keyLess_irrefl a h

theorem registryAfter_register (history : List RegistryCall) (type : GLObjectType) (obj : Nat) :
    registryAfter (history ++ [RegistryCall.register type obj]) =
      mapInsert (obj, type) (registryAfter history) := by
  simp [registryAfter, List.foldl_append, applyRegistryCall, registerGLObj]

theorem registryAfter_unregister (history : List RegistryCall) (type : GLObjectType) (obj : Nat) :
    registryAfter (history ++ [RegistryCall.unregister type obj]) =
      (registryAfter history).erase (obj, type) := by
  simp [registryAfter, List.foldl_append, applyRegistryCall, unregisterGLObj]

/-- The registry is a strictly sorted key list after any history of calls. -/
theorem registryAfter_sorted (history : List RegistryCall) :
    (registryAfter history).Pairwise (fun a b => keyLess a b = true) := by
  induction history using List.reverseRecOn with
  | nil => simp [registryAfter, newContext]
  | append_singleton history call ih =>
    cases call with
    | register type obj =>
      rw [registryAfter_register]
      exact mapInsert_sorted _ _ ih
    | unregister type obj =>
      rw [registryAfter_unregister]
      exact List.Pairwise.sublist (List.erase_sublist _ _) ih

theorem registeredSince_nil (key : GLObjectReference) : ¬ registeredSince [] key := by
  rintro ⟨before, after, h, _⟩
  cases before <;> simp at h

/-- A pair is live after one more call when that call registered it, or when
it was live before and the call did not unregister it. -/
theorem registeredSince_snoc (history : List RegistryCall) (call : RegistryCall)
    (key : GLObjectReference) :
    registeredSince (history ++ [call]) key ↔
      call = RegistryCall.register key.2 key.1 ∨
        (registeredSince history key ∧ call ≠ RegistryCall.unregister key.2 key.1) := by
  constructor
  · rintro ⟨before, after, h, hno⟩
    rcases List.eq_nil_or_concat after with ha | ⟨after', x, ha⟩
    · subst ha
      have h' : history ++ [call] = before ++ [RegistryCall.register key.2 key.1] := h
      have := List.append_inj' h' rfl
      exact Or.inl (by simpa using this.2)
    · subst ha
      rw [List.concat_eq_append] at h hno
      have h' : history ++ [call] =
          (before ++ RegistryCall.register key.2 key.1 :: after') ++ [x] := by
        rw [h]
        simp
      have := List.append_inj' h' rfl
      have hx : call = x := by simpa using this.2
      rw [List.mem_append, not_or] at hno
      refine Or.inr ⟨⟨before, after', this.1, hno.1⟩, ?_⟩
      rw [hx]
      intro hc
      exact hno.2 (by rw [hc]; exact List.mem_singleton.mpr rfl)
  · rintro (h | ⟨⟨before, after, h, hno⟩, hc⟩)
    · exact ⟨history, [], by rw [h], by simp⟩
    · refine ⟨before, after ++ [call], by rw [h]; simp, ?_⟩
      rw [List.mem_append, not_or]
      exact ⟨hno, fun hm => hc (List.mem_singleton.mp hm).symm⟩

/-- The registry holds exactly the pairs registered and not unregistered
since. -/
theorem mem_registryAfter (history : List RegistryCall) (key : GLObjectReference) :
    key ∈ registryAfter history ↔ registeredSince history key := by
  induction history using List.reverseRecOn with
  | nil =>
    have : registryAfter [] = [] := rfl
    rw [this]
    exact ⟨fun h => absurd h (List.not_mem_nil _), fun h => absurd h (registeredSince_nil key)⟩
  | append_singleton history call ih =>
    rw [registeredSince_snoc, ← ih]
    cases call with
    | register type obj =>
      rw [registryAfter_register, mem_mapInsert]
      constructor
      · rintro (h | h)
        · exact Or.inl (by rw [h])
        · exact Or.inr ⟨h, by simp⟩
      · rintro (h | h)
        · injection h with h1 h2
          exact Or.inl (Prod.ext h2.symm h1.symm)
        · exact Or.inr h.1
    | unregister type obj =>
      rw [registryAfter_unregister,
        List.Nodup.mem_erase_iff (sorted_nodup _ (registryAfter_sorted history))]
      constructor
      · rintro ⟨h1, h2⟩
        refine Or.inr ⟨h2, ?_⟩
        intro h
        injection h with h3 h4
        exact h1 (Prod.ext h4.symm h3.symm)
      · rintro (h | ⟨h1, h2⟩)
        · exact absurd h (by simp)
        · refine ⟨?_, h1⟩
          intro h
          exact h2 (by rw [h])

theorem deleteCall_injective (a b : GLObjectReference)
    (h : deleteCall a.2 a.1 = deleteCall b.2 b.1) : a = b := by
  obtain ⟨ao, at'⟩ := a
  obtain ⟨bo, bt⟩ := b
  cases at' <;> cases bt <;> simp [deleteCall] at h <;> simp [h]

/-! ## Lemmas: the native calls of `dispose` -/

theorem deleteObjects_calls (objects : List GLObjectReference) :
    ∀ w : World, (deleteObjects w objects).calls =
      w.calls ++ objects.map (fun k => deleteCall k.2 k.1) := by
  induction objects with
  | nil => intro w; simp [deleteObjects]
  | cons o os ih =>
    intro w
    have := ih { w with calls := w.calls ++ [deleteCall o.2 o.1] }
    simp only [deleteObjects, List.foldl_cons] at this ⊢
    rw [this]
    simp

theorem deleteObjects_heap (objects : List GLObjectReference) :
    ∀ w : World, (deleteObjects w objects).heap = w.heap := by
  induction objects with
  | nil => intro w; rfl
  | cons o os ih => intro w; exact ih _

/-- When its `setActive` succeeds, `dispose` issues, after at most the
make-current of `setActive`, one delete call per registry entry in the map's
order, then the release of the current context and the destruction of the
native context. -/
theorem dispose_calls_of_active (egl : List NativeCall → Bool) (w : World) (this : Nat)
    (hact : (setActive egl (unregisterContext w this) this).1 = true) :
    ∃ pre, (pre = [] ∨ pre = [makeCurrentCall (w.heap this)]) ∧
      (dispose egl w this).calls = w.calls ++ pre ++
        (w.heap this).objects.map (fun k => deleteCall k.2 k.1) ++
        [NativeCall.eglMakeCurrent none none none,
          NativeCall.eglDestroyContext (w.heap this).context] := by
  obtain ⟨hcalls, -, -, hheap⟩ := unregisterContext_sameButLinks w this
  obtain ⟨hst, hobj, hctx, hsurf, -⟩ := hheap this
  have hmc : makeCurrentCall ((unregisterContext w this).heap this) =
      makeCurrentCall (w.heap this) := by
    unfold makeCurrentCall
    rw [hctx, hsurf]
  have hkey : ∃ pre, (pre = [] ∨ pre = [makeCurrentCall (w.heap this)]) ∧
      (setActive egl (unregisterContext w this) this).2.calls = w.calls ++ pre ∧
      ((setActive egl (unregisterContext w this) this).2.heap this).objects =
        (w.heap this).objects ∧
      ((setActive egl (unregisterContext w this) this).2.heap this).context =
        (w.heap this).context := by
    by_cases hstate : ((unregisterContext w this).heap this).state = GLCONTEXT_STATE_OK
    · by_cases ha : (unregisterContext w this).ACTIVE = some this
      · rw [setActive_of_active egl _ this hstate ha]
        exact ⟨[], Or.inl rfl, by rw [hcalls]; simp, hobj, hctx⟩
      · cases hegl : egl ((unregisterContext w this).calls ++
            [makeCurrentCall ((unregisterContext w this).heap this)])
        · rw [setActive_of_rejected egl _ this hstate ha hegl] at hact
          exact absurd hact Bool.false_ne_true
        · rw [setActive_of_accepted egl _ this hstate ha hegl]
          exact ⟨[makeCurrentCall (w.heap this)], Or.inr rfl, by rw [hcalls, hmc], hobj, hctx⟩
    · rw [setActive_of_not_ok egl _ this hstate] at hact
      exact absurd hact Bool.false_ne_true
  obtain ⟨pre, hpre, hc, ho, hx⟩ := hkey
  refine ⟨pre, hpre, ?_⟩
  have hmo : ∀ (v : World) (st : GLContextState),
      ((v.modify this (fun c => { c with state := st })).heap this).objects =
        (v.heap this).objects ∧
      ((v.modify this (fun c => { c with state := st })).heap this).context =
        (v.heap this).context ∧
      (v.modify this (fun c => { c with state := st })).calls = v.calls := by
    intro v st
    simp [World.modify]
  unfold dispose
  dsimp only
  rw [if_neg (by rw [hact]; decide)]
  dsimp only
  rw [deleteObjects_heap, deleteObjects_calls, (hmo _ _).1, (hmo _ _).2.1, (hmo _ _).2.2,
    ho, hx, hc]
  simp

/-! ## Lemmas: the shadow error register -/

/-- `setError` returns at once, without querying the driver, when the code is
`GL_NO_ERROR` or the shadow is not clear: neither the shadow nor the driver's
pending errors change. -/
theorem setError_early_return (self : WebGLRenderingContext) (driver : List Nat) (error : Nat)
    (h : error = GL_NO_ERROR ∨ self.lastError ≠ GL_NO_ERROR) :
    setError self driver error = (self, driver) := by
  unfold setError
  rw [if_pos h]

/-! ## Lemmas: what `setActive` and `dispose` leave alone -/

/-- Two contexts agree on everything but their lifecycle state. -/
theorem modify_state_fields (w : World) (p q : Nat) (st : GLContextState) :
    ((w.modify p (fun c => { c with state := st })).heap q).objects = (w.heap q).objects ∧
    ((w.modify p (fun c => { c with state := st })).heap q).next = (w.heap q).next ∧
    ((w.modify p (fun c => { c with state := st })).heap q).prev = (w.heap q).prev ∧
    ((w.modify p (fun c => { c with state := st })).heap q).context = (w.heap q).context ∧
    ((w.modify p (fun c => { c with state := st })).heap q).surface = (w.heap q).surface := by
  unfold World.modify
  dsimp only
  split_ifs <;> exact ⟨rfl, rfl, rfl, rfl, rfl⟩

/-- `setActive` changes no field of any context but the lifecycle state, and
leaves the context list head and the display flag alone. -/
theorem setActive_fields (egl : List NativeCall → Bool) (w : World) (this q : Nat) :
    ((setActive egl w this).2.heap q).objects = (w.heap q).objects ∧
    ((setActive egl w this).2.heap q).next = (w.heap q).next ∧
    ((setActive egl w this).2.heap q).prev = (w.heap q).prev ∧
    (setActive egl w this).2.CONTEXT_LIST_HEAD = w.CONTEXT_LIST_HEAD ∧
    (setActive egl w this).2.HAS_DISPLAY = w.HAS_DISPLAY := by
  by_cases hstate : (w.heap this).state = GLCONTEXT_STATE_OK
  · by_cases hact : w.ACTIVE = some this
    · rw [setActive_of_active egl w this hstate hact]
      exact ⟨rfl, rfl, rfl, rfl, rfl⟩
    · cases hegl : egl (w.calls ++ [makeCurrentCall (w.heap this)])
      · rw [setActive_of_rejected egl w this hstate hact hegl]
        have := modify_state_fields
          ({ w with calls := w.calls ++ [makeCurrentCall (w.heap this)] } : World) this q
          GLCONTEXT_STATE_ERROR
        exact ⟨this.1, this.2.1, this.2.2.1, rfl, rfl⟩
      · rw [setActive_of_accepted egl w this hstate hact hegl]
        exact ⟨rfl, rfl, rfl, rfl, rfl⟩
  · rw [setActive_of_not_ok egl w this hstate]
    exact ⟨rfl, rfl, rfl, rfl, rfl⟩

/-- `dispose` when its `setActive` fails: the process `setActive` left, with
the state set to `Error`. -/
theorem dispose_of_failed (egl : List NativeCall → Bool) (w : World) (this : Nat)
    (hfail : (setActive egl (unregisterContext w this) this).1 = false) :
    dispose egl w this =
      (setActive egl (unregisterContext w this) this).2.modify this
        (fun c => { c with state := GLCONTEXT_STATE_ERROR }) := by
  unfold dispose
  dsimp only
  rw [if_pos hfail]

/-- `dispose` when its `setActive` succeeds, step by step. -/
theorem dispose_of_succeeded (egl : List NativeCall → Bool) (w : World) (this : Nat)
    (hsucc : (setActive egl (unregisterContext w this) this).1 = true) :
    dispose egl w this =
      { deleteObjects
          ((setActive egl (unregisterContext w this) this).2.modify this
            (fun c => { c with state := GLCONTEXT_STATE_DESTROY }))
          (((setActive egl (unregisterContext w this) this).2.modify this
            (fun c => { c with state := GLCONTEXT_STATE_DESTROY })).heap this).objects with
        calls :=
          (deleteObjects
            ((setActive egl (unregisterContext w this) this).2.modify this
              (fun c => { c with state := GLCONTEXT_STATE_DESTROY }))
            (((setActive egl (unregisterContext w this) this).2.modify this
              (fun c => { c with state := GLCONTEXT_STATE_DESTROY })).heap this).objects).calls ++
          [NativeCall.eglMakeCurrent none none none] ++
          [NativeCall.eglDestroyContext
            ((deleteObjects
              ((setActive egl (unregisterContext w this) this).2.modify this
                (fun c => { c with state := GLCONTEXT_STATE_DESTROY }))
              (((setActive egl (unregisterContext w this) this).2.modify this
                (fun c => { c with state := GLCONTEXT_STATE_DESTROY })).heap this).objects).heap
              this).context]
        ACTIVE := none } := by
  unfold dispose
  dsimp only
  rw [if_neg (by rw [hsucc]; decide)]

theorem deleteObjects_frame (objects : List GLObjectReference) :
    ∀ w : World, (deleteObjects w objects).heap = w.heap ∧
      (deleteObjects w objects).ACTIVE = w.ACTIVE ∧
      (deleteObjects w objects).CONTEXT_LIST_HEAD = w.CONTEXT_LIST_HEAD ∧
      (deleteObjects w objects).HAS_DISPLAY = w.HAS_DISPLAY := by
  induction objects with
  | nil => intro w; exact ⟨rfl, rfl, rfl, rfl⟩
  | cons o os ih => intro w; exact ih _

/-- `dispose` leaves the context list as `unregisterContext` left it, and the
registry and the display flag as they were. -/
theorem dispose_fields (egl : List NativeCall → Bool) (w : World) (this q : Nat) :
    ((dispose egl w this).heap q).objects = (w.heap q).objects ∧
    ((dispose egl w this).heap q).next = ((unregisterContext w this).heap q).next ∧
    ((dispose egl w this).heap q).prev = ((unregisterContext w this).heap q).prev ∧
    (dispose egl w this).CONTEXT_LIST_HEAD = (unregisterContext w this).CONTEXT_LIST_HEAD ∧
    (dispose egl w this).HAS_DISPLAY = w.HAS_DISPLAY := by
  obtain ⟨-, -, hdisp, hheap⟩ := unregisterContext_sameButLinks w this
  obtain ⟨-, hobj, -, -, -⟩ := hheap q
  obtain ⟨s1, s2, s3, s4, s5⟩ := setActive_fields egl (unregisterContext w this) this q
  cases hres : (setActive egl (unregisterContext w this) this).1
  · rw [dispose_of_failed egl w this hres]
    obtain ⟨m1, m2, m3, -, -⟩ := modify_state_fields
      (setActive egl (unregisterContext w this) this).2 this q GLCONTEXT_STATE_ERROR
    exact ⟨by rw [m1, s1, hobj], by rw [m2, s2], by rw [m3, s3], s4, by rw [← hdisp, ← s5]; rfl⟩
  · rw [dispose_of_succeeded egl w this hres]
    obtain ⟨m1, m2, m3, -, -⟩ := modify_state_fields
      (setActive egl (unregisterContext w this) this).2 this q GLCONTEXT_STATE_DESTROY
    obtain ⟨d1, -, d3, d4⟩ := deleteObjects_frame
      (((setActive egl (unregisterContext w this) this).2.modify this
        (fun c => { c with state := GLCONTEXT_STATE_DESTROY })).heap this).objects
      ((setActive egl (unregisterContext w this) this).2.modify this
        (fun c => { c with state := GLCONTEXT_STATE_DESTROY }))
    dsimp only
    rw [d1, d3, d4]
    exact ⟨by rw [m1, s1, hobj], by rw [m2, s2], by rw [m3, s3], s4, by rw [← hdisp, ← s5]; rfl⟩

theorem dispose_objects (egl : List NativeCall → Bool) (w : World) (this q : Nat) :
    ((dispose egl w this).heap q).objects = (w.heap q).objects :=
  (dispose_fields egl w this q).1

/-! ## Lemmas: the context list -/

/-- The links of every node after `unlinkNext`. -/
theorem unlinkNext_links (w : World) (c q : Nat) :
    ((unlinkNext w c).heap q).next = (w.heap q).next ∧
    ((unlinkNext w c).heap q).prev =
      (if (w.heap c).next = some q then (w.heap c).prev else (w.heap q).prev) ∧
    (unlinkNext w c).CONTEXT_LIST_HEAD = w.CONTEXT_LIST_HEAD := by
  unfold unlinkNext
  cases hn : (w.heap c).next with
  | none => simp
  | some n =>
    simp only [World.modify]
    by_cases hq : q = n
    · subst hq
      simp
    · have : ¬ (some n = some q) := fun h => hq (Option.some.inj h).symm
      simp [hq, this]

/-- The links of every node after `unlinkPrev`. -/
theorem unlinkPrev_links (w : World) (c q : Nat) :
    ((unlinkPrev w c).heap q).prev = (w.heap q).prev ∧
    ((unlinkPrev w c).heap q).next =
      (if (w.heap c).prev = some q then (w.heap c).next else (w.heap q).next) ∧
    (unlinkPrev w c).CONTEXT_LIST_HEAD = w.CONTEXT_LIST_HEAD := by
  unfold unlinkPrev
  cases hn : (w.heap c).prev with
  | none => simp
  | some n =>
    simp only [World.modify]
    by_cases hq : q = n
    · subst hq
      simp
    · have : ¬ (some n = some q) := fun h => hq (Option.some.inj h).symm
      simp [hq, this]

/-- The links of every node, and the list head, after `unregisterContext`. -/
theorem unregisterContext_links (w : World) (c q : Nat) :
    ((unregisterContext w c).heap q).next =
      (if q = c then none
        else if (w.heap c).prev = some q then (w.heap c).next else (w.heap q).next) ∧
    ((unregisterContext w c).heap q).prev =
      (if q = c then none
        else if (w.heap c).next = some q then (w.heap c).prev else (w.heap q).prev) ∧
    (unregisterContext w c).CONTEXT_LIST_HEAD =
      (if w.CONTEXT_LIST_HEAD = some c then (w.heap c).next else w.CONTEXT_LIST_HEAD) := by
  obtain ⟨n1, p1, h1⟩ := unlinkNext_links w c q
  obtain ⟨n1c, p1c, -⟩ := unlinkNext_links w c c
  obtain ⟨p2, n2, h2⟩ := unlinkPrev_links (unlinkNext w c) c q
  obtain ⟨p2c, n2c, -⟩ := unlinkPrev_links (unlinkNext w c) c c
  have hp1c : ((unlinkNext w c).heap c).prev = (w.heap c).prev := by
    rw [p1c]
    split_ifs <;> rfl
  have hn2c : ((unlinkPrev (unlinkNext w c) c).heap c).next = (w.heap c).next := by
    rw [n2c, n1c]
    split_ifs <;> rfl
  have hheap : (unlinkHead (unlinkPrev (unlinkNext w c) c) c).heap =
      (unlinkPrev (unlinkNext w c) c).heap := by
    unfold unlinkHead
    split_ifs <;> rfl
  have hhead : (unlinkHead (unlinkPrev (unlinkNext w c) c) c).CONTEXT_LIST_HEAD =
      (if w.CONTEXT_LIST_HEAD = some c then (w.heap c).next else w.CONTEXT_LIST_HEAD) := by
    have hx : (unlinkPrev (unlinkNext w c) c).CONTEXT_LIST_HEAD = w.CONTEXT_LIST_HEAD :=
      h2.trans h1
    unfold unlinkHead
    by_cases hh : w.CONTEXT_LIST_HEAD = some c
    · rw [if_pos (hx.trans hh), if_pos hh]
      exact hn2c
    · rw [if_neg (fun h => hh (hx.symm.trans h)), if_neg hh]
      exact hx
  unfold unregisterContext
  simp only [World.modify, hheap]
  refine ⟨?_, ?_, hhead⟩
  · by_cases hq : q = c
    · simp [hq]
    · simp only [hq, if_false]
      rw [n2, n1c, n1, hp1c]
  · by_cases hq : q = c
    · simp [hq]
    · simp only [hq, if_false]
      rw [p2, p1]

/-- The pointer a linked list starts at is its first node. -/
theorem linked_head (heap : Nat → WebGLRenderingContext) (prev cur : Option Nat)
    (l : List Nat) (h : linked heap prev cur l) : cur = l.head? := by
  cases l with
  | nil => exact h
  | cons c rest => exact h.1

/-- `linked` reads only the links of the nodes of the list. -/
theorem linked_congr (heap heap' : Nat → WebGLRenderingContext) (l : List Nat) :
    ∀ prev cur,
      (∀ q ∈ l, (heap' q).next = (heap q).next ∧ (heap' q).prev = (heap q).prev) →
      linked heap prev cur l → linked heap' prev cur l := by
  induction l with
  | nil => intro prev cur _ h; exact h
  | cons c rest ih =>
    intro prev cur hsame h
    obtain ⟨h1, h2, h3⟩ := h
    obtain ⟨hn, hp⟩ := hsame c (List.mem_cons_self _ _)
    refine ⟨h1, by rw [hp, h2], ?_⟩
    rw [hn]
    exact ih _ _ (fun q hq => hsame q (List.mem_cons_of_mem _ hq)) h3

/-- In a linked list the `prev` of a node is the node before it. -/
theorem linked_prev_of_mem (heap : Nat → WebGLRenderingContext) (c : Nat) (post : List Nat) :
    ∀ (pre : List Nat) (prev cur : Option Nat), linked heap prev cur (pre ++ c :: post) →
      (pre = [] ∧ (heap c).prev = prev) ∨ (∃ x ∈ pre, (heap c).prev = some x) := by
  intro pre
  induction pre with
  | nil => intro prev cur h; exact Or.inl ⟨rfl, h.2.1⟩
  | cons a pre' ih =>
    intro prev cur h
    rcases ih (some a) (heap a).next h.2.2 with ⟨hnil, hp⟩ | ⟨x, hx, hp⟩
    · exact Or.inr ⟨a, List.mem_cons_self _ _, hp⟩
    · exact Or.inr ⟨x, List.mem_cons_of_mem _ hx, hp⟩

/-- In a linked list the `next` of a node is the head of what follows it. -/
theorem linked_next_of_mem (heap : Nat → WebGLRenderingContext) (c : Nat) (post : List Nat) :
    ∀ (pre : List Nat) (prev cur : Option Nat), linked heap prev cur (pre ++ c :: post) →
      (heap c).next = post.head? := by
  intro pre
  induction pre with
  | nil =>
    intro prev cur h
    have h3 := h.2.2
    cases post with
    | nil => exact h3
    | cons n post' => exact h3.1
  | cons a pre' ih =>
    intro prev cur h
    exact ih (some a) (heap a).next h.2.2

/-- Removing the node `c` from a linked list: with the links rewritten as
`unregisterContext` rewrites them, the remaining nodes are linked in their
order. `heap'` is any heap whose links are those formulas. -/
theorem linked_remove (heap heap' : Nat → WebGLRenderingContext) (c : Nat) (post : List Nat)
    (hnext : ∀ q, (heap' q).next =
      (if q = c then none
        else if (heap c).prev = some q then (heap c).next else (heap q).next))
    (hprev : ∀ q, (heap' q).prev =
      (if q = c then none
        else if (heap c).next = some q then (heap c).prev else (heap q).prev)) :
    ∀ (pre : List Nat) (prev cur : Option Nat),
      linked heap prev cur (pre ++ c :: post) → (pre ++ c :: post).Nodup →
      (∀ p, prev = some p → p ∉ pre ++ c :: post) →
      linked heap' prev (if pre = [] then (heap c).next else cur) (pre ++ post) := by
  intro pre
  induction pre with
  | nil =>
    intro prev cur h hnd hprevout
    obtain ⟨hcur, hcp, hrest⟩ := h
    simp only [List.nil_append, if_true] at hnd hprevout ⊢
    rw [List.nodup_cons] at hnd
    cases post with
    | nil => exact hrest
    | cons n post' =>
      obtain ⟨hcn, hnp, hrest'⟩ := hrest
      have hnc : n ≠ c := fun h => hnd.1 (by rw [h]; exact List.mem_cons_self _ _)
      have hnd' := List.nodup_cons.mp hnd.2
      refine ⟨hcn, ?_, ?_⟩
      · rw [hprev n, if_neg hnc, if_pos hcn, hcp]
      · have hpn : ¬ ((heap c).prev = some n) := by
          intro h
          rw [hcp] at h
          exact hprevout n h (List.mem_cons_of_mem _ (List.mem_cons_self _ _))
        rw [hnext n, if_neg hnc, if_neg hpn]
        apply linked_congr heap heap' post' _ _ _ hrest'
        intro q hq
        have hqc : q ≠ c := fun h =>
          hnd.1 (by rw [← h]; exact List.mem_cons_of_mem _ hq)
        have hqn : q ≠ n := fun h => hnd'.1 (by rw [← h]; exact hq)
        have h1 : ¬ ((heap c).prev = some q) := by
          intro h
          rw [hcp] at h
          exact hprevout q h (List.mem_cons_of_mem _ (List.mem_cons_of_mem _ hq))
        have h2 : ¬ ((heap c).next = some q) := by
          intro h
          rw [hcn] at h
          exact hqn (Option.some.inj h).symm
        rw [hnext q, hprev q, if_neg hqc, if_neg hqc, if_neg h1, if_neg h2]
        exact ⟨rfl, rfl⟩
  | cons a pre' ih =>
    intro prev cur h hnd hprevout
    obtain ⟨hcur, hap, hrest⟩ := h
    have hnd0 : (a :: (pre' ++ c :: post)).Nodup := hnd
    rw [List.nodup_cons] at hnd0
    have hac : a ≠ c := fun h => hnd0.1 (by rw [h]; simp)
    have hih := ih (some a) (heap a).next hrest hnd0.2
      (fun p hp => by rw [← Option.some.inj hp]; exact hnd0.1)
    have hcnext := linked_next_of_mem heap c post pre' (some a) (heap a).next hrest
    have hcna : ¬ ((heap c).next = some a) := by
      intro h
      rw [hcnext] at h
      have : a ∈ post := List.mem_of_mem_head? h
      exact hnd0.1 (by simp [this])
    simp only [List.cons_append, if_false, List.cons_ne_nil]
    refine ⟨hcur, ?_, ?_⟩
    · rw [hprev a, if_neg hac, if_neg hcna, hap]
    · rw [hnext a, if_neg hac]
      rcases linked_prev_of_mem heap c post pre' (some a) (heap a).next hrest with
        ⟨hnil, hp⟩ | ⟨x, hx, hp⟩
      · rw [if_pos hp]
        rw [if_pos hnil] at hih
        exact hih
      · have hxa : ¬ ((heap c).prev = some a) := by
          intro h
          rw [hp] at h
          have : x = a := Option.some.inj h
          exact hnd0.1 (by rw [← this]; simp [hx])
        have hne : pre' ≠ [] := by
          intro h
          rw [h] at hx
          exact absurd hx (List.not_mem_nil _)
        rw [if_neg hxa]
        rw [if_neg hne] at hih
        exact hih

/-- `unregisterContext` of a member of the context list removes exactly that
member and keeps the others in their order. -/
theorem unregisterContext_of_mem (w : World) (l : List Nat) (c : Nat)
    (hl : IsContextList w l) (hc : c ∈ l) :
    IsContextList (unregisterContext w c) (l.erase c) := by
  obtain ⟨hnd, hlink⟩ := hl
  obtain ⟨pre, post, hsplit⟩ := List.append_of_mem hc
  subst hsplit
  have hcpre : c ∉ pre := by
    intro h
    have := List.nodup_append.mp hnd
    exact this.2.2 h (List.mem_cons_self _ _)
  have herase : (pre ++ c :: post).erase c = pre ++ post := by
    rw [List.erase_append_right _ hcpre, List.erase_cons_head]
  rw [herase]
  refine ⟨?_, ?_⟩
  · have := List.nodup_append.mp hnd
    refine List.nodup_append.mpr ⟨this.1, (List.nodup_cons.mp this.2.1).2, ?_⟩
    intro x hx1 hx2
    exact this.2.2 hx1 (List.mem_cons_of_mem _ hx2)
  · have hrem := linked_remove w.heap (unregisterContext w c).heap c post
      (fun q => (unregisterContext_links w c q).1)
      (fun q => (unregisterContext_links w c q).2.1)
      pre none w.CONTEXT_LIST_HEAD hlink hnd (fun p hp => by cases hp)
    rw [(unregisterContext_links w c c).2.2]
    cases pre with
    | nil =>
      rw [if_pos rfl] at hrem
      rw [if_pos hlink.1]
      exact hrem
    | cons a pre' =>
      rw [if_neg (List.cons_ne_nil _ _)] at hrem
      have hac : a ≠ c := fun h => hcpre (by rw [h]; exact List.mem_cons_self _ _)
      have hhead : w.CONTEXT_LIST_HEAD = some a := hlink.1
      rw [if_neg (by rw [hhead]; exact fun h => hac (Option.some.inj h))]
      exact hrem

/-- `unregisterContext` of a context that is not in the list and has `NULL`
links leaves the list as it is. -/
theorem unregisterContext_of_not_mem (w : World) (l : List Nat) (c : Nat)
    (hl : IsContextList w l) (hc : c ∉ l)
    (hnull : (w.heap c).next = none ∧ (w.heap c).prev = none) :
    IsContextList (unregisterContext w c) l := by
  obtain ⟨hnd, hlink⟩ := hl
  refine ⟨hnd, ?_⟩
  have hhead : (unregisterContext w c).CONTEXT_LIST_HEAD = w.CONTEXT_LIST_HEAD := by
    rw [(unregisterContext_links w c c).2.2]
    split_ifs with h
    · exfalso
      cases l with
      | nil => rw [hlink] at h; cases h
      | cons a rest =>
        rw [hlink.1] at h
        exact hc (by rw [Option.some.inj h]; exact List.mem_cons_self _ _)
    · rfl
  rw [hhead]
  apply linked_congr w.heap _ l _ _ _ hlink
  intro q hq
  have hqc : q ≠ c := fun h => hc (by rw [← h]; exact hq)
  obtain ⟨h1, h2, -⟩ := unregisterContext_links w c q
  rw [h1, h2, if_neg hqc, if_neg hqc, hnull.1, hnull.2]
  simp

/-- After `unregisterContext` the context is not in the context list, whether
it was a member or had `NULL` links. -/
theorem unregisterContext_removes (w : World) (l : List Nat) (c : Nat)
    (hl : IsContextList w l)
    (hc : c ∈ l ∨ ((w.heap c).next = none ∧ (w.heap c).prev = none)) :
    IsContextList (unregisterContext w c) (l.erase c) ∧ c ∉ l.erase c := by
  have hnot : c ∉ l.erase c := fun h => (List.Nodup.mem_erase_iff hl.1).mp h |>.1 rfl
  by_cases hmem : c ∈ l
  · exact ⟨unregisterContext_of_mem w l c hl hmem, hnot⟩
  · rcases hc with hc | hc
    · exact absurd hc hmem
    · rw [List.erase_of_not_mem hmem]
      exact ⟨unregisterContext_of_not_mem w l c hl hmem hc, hmem⟩

/-- Processes with the same links and list head have the same context list. -/
theorem IsContextList.of_same_links {w w' : World} {l : List Nat} (hl : IsContextList w l)
    (hhead : w'.CONTEXT_LIST_HEAD = w.CONTEXT_LIST_HEAD)
    (hlinks : ∀ q, (w'.heap q).next = (w.heap q).next ∧ (w'.heap q).prev = (w.heap q).prev) :
    IsContextList w' l := by
  refine ⟨hl.1, ?_⟩
  rw [hhead]
  exact linked_congr w.heap w'.heap l _ _ (fun q _ => hlinks q) hl.2

/-- `dispose` removes the context from the context list, whatever its state and
whatever the driver answers. -/
theorem dispose_removes (egl : List NativeCall → Bool) (w : World) (l : List Nat) (c : Nat)
    (hl : IsContextList w l)
    (hc : c ∈ l ∨ ((w.heap c).next = none ∧ (w.heap c).prev = none)) :
    IsContextList (dispose egl w c) (l.erase c) ∧ c ∉ l.erase c := by
  obtain ⟨h1, h2⟩ := unregisterContext_removes w l c hl hc
  refine ⟨h1.of_same_links (dispose_fields egl w c 0).2.2.2.1 (fun q => ?_), h2⟩
  exact ⟨(dispose_fields egl w c q).2.1, (dispose_fields egl w c q).2.2.1⟩

/-- What a failing `setActive` has done: nothing, or one rejected
make-current; `ACTIVE` is unchanged and no context but `this` has changed
state. -/
theorem setActive_failed (egl : List NativeCall → Bool) (w : World) (this : Nat)
    (hfail : (setActive egl w this).1 = false) :
    ((setActive egl w this).2.calls = w.calls ∨
      (setActive egl w this).2.calls = w.calls ++ [makeCurrentCall (w.heap this)]) ∧
    (setActive egl w this).2.ACTIVE = w.ACTIVE ∧
    (∀ q, q ≠ this → ((setActive egl w this).2.heap q).state = (w.heap q).state) := by
  by_cases hstate : (w.heap this).state = GLCONTEXT_STATE_OK
  · by_cases hact : w.ACTIVE = some this
    · rw [setActive_of_active egl w this hstate hact] at hfail
      exact Bool.noConfusion hfail
    · cases hegl : egl (w.calls ++ [makeCurrentCall (w.heap this)])
      · rw [setActive_of_rejected egl w this hstate hact hegl]
        refine ⟨Or.inr rfl, rfl, fun q hq => ?_⟩
        dsimp only
        rw [modify_state, if_neg hq]
      · rw [setActive_of_accepted egl w this hstate hact hegl] at hfail
        exact Bool.noConfusion hfail
  · rw [setActive_of_not_ok egl w this hstate]
    exact ⟨Or.inl rfl, rfl, fun _ _ => rfl⟩

/-- The loop of `DisposeAll` ends within as many iterations as the context
list has members, with an empty list and the display flag untouched. -/
theorem disposeLoop_terminates (egl : List NativeCall → Bool) :
    ∀ (fuel : Nat) (w : World) (l : List Nat), IsContextList w l → l.length ≤ fuel →
      ∃ w', disposeLoop egl fuel w = some w' ∧ w'.CONTEXT_LIST_HEAD = none ∧
        w'.HAS_DISPLAY = w.HAS_DISPLAY := by
  intro fuel
  induction fuel with
  | zero =>
    intro w l hl hlen
    have hnil : l = [] := List.length_eq_zero.mp (Nat.le_zero.mp hlen)
    subst hnil
    have hhead : w.CONTEXT_LIST_HEAD = none := hl.2
    exact ⟨w, by simp [disposeLoop, hhead], hhead, rfl⟩
  | succ fuel ih =>
    intro w l hl hlen
    cases l with
    | nil =>
      have hhead : w.CONTEXT_LIST_HEAD = none := hl.2
      exact ⟨w, by simp [disposeLoop, hhead], hhead, rfl⟩
    | cons c rest =>
      have hhead : w.CONTEXT_LIST_HEAD = some c := hl.2.1
      have hrem := (dispose_removes egl w (c :: rest) c hl
        (Or.inl (List.mem_cons_self _ _))).1
      rw [List.erase_cons_head] at hrem
      obtain ⟨w', h1, h2, h3⟩ := ih (dispose egl w c) rest hrem
        (by simpa using hlen)
      refine ⟨w', ?_, h2, ?_⟩
      · simp only [disposeLoop, hhead]
        exact h1
      · rw [h3]
        exact (dispose_fields egl w c 0).2.2.2.2

/-! ## Lemmas: the constructor, step by step -/

theorem constructFail_state (w : World) (this : Nat) :
    ((constructFail w this).heap this).state = GLCONTEXT_STATE_ERROR := by
  unfold constructFail
  rw [modify_state, if_pos rfl]

/-- `registerContext` touches only `next`, `prev` and `CONTEXT_LIST_HEAD`. -/
theorem registerContext_sameButLinks (w : World) (this : Nat) :
    w.SameButLinks (registerContext w this) := by
  unfold registerContext
  cases w.CONTEXT_LIST_HEAD with
  | none =>
    refine ⟨rfl, rfl, rfl, fun q => ?_⟩
    simp only [World.modify]
    split_ifs <;> exact ⟨rfl, rfl, rfl, rfl, rfl⟩
  | some head =>
    refine ⟨rfl, rfl, rfl, fun q => ?_⟩
    simp only [World.modify]
    split_ifs <;> exact ⟨rfl, rfl, rfl, rfl, rfl⟩

/-- `registerContext` leaves the preferred depth of every context alone. -/
theorem registerContext_preferredDepth (w : World) (this q : Nat) :
    ((registerContext w this).heap q).preferredDepth = (w.heap q).preferredDepth := by
  unfold registerContext
  cases w.CONTEXT_LIST_HEAD with
  | none =>
    simp only [World.modify]
    split_ifs <;> rfl
  | some head =>
    simp only [World.modify]
    split_ifs <;> rfl

/-- The last step: the state ends `OK` exactly when every required extension is
found, and then the preferred depth has been chosen from the string. -/
theorem constructExtensions_result (drv : Driver) (w : World) (this : Nat)
    (hst : (w.heap this).state = GLCONTEXT_STATE_OK) :
    ((constructExtensions drv w this).heap this).state =
      (if checkExtensions (drv.glGetString (w.calls ++ [NativeCall.glGetString GL_EXTENSIONS]))
          REQUIRED_EXTENSIONS = true
        then GLCONTEXT_STATE_OK else GLCONTEXT_STATE_ERROR) ∧
    (checkExtensions (drv.glGetString (w.calls ++ [NativeCall.glGetString GL_EXTENSIONS]))
        REQUIRED_EXTENSIONS = true →
      ((constructExtensions drv w this).heap this).preferredDepth =
        selectPreferredDepth
          (drv.glGetString (w.calls ++ [NativeCall.glGetString GL_EXTENSIONS]))) := by
  unfold constructExtensions
  simp only [issue]
  cases hc : checkExtensions (drv.glGetString (w.calls ++ [NativeCall.glGetString GL_EXTENSIONS]))
      REQUIRED_EXTENSIONS
  · simp only [if_true]
    exact ⟨by rw [constructFail_state]; simp, fun h => Bool.noConfusion h⟩
  · simp only [Bool.true_eq_false, if_false, if_true]
    refine ⟨?_, fun _ => ?_⟩
    · simp [World.modify, hst]
    · simp [World.modify]

/-- From the make-current on. -/
theorem constructMakeCurrent_result (drv : Driver) (w : World) (this : Nat) :
    ((constructMakeCurrent drv w this).heap this).state =
      (if drv.eglMakeCurrent (w.calls ++ [makeCurrentCall (w.heap this)]) = true ∧
          checkExtensions
            (drv.glGetString (w.calls ++ [makeCurrentCall (w.heap this)] ++
              [NativeCall.glGetString GL_EXTENSIONS])) REQUIRED_EXTENSIONS = true
        then GLCONTEXT_STATE_OK else GLCONTEXT_STATE_ERROR) ∧
    (drv.eglMakeCurrent (w.calls ++ [makeCurrentCall (w.heap this)]) = true ∧
        checkExtensions
          (drv.glGetString (w.calls ++ [makeCurrentCall (w.heap this)] ++
            [NativeCall.glGetString GL_EXTENSIONS])) REQUIRED_EXTENSIONS = true →
      ((constructMakeCurrent drv w this).heap this).preferredDepth =
        selectPreferredDepth
          (drv.glGetString (w.calls ++ [makeCurrentCall (w.heap this)] ++
            [NativeCall.glGetString GL_EXTENSIONS]))) := by
  unfold constructMakeCurrent
  simp only [issue]
  cases hmc : drv.eglMakeCurrent (w.calls ++ [makeCurrentCall (w.heap this)])
  · simp only [if_true]
    exact ⟨by rw [constructFail_state]; simp, fun h => Bool.noConfusion h.1⟩
  · simp only [Bool.true_eq_false, if_false, true_and]
    have hreg := registerContext_sameButLinks
      (({ w with calls := w.calls ++ [makeCurrentCall (w.heap this)] } : World).modify this
        (fun c => { c with state := GLCONTEXT_STATE_OK })) this
    have hst : (({ registerContext
        (({ w with calls := w.calls ++ [makeCurrentCall (w.heap this)] } : World).modify this
          (fun c => { c with state := GLCONTEXT_STATE_OK })) this with
        ACTIVE := some this } : World).heap this).state = GLCONTEXT_STATE_OK := by
      show ((registerContext _ this).heap this).state = _
      rw [(hreg.2.2.2 this).1, modify_state, if_pos rfl]
    have hcalls : ({ registerContext
        (({ w with calls := w.calls ++ [makeCurrentCall (w.heap this)] } : World).modify this
          (fun c => { c with state := GLCONTEXT_STATE_OK })) this with
        ACTIVE := some this } : World).calls = w.calls ++ [makeCurrentCall (w.heap this)] := by
      show (registerContext _ this).calls = _
      rw [hreg.1]
      rfl
    have := constructExtensions_result drv _ this hst
    rw [hcalls] at this
    exact this

/-- From the creation of the surface on. -/
theorem constructSurface_result (drv : Driver) (w : World) (this : Nat) (width height : Int) :
    ((constructSurface drv w this width height).heap this).state =
      (if drv.eglCreatePbufferSurface (w.calls ++
            [NativeCall.eglCreatePbufferSurface (w.heap this).config (wrapInt32 width)
              (wrapInt32 height)]) ≠ none ∧
          drv.eglMakeCurrent (w.calls ++
            [NativeCall.eglCreatePbufferSurface (w.heap this).config (wrapInt32 width)
              (wrapInt32 height)] ++
            [NativeCall.eglMakeCurrent
              (some ((drv.eglCreatePbufferSurface (w.calls ++
                [NativeCall.eglCreatePbufferSurface (w.heap this).config (wrapInt32 width)
                  (wrapInt32 height)])).getD 0))
              (some ((drv.eglCreatePbufferSurface (w.calls ++
                [NativeCall.eglCreatePbufferSurface (w.heap this).config (wrapInt32 width)
                  (wrapInt32 height)])).getD 0))
              (some (w.heap this).context)]) = true ∧
          checkExtensions
            (drv.glGetString (w.calls ++
              [NativeCall.eglCreatePbufferSurface (w.heap this).config (wrapInt32 width)
                (wrapInt32 height)] ++
              [NativeCall.eglMakeCurrent
                (some ((drv.eglCreatePbufferSurface (w.calls ++
                  [NativeCall.eglCreatePbufferSurface (w.heap this).config (wrapInt32 width)
                    (wrapInt32 height)])).getD 0))
                (some ((drv.eglCreatePbufferSurface (w.calls ++
                  [NativeCall.eglCreatePbufferSurface (w.heap this).config (wrapInt32 width)
                    (wrapInt32 height)])).getD 0))
                (some (w.heap this).context)] ++
              [NativeCall.glGetString GL_EXTENSIONS])) REQUIRED_EXTENSIONS = true
        then GLCONTEXT_STATE_OK else GLCONTEXT_STATE_ERROR) ∧
    (drv.eglCreatePbufferSurface (w.calls ++
            [NativeCall.eglCreatePbufferSurface (w.heap this).config (wrapInt32 width)
              (wrapInt32 height)]) ≠ none ∧
          drv.eglMakeCurrent (w.calls ++
            [NativeCall.eglCreatePbufferSurface (w.heap this).config (wrapInt32 width)
              (wrapInt32 height)] ++
            [NativeCall.eglMakeCurrent
              (some ((drv.eglCreatePbufferSurface (w.calls ++
                [NativeCall.eglCreatePbufferSurface (w.heap this).config (wrapInt32 width)
                  (wrapInt32 height)])).getD 0))
              (some ((drv.eglCreatePbufferSurface (w.calls ++
                [NativeCall.eglCreatePbufferSurface (w.heap this).config (wrapInt32 width)
                  (wrapInt32 height)])).getD 0))
              (some (w.heap this).context)]) = true ∧
          checkExtensions
            (drv.glGetString (w.calls ++
              [NativeCall.eglCreatePbufferSurface (w.heap this).config (wrapInt32 width)
                (wrapInt32 height)] ++
              [NativeCall.eglMakeCurrent
                (some ((drv.eglCreatePbufferSurface (w.calls ++
                  [NativeCall.eglCreatePbufferSurface (w.heap this).config (wrapInt32 width)
                    (wrapInt32 height)])).getD 0))
                (some ((drv.eglCreatePbufferSurface (w.calls ++
                  [NativeCall.eglCreatePbufferSurface (w.heap this).config (wrapInt32 width)
                    (wrapInt32 height)])).getD 0))
                (some (w.heap this).context)] ++
              [NativeCall.glGetString GL_EXTENSIONS])) REQUIRED_EXTENSIONS = true →
      ((constructSurface drv w this width height).heap this).preferredDepth =
        selectPreferredDepth
          (drv.glGetString (w.calls ++
              [NativeCall.eglCreatePbufferSurface (w.heap this).config (wrapInt32 width)
                (wrapInt32 height)] ++
              [NativeCall.eglMakeCurrent
                (some ((drv.eglCreatePbufferSurface (w.calls ++
                  [NativeCall.eglCreatePbufferSurface (w.heap this).config (wrapInt32 width)
                    (wrapInt32 height)])).getD 0))
                (some ((drv.eglCreatePbufferSurface (w.calls ++
                  [NativeCall.eglCreatePbufferSurface (w.heap this).config (wrapInt32 width)
                    (wrapInt32 height)])).getD 0))
                (some (w.heap this).context)] ++
              [NativeCall.glGetString GL_EXTENSIONS]))) := by
  unfold constructSurface
  simp only [issue]
  generalize hs : drv.eglCreatePbufferSurface (w.calls ++
    [NativeCall.eglCreatePbufferSurface (w.heap this).config (wrapInt32 width)
      (wrapInt32 height)]) = s
  cases s with
  | none =>
    simp only [if_true]
    exact ⟨by rw [constructFail_state]; simp, fun h => absurd rfl h.1⟩
  | some surface =>
    have hne : (some surface : Option Nat) ≠ none := by simp
    simp only [if_neg hne, ne_eq, not_false_eq_true, true_and, Option.getD_some, reduceCtorEq]
    have := constructMakeCurrent_result drv
      (({ w with calls := w.calls ++
        [NativeCall.eglCreatePbufferSurface (w.heap this).config (wrapInt32 width)
          (wrapInt32 height)] } : World).modify this (fun c => { c with surface := surface })) this
    simpa [World.modify, makeCurrentCall] using this

/-- From `//Create context` on, with the calls and handles named. -/
theorem constructContext_result (drv : Driver) (w : World) (this : Nat) (width height : Int)
    (t1 t2 t3 : List NativeCall) (ctx sf : Option Nat) (ext : List Char)
    (ht1 : t1 = w.calls ++ [NativeCall.eglCreateContext (w.heap this).config])
    (hctx : ctx = drv.eglCreateContext t1)
    (ht2 : t2 = t1 ++ [NativeCall.eglCreatePbufferSurface (w.heap this).config (wrapInt32 width)
      (wrapInt32 height)])
    (hsf : sf = drv.eglCreatePbufferSurface t2)
    (ht3 : t3 = t2 ++ [NativeCall.eglMakeCurrent (some (sf.getD 0)) (some (sf.getD 0))
      (some (ctx.getD 0))])
    (hext : ext = drv.glGetString (t3 ++ [NativeCall.glGetString GL_EXTENSIONS])) :
    ((constructContext drv w this width height).heap this).state =
      (if ctx ≠ none ∧ sf ≠ none ∧ drv.eglMakeCurrent t3 = true ∧
          checkExtensions ext REQUIRED_EXTENSIONS = true
        then GLCONTEXT_STATE_OK else GLCONTEXT_STATE_ERROR) ∧
    (ctx ≠ none ∧ sf ≠ none ∧ drv.eglMakeCurrent t3 = true ∧
        checkExtensions ext REQUIRED_EXTENSIONS = true →
      ((constructContext drv w this width height).heap this).preferredDepth =
        selectPreferredDepth ext) := by
  unfold constructContext
  simp only [issue]
  rw [← ht1, ← hctx]
  cases ctx with
  | none =>
    simp only [if_true]
    exact ⟨by rw [constructFail_state]; simp, fun h => absurd rfl h.1⟩
  | some context =>
    have hne : (some context : Option Nat) ≠ none := by simp
    simp only [if_neg hne, ne_eq, not_false_eq_true, true_and, Option.getD_some, reduceCtorEq]
    have hres := constructSurface_result drv
      (({ w with calls := t1 } : World).modify this (fun c => { c with context := context }))
      this width height
    simp only [Option.getD_some] at ht3
    have hcfg : (((({ w with calls := t1 } : World).modify this
        (fun c => { c with context := context })).heap this).config) = (w.heap this).config := by
      simp [World.modify]
    have hcx : (((({ w with calls := t1 } : World).modify this
        (fun c => { c with context := context })).heap this).context) = context := by
      simp [World.modify]
    have hcl : ((({ w with calls := t1 } : World).modify this
        (fun c => { c with context := context })).calls) = t1 := rfl
    rw [hcfg, hcx, hcl, ← ht2, ← hsf, ← ht3, ← hext] at hres
    exact hres

/-- From `//Set up configuration` on, with the calls and handles named. -/
theorem constructConfig_result (drv : Driver) (w : World) (this : Nat) (width height : Int)
    (t0 t1 t2 t3 : List NativeCall) (cfg : Nat) (ctx sf : Option Nat) (ext : List Char)
    (ht0 : t0 = w.calls ++ [NativeCall.eglChooseConfig])
    (hcfg : cfg = (drv.eglChooseConfig t0).2.2)
    (ht1 : t1 = t0 ++ [NativeCall.eglCreateContext cfg])
    (hctx : ctx = drv.eglCreateContext t1)
    (ht2 : t2 = t1 ++ [NativeCall.eglCreatePbufferSurface cfg (wrapInt32 width)
      (wrapInt32 height)])
    (hsf : sf = drv.eglCreatePbufferSurface t2)
    (ht3 : t3 = t2 ++ [NativeCall.eglMakeCurrent (some (sf.getD 0)) (some (sf.getD 0))
      (some (ctx.getD 0))])
    (hext : ext = drv.glGetString (t3 ++ [NativeCall.glGetString GL_EXTENSIONS])) :
    ((constructConfig drv w this width height).heap this).state =
      (if ((drv.eglChooseConfig t0).1 = true ∧ (drv.eglChooseConfig t0).2.1 = 1) ∧
          ctx ≠ none ∧ sf ≠ none ∧ drv.eglMakeCurrent t3 = true ∧
          checkExtensions ext REQUIRED_EXTENSIONS = true
        then GLCONTEXT_STATE_OK else GLCONTEXT_STATE_ERROR) ∧
    (((drv.eglChooseConfig t0).1 = true ∧ (drv.eglChooseConfig t0).2.1 = 1) ∧
        ctx ≠ none ∧ sf ≠ none ∧ drv.eglMakeCurrent t3 = true ∧
        checkExtensions ext REQUIRED_EXTENSIONS = true →
      ((constructConfig drv w this width height).heap this).preferredDepth =
        selectPreferredDepth ext) := by
  unfold constructConfig
  simp only [issue]
  rw [← ht0, ← hcfg]
  by_cases hch : (drv.eglChooseConfig t0).1 = false ∨ (drv.eglChooseConfig t0).2.1 ≠ 1
  · rw [if_pos hch]
    have hno : ¬ ((drv.eglChooseConfig t0).1 = true ∧ (drv.eglChooseConfig t0).2.1 = 1) := by
      rintro ⟨h1, h2⟩
      rcases hch with h | h
      · rw [h1] at h
        exact Bool.noConfusion h
      · exact h h2
    refine ⟨?_, fun h => absurd h.1 hno⟩
    rw [constructFail_state, if_neg (fun h => hno h.1)]
  · rw [if_neg hch]
    have hyes : (drv.eglChooseConfig t0).1 = true ∧ (drv.eglChooseConfig t0).2.1 = 1 := by
      constructor
      · cases h : (drv.eglChooseConfig t0).1
        · exact absurd (Or.inl h) hch
        · rfl
      · by_contra h
        exact hch (Or.inr h)
    have hres := constructContext_result drv
      (({ w with calls := t0 } : World).modify this (fun c => { c with config := cfg }))
      this width height t1 t2 t3 ctx sf ext
      (by rw [ht1]; simp [World.modify]) hctx (by rw [ht2]; simp [World.modify]) hsf ht3 hext
    simpa only [hyes, and_self, true_and] using hres

/-- The loop over the required extensions succeeds exactly when each of them
occurs in the extension string. -/
theorem checkExtensions_iff (ext : List Char) (l : List (List Char)) :
    checkExtensions ext l = true ↔ ∀ rext ∈ l, strstr ext rext = true := by
  induction l with
  | nil => simp [checkExtensions]
  | cons r rest ih =>
    unfold checkExtensions
    cases hr : strstr ext r
    · simp [hr]
    · simp [hr, ih]

theorem constructInit_calls (w : World) (this : Nat) :
    (constructInit w this).calls = w.calls ∧
    (constructInit w this).HAS_DISPLAY = w.HAS_DISPLAY := ⟨rfl, rfl⟩

/-- The whole constructor: the final state and the preferred depth. -/
theorem construct_result (drv : Driver) (w : World) (this : Nat) (width height : Int) :
    ((construct drv w this width height).heap this).state =
      (if ConstructionSucceeds drv w width height
        then GLCONTEXT_STATE_OK else GLCONTEXT_STATE_ERROR) ∧
    (ConstructionSucceeds drv w width height →
      ((construct drv w this width height).heap this).preferredDepth =
        selectPreferredDepth (constructedExtensionString drv w width height)) := by
  unfold construct
  simp only [issue, (constructInit_calls w this).1, (constructInit_calls w this).2]
  cases hd : w.HAS_DISPLAY
  · simp only [if_true]
    cases hg : drv.eglGetDisplay (w.calls ++ [NativeCall.eglGetDisplay]) with
    | none =>
      have hno : ¬ ConstructionSucceeds drv w width height := by
        intro h
        rcases h.1 with h1 | h1
        · rw [hd] at h1
          exact Bool.noConfusion h1
        · exact h1.1 hg
      simp only [if_true]
      exact ⟨by rw [constructFail_state, if_neg hno], fun h => absurd h hno⟩
    | some display =>
      have hne : (some display : Option Nat) ≠ none := by simp
      simp only [if_neg hne]
      have happ : w.calls ++ [NativeCall.eglGetDisplay] ++ [NativeCall.eglInitialize] =
          w.calls ++ [NativeCall.eglGetDisplay, NativeCall.eglInitialize] := by simp
      rw [happ]
      cases hi : drv.eglInitialize
          (w.calls ++ [NativeCall.eglGetDisplay, NativeCall.eglInitialize])
      · have hno : ¬ ConstructionSucceeds drv w width height := by
          intro h
          rcases h.1 with h1 | h1
          · rw [hd] at h1
            exact Bool.noConfusion h1
          · rw [hi] at h1
            exact Bool.noConfusion h1.2
        simp only [if_true]
        exact ⟨by rw [constructFail_state, if_neg hno], fun h => absurd h hno⟩
      · simp only [Bool.true_eq_false, if_false]
        have ht0 : callsAtChooseConfig w =
            ({ heap := (constructInit w this).heap, ACTIVE := (constructInit w this).ACTIVE,
               CONTEXT_LIST_HEAD := (constructInit w this).CONTEXT_LIST_HEAD,
               HAS_DISPLAY := true,
               calls := w.calls ++ [NativeCall.eglGetDisplay, NativeCall.eglInitialize] }
              : World).calls ++ [NativeCall.eglChooseConfig] := by
          simp [callsAtChooseConfig, hd]
        have hres := constructConfig_result drv _ this width height
          (callsAtChooseConfig w) (callsAtCreateContext drv w)
          (callsAtCreateSurface drv w width height) (callsAtMakeCurrent drv w width height)
          (chosenConfig drv w) (drv.eglCreateContext (callsAtCreateContext drv w))
          (drv.eglCreatePbufferSurface (callsAtCreateSurface drv w width height))
          (constructedExtensionString drv w width height) ht0 rfl rfl rfl rfl rfl rfl rfl
        have hiff : ConstructionSucceeds drv w width height ↔
            (((drv.eglChooseConfig (callsAtChooseConfig w)).1 = true ∧
              (drv.eglChooseConfig (callsAtChooseConfig w)).2.1 = 1) ∧
            drv.eglCreateContext (callsAtCreateContext drv w) ≠ none ∧
            drv.eglCreatePbufferSurface (callsAtCreateSurface drv w width height) ≠ none ∧
            drv.eglMakeCurrent (callsAtMakeCurrent drv w width height) = true ∧
            checkExtensions (constructedExtensionString drv w width height)
              REQUIRED_EXTENSIONS = true) := by
          unfold ConstructionSucceeds
          rw [checkExtensions_iff]
          constructor
          · exact fun h => h.2
          · exact fun h => ⟨Or.inr ⟨by rw [hg]; exact hne, hi⟩, h⟩
        refine ⟨?_, fun h => hres.2 (hiff.1 h)⟩
        rw [hres.1]
        by_cases hc : ConstructionSucceeds drv w width height
        · rw [if_pos hc, if_pos (hiff.1 hc)]
        · rw [if_neg hc, if_neg (fun h => hc (hiff.2 h))]
  · simp only [Bool.true_eq_false, if_false]
    have ht0 : callsAtChooseConfig w =
        (constructInit w this).calls ++ [NativeCall.eglChooseConfig] := by
      simp [callsAtChooseConfig, hd, (constructInit_calls w this).1]
    have hres := constructConfig_result drv _ this width height
      (callsAtChooseConfig w) (callsAtCreateContext drv w)
      (callsAtCreateSurface drv w width height) (callsAtMakeCurrent drv w width height)
      (chosenConfig drv w) (drv.eglCreateContext (callsAtCreateContext drv w))
      (drv.eglCreatePbufferSurface (callsAtCreateSurface drv w width height))
      (constructedExtensionString drv w width height) ht0 rfl rfl rfl rfl rfl rfl rfl
    have hiff : ConstructionSucceeds drv w width height ↔
        (((drv.eglChooseConfig (callsAtChooseConfig w)).1 = true ∧
          (drv.eglChooseConfig (callsAtChooseConfig w)).2.1 = 1) ∧
        drv.eglCreateContext (callsAtCreateContext drv w) ≠ none ∧
        drv.eglCreatePbufferSurface (callsAtCreateSurface drv w width height) ≠ none ∧
        drv.eglMakeCurrent (callsAtMakeCurrent drv w width height) = true ∧
        checkExtensions (constructedExtensionString drv w width height)
          REQUIRED_EXTENSIONS = true) := by
      unfold ConstructionSucceeds
      rw [checkExtensions_iff]
      constructor
      · exact fun h => h.2
      · exact fun h => ⟨Or.inl hd, h⟩
    refine ⟨?_, fun h => hres.2 (hiff.1 h)⟩
    rw [hres.1]
    by_cases hc : ConstructionSucceeds drv w width height
    · rw [if_pos hc, if_pos (hiff.1 hc)]
    · rw [if_neg hc, if_neg (fun h => hc (hiff.2 h))]

/-! ## Lemmas: entry points -/

/-- When `GL_BOILERPLATE` lets the entry point run, it has changed no context
and issued at most the `eglMakeCurrent` of the receiver. -/
theorem GL_BOILERPLATE_ok (egl : List NativeCall → Bool) (w : World) (this : Nat)
    (h : (GL_BOILERPLATE egl w this).1 = true) :
    (GL_BOILERPLATE egl w this).2.heap = w.heap ∧
    ((GL_BOILERPLATE egl w this).2.calls = w.calls ∨
      (GL_BOILERPLATE egl w this).2.calls = w.calls ++ [makeCurrentCall (w.heap this)]) := by
  unfold GL_BOILERPLATE at h ⊢
  by_cases hstate : (w.heap this).state = GLCONTEXT_STATE_OK
  · by_cases hact : w.ACTIVE = some this
    · rw [setActive_of_active egl w this hstate hact]
      exact ⟨rfl, Or.inl rfl⟩
    · cases hegl : egl (w.calls ++ [makeCurrentCall (w.heap this)])
      · rw [setActive_of_rejected egl w this hstate hact hegl] at h
        exact Bool.noConfusion h
      · rw [setActive_of_accepted egl w this hstate hact hegl]
        exact ⟨rfl, Or.inr rfl⟩
  · rw [setActive_of_not_ok egl w this hstate] at h
    exact Bool.noConfusion h

/-! ## Lemmas: the premultiply table -/

theorem withNat_eq (x : Nat) (f : Nat → Bool) : withNat x f = f x := by
  cases x <;> rfl

theorem allBelow_iff (f : Nat → Bool) (n : Nat) :
    allBelow f n = true ↔ ∀ k, k < n → f k = true := by
  induction n with
  | zero => exact ⟨fun _ k hk => absurd hk (Nat.not_lt_zero k), fun _ => rfl⟩
  | succ n ih =>
    have hstep : allBelow f (n + 1) = (f n && allBelow f n) := rfl
    rw [hstep, Bool.and_eq_true, ih]
    constructor
    · rintro ⟨h1, h2⟩ k hk
      rcases Nat.lt_succ_iff_lt_or_eq.mp hk with h | h
      · exact h2 k h
      · rw [h]
        exact h1
    · intro h
      exact ⟨h n (Nat.lt_succ_self n), fun k hk => h k (Nat.lt_succ_of_lt hk)⟩

theorem divRoundEvenB_eq (n d : Nat) : divRoundEvenB n d = divRoundEven n d := by
  unfold divRoundEvenB divRoundEven
  simp only [Bool.cond_eq_ite, Nat.blt_eq, Nat.beq_eq]

theorem log2Aux_spec : ∀ fuel n, n ≤ fuel → 1 ≤ n →
    2 ^ log2Aux fuel n ≤ n ∧ n < 2 ^ (log2Aux fuel n + 1) := by
  intro fuel
  induction fuel with
  | zero =>
    intro n h0 h1
    omega
  | succ fuel ih =>
    intro n hle h1
    unfold log2Aux
    by_cases h2 : 2 ≤ n
    · rw [if_pos h2]
      obtain ⟨i1, i2⟩ := ih (n / 2) (by omega) (by omega)
      rw [pow_succ, pow_succ]
      constructor <;> omega
    · rw [if_neg h2]
      have : n = 1 := by omega
      subst this
      exact ⟨by norm_num, by norm_num⟩

theorem log2_spec (n : Nat) (h : 1 ≤ n) : 2 ^ log2 n ≤ n ∧ n < 2 ^ (log2 n + 1) :=
  log2Aux_spec n n (le_refl n) h

/-- Two brackets of the same quotient by powers of two have the same
exponent, one direction. -/
theorem pow_bracket_half (n d A B A' B' : Nat)
    (h2 : n * 2 ^ B < 2 ^ (A + 1) * d) (h1' : 2 ^ A' * d ≤ n * 2 ^ B') :
    ¬ (A + 1 + B' ≤ A' + B) := by
  intro hle
  have hpow : 2 ^ (A + 1 + B') ≤ 2 ^ (A' + B) := Nat.pow_le_pow_right (by norm_num) hle
  have e1 : n * 2 ^ B * 2 ^ B' < 2 ^ (A + 1) * d * 2 ^ B' :=
    Nat.mul_lt_mul_of_pos_right h2 (pow_pos (by norm_num) B')
  have e2 : 2 ^ A' * d * 2 ^ B ≤ n * 2 ^ B' * 2 ^ B := Nat.mul_le_mul_right _ h1'
  have e3 : 2 ^ (A + 1) * d * 2 ^ B' = 2 ^ (A + 1 + B') * d := by
    rw [pow_add (2 : Nat) (A + 1) B']
    ring
  have e4 : 2 ^ (A' + B) * d = 2 ^ A' * d * 2 ^ B := by
    rw [pow_add (2 : Nat) A' B]
    ring
  have e5 : 2 ^ (A + 1 + B') * d ≤ 2 ^ (A' + B) * d := Nat.mul_le_mul_right _ hpow
  have e6 : n * 2 ^ B' * 2 ^ B = n * 2 ^ B * 2 ^ B' := by ring
  rw [e3] at e1
  rw [e4] at e5
  rw [e6] at e2
  exact absurd (lt_of_lt_of_le e1 (le_trans e5 e2)) (lt_irrefl _)

theorem pow_bracket_unique (n d A B A' B' : Nat)
    (h1 : 2 ^ A * d ≤ n * 2 ^ B) (h2 : n * 2 ^ B < 2 ^ (A + 1) * d)
    (h1' : 2 ^ A' * d ≤ n * 2 ^ B') (h2' : n * 2 ^ B' < 2 ^ (A' + 1) * d) :
    A + B' = A' + B := by
  have x := pow_bracket_half n d A B A' B' h2 h1'
  have y := pow_bracket_half n d A' B' A B h2' h1
  omega

/-- The rounding `roundQuot` written out, given the exponent `-E` for which the
scaled quotient has exactly `p` bits. -/
theorem roundQuot_bracket (p n d E : Nat) (hn : 0 < n) (hd : 0 < d) (hp : 1 ≤ p) (hE : 1 ≤ E)
    (h1 : 2 ^ (p - 1) * d ≤ n * 2 ^ E) (h2 : n * 2 ^ E < 2 ^ p * d) :
    roundQuot p n d = ⟨divRoundEven (n * 2 ^ E) d, -(E : Int)⟩ := by
  obtain ⟨ha1, ha2⟩ := log2_spec n hn
  obtain ⟨hb1, hb2⟩ := log2_spec d hd
  have h2' : n * 2 ^ E < 2 ^ (p - 1 + 1) * d := by rwa [Nat.sub_add_cancel hp]
  have hk : ((log2 n : Int) - (log2 d : Int) -
      (if n * 2 ^ log2 d < d * 2 ^ log2 n then 1 else 0)) - ((p : Int) - 1) = -(E : Int) := by
    by_cases ht : n * 2 ^ log2 d < d * 2 ^ log2 n
    · rw [if_pos ht]
      have b1 : 2 ^ log2 n * d ≤ n * 2 ^ (log2 d + 1) :=
        Nat.mul_le_mul ha1 (Nat.le_of_lt hb2)
      have b2 : n * 2 ^ (log2 d + 1) < 2 ^ (log2 n + 1) * d := by
        rw [pow_succ, pow_succ]
        have : n * (2 ^ log2 d * 2) = 2 * (n * 2 ^ log2 d) := by ring
        have : 2 ^ log2 n * 2 * d = 2 * (d * 2 ^ log2 n) := by ring
        omega
      have := pow_bracket_unique n d (log2 n) (log2 d + 1) (p - 1) E b1 b2 h1 h2'
      omega
    · rw [if_neg ht]
      have b1 : 2 ^ log2 n * d ≤ n * 2 ^ log2 d := by
        rw [Nat.mul_comm]
        exact Nat.le_of_not_lt ht
      have b2 : n * 2 ^ log2 d < 2 ^ (log2 n + 1) * d :=
        lt_of_le_of_lt (Nat.mul_le_mul_left n hb1) (Nat.mul_lt_mul_of_pos_right ha2 hd)
      have := pow_bracket_unique n d (log2 n) (log2 d) (p - 1) E b1 b2 h1 h2'
      omega
  unfold roundQuot
  rw [if_neg (Nat.pos_iff_ne_zero.mp hn)]
  dsimp only
  rw [hk, if_neg (by omega)]
  simp

theorem BinFloat.num_den_of_nonpos (s : BinFloat) (h : s.e ≤ 0) :
    s.num = s.m ∧ s.den = 2 ^ (-s.e).toNat := by
  unfold BinFloat.num BinFloat.den
  by_cases h0 : 0 ≤ s.e
  · have he : s.e = 0 := le_antisymm h h0
    rw [if_pos h0, if_pos h0, he]
    simp
  · rw [if_neg h0, if_neg h0]
    exact ⟨rfl, rfl⟩

/-- What `mulCheck` establishes about the `float` product. -/
theorem mulCheck_sound (a m D c : Nat) (s : BinFloat) (hnum : s.num = m) (hden : s.den = 2 ^ D)
    (h : mulCheck a m D c = true) :
    (mulNat 24 c s).trunc % 256 = c * a / 255 := by
  unfold mulCheck at h
  rw [withNat_eq] at h
  unfold mulNat
  rw [hnum, hden]
  by_cases h0 : c * m = 0
  · have hb : Nat.beq (c * m) 0 = true := by rw [Nat.beq_eq]; exact h0
    rw [hb, cond_true, Nat.beq_eq] at h
    rw [h0, h]
    have hz : roundQuot 24 0 (2 ^ D) = ⟨0, 0⟩ := by
      unfold roundQuot
      rw [if_pos rfl]
    rw [hz]
    rfl
  · have hb : Nat.beq (c * m) 0 = false := by
      cases hx : Nat.beq (c * m) 0
      · rfl
      · rw [Nat.beq_eq] at hx
        exact absurd hx h0
    rw [hb, cond_false, withNat_eq, withNat_eq] at h
    generalize (bif Nat.blt (c * m * 2 ^ (D - lg8 c)) (2 ^ (24 + D)) then D - lg8 c
      else D - lg8 c - 1) = E at h
    simp only [Bool.and_eq_true, Nat.ble_eq, Nat.blt_eq, Nat.beq_eq, divRoundEvenB_eq] at h
    obtain ⟨⟨⟨hE, hlo⟩, hhi⟩, hval⟩ := h
    have hpowD : (0 : Nat) < 2 ^ D := pow_pos (by norm_num) D
    have hlo' : 2 ^ (24 - 1) * 2 ^ D ≤ c * m * 2 ^ E := by
      rw [← pow_add]
      exact hlo
    have hhi' : c * m * 2 ^ E < 2 ^ 24 * 2 ^ D := by
      rw [← pow_add]
      exact hhi
    rw [roundQuot_bracket 24 (c * m) (2 ^ D) E (Nat.pos_of_ne_zero h0) hpowD (by norm_num) hE
      hlo' hhi']
    have hneg : ¬ ((0 : Int) ≤ -(E : Int)) := by omega
    have htr : (⟨divRoundEven (c * m * 2 ^ E) (2 ^ D), -(E : Int)⟩ : BinFloat).trunc =
        divRoundEven (c * m * 2 ^ E) (2 ^ D) / 2 ^ E := by
      unfold BinFloat.trunc BinFloat.num BinFloat.den
      simp only [if_neg hneg, neg_neg, Int.toNat_natCast]
    rw [htr]
    exact hval

theorem rowCheck_sound (a : Nat) (h : rowCheck a = true) (c : Nat) (hc : c < 256) :
    (mulNat 24 c (toFloat32 (doubleDiv a 255))).trunc % 256 = c * a / 255 := by
  unfold rowCheck at h
  simp only [Bool.and_eq_true, decide_eq_true_eq, withNat_eq] at h
  obtain ⟨he, hall⟩ := h
  obtain ⟨hnum, hden⟩ := BinFloat.num_den_of_nonpos _ he
  exact mulCheck_sound a _ _ c _ hnum hden ((allBelow_iff _ _).mp hall c hc)

theorem rowsCheck_sound (lo n : Nat) (h : rowsCheck lo n = true) (a : Nat)
    (h1 : lo ≤ a) (h2 : a < lo + n) : rowCheck a = true := by
  unfold rowsCheck at h
  have hk := (allBelow_iff _ _).mp h (a - lo) (by omega)
  rw [withNat_eq] at hk
  have e : lo + (a - lo) = a := by omega
  rwa [e] at hk

set_option maxRecDepth 1000000 in
theorem rowsCheck_0 : rowsCheck 0 64 = true := by decide!

set_option maxRecDepth 1000000 in
theorem rowsCheck_64 : rowsCheck 64 64 = true := by decide!

set_option maxRecDepth 1000000 in
theorem rowsCheck_128 : rowsCheck 128 64 = true := by decide!

set_option maxRecDepth 1000000 in
theorem rowsCheck_192 : rowsCheck 192 64 = true := by decide!

/-- The `float` arithmetic of the 1-byte `RGBA` branch, for every alpha byte
`a` and colour byte `c`: `(unsigned char)(c * (float)(a / 255.0))` is
`c * a / 255` rounded down. -/
theorem premultiply_table (a c : Nat) (ha : a < 256) (hc : c < 256) :
    (mulNat 24 c (toFloat32 (doubleDiv a 255))).trunc % 256 = c * a / 255 := by
  have hrow : rowCheck a = true := by
    by_cases h1 : a < 64
    · exact rowsCheck_sound 0 64 rowsCheck_0 a (Nat.zero_le a) (by omega)
    · by_cases h2 : a < 128
      · exact rowsCheck_sound 64 64 rowsCheck_64 a (by omega) (by omega)
      · by_cases h3 : a < 192
        · exact rowsCheck_sound 128 64 rowsCheck_128 a (by omega) (by omega)
        · exact rowsCheck_sound 192 64 rowsCheck_192 a (by omega) (by omega)
  exact rowCheck_sound a hrow c hc

/-! ## Lemmas: the premultiply loops on 1-byte `RGBA` -/

theorem premultiplyPixel_length (type format : Nat) (buf : List Nat) (pixel : Nat) :
    (premultiplyPixel type format buf pixel).length = buf.length := by
  unfold premultiplyPixel
  split_ifs <;> simp

theorem premultiplyCols_length (type format : Nat) (rowStride pixelSize : Int) (row : Nat)
    (buf : List Nat) (n : Nat) :
    (premultiplyCols type format rowStride pixelSize row buf n).length = buf.length := by
  induction n with
  | zero => rfl
  | succ n ih => simp [premultiplyCols, premultiplyPixel_length, ih]

theorem premultiplyRows_length (type format : Nat) (rowStride pixelSize width : Int)
    (buf : List Nat) (n : Nat) :
    (premultiplyRows type format rowStride pixelSize width buf n).length = buf.length := by
  induction n with
  | zero => rfl
  | succ n ih => simp [premultiplyRows, premultiplyCols_length, ih]

/-- The loop body on a 1-byte `RGBA` pixel at offset `p`, byte by byte: the
three colour bytes are multiplied by the `float` scale of the alpha byte at
`p + 3`, every other byte is untouched. -/
theorem premultiplyPixel_rgba_getD (buf : List Nat) (p k : Nat) (hp : p + 2 < buf.length) :
    (premultiplyPixel GL_UNSIGNED_BYTE GL_RGBA buf p).getD k 0 =
      if p ≤ k ∧ k < p + 3 then
        (mulNat 24 (buf.getD k 0) (toFloat32 (doubleDiv (buf.getD (p + 3) 0) 255))).trunc % 256
      else buf.getD k 0 := by
  have hf1 : ¬ (GL_RGBA = GL_LUMINANCE_ALPHA) := by decide
  simp only [premultiplyPixel, if_neg hf1, if_true, getD_set, List.length_set]
  have e1 : ¬ (p = p + 1 ∧ p < buf.length) := by omega
  have e2 : ¬ (p + 1 = p + 2 ∧ p + 1 < buf.length) := by omega
  have e3 : ¬ (p = p + 2 ∧ p < buf.length) := by omega
  simp only [if_neg e1, if_neg e2, if_neg e3]
  by_cases h2 : p + 2 = k
  · subst h2
    rw [if_pos ⟨rfl, hp⟩, if_pos ⟨by omega, by omega⟩]
  · rw [if_neg (fun hx => h2 hx.1)]
    by_cases h1 : p + 1 = k
    · subst h1
      rw [if_pos ⟨rfl, by omega⟩, if_pos ⟨by omega, by omega⟩]
    · rw [if_neg (fun hx => h1 hx.1)]
      by_cases h0 : p = k
      · subst h0
        rw [if_pos ⟨rfl, by omega⟩, if_pos ⟨by omega, by omega⟩]
      · rw [if_neg (fun hx => h0 hx.1), if_neg (by omega)]

/-- The inner loop of row `m` after `n ≤ w` pixels, byte by byte. -/
theorem premultiplyCols_rgba_getD (rs w h m : Nat) (buf : List Nat)
    (hnrs : 4 * w ≤ rs) (hsz : rs * h ≤ 2147483647) (hrs31 : rs ≤ 2147483647)
    (hlen : buf.length = rs * h) (hm : m < h)
    (n : Nat) (hn : n ≤ w) (r c : Nat) (hc : c < rs) :
    (premultiplyCols GL_UNSIGNED_BYTE GL_RGBA (rs : Int) ((4 : Nat) : Int) m buf n).getD
        (r * rs + c) 0 =
      if r = m ∧ c < 4 * n ∧ c % 4 < 3 then
        (mulNat 24 (buf.getD (r * rs + c) 0)
          (toFloat32 (doubleDiv (buf.getD (r * rs + (c - c % 4 + 3)) 0) 255))).trunc % 256
      else buf.getD (r * rs + c) 0 := by
  induction n generalizing r c with
  | zero =>
    rw [if_neg (by omega)]
    rfl
  | succ n ih =>
    have hin := pixel_byte_in_image rs 4 w h m n 2 hnrs hm (by omega) (by omega)
    simp only [premultiplyCols]
    rw [pixelOffset_eq rs 4 w h m n hnrs hsz hrs31 hm (by omega),
      premultiplyPixel_rgba_getD _ _ _ (by rw [premultiplyCols_length, hlen]; exact hin)]
    have halpha := ih (by omega) m (n * 4 + 3) (by omega)
    rw [if_neg (by omega)] at halpha
    have hcase := row_index_cases rs r m c (4 * n + 3) hc (by omega)
    by_cases hrm : r = m
    · subst hrm
      by_cases hcin : 4 * n ≤ c ∧ c < 4 * n + 3
      · rw [if_pos ⟨by omega, by omega⟩, if_pos ⟨rfl, by omega, by omega⟩,
          ih (by omega) r c hc, if_neg (by omega)]
        have e1 : r * rs + n * 4 + 3 = r * rs + (n * 4 + 3) := by omega
        have e2 : c - c % 4 + 3 = n * 4 + 3 := by omega
        rw [e1, halpha, e2]
      · rw [if_neg (by omega), ih (by omega) r c hc]
        have e : (r = r ∧ c < 4 * (n + 1) ∧ c % 4 < 3) ↔ (r = r ∧ c < 4 * n ∧ c % 4 < 3) := by
          omega
        exact (if_congr e rfl rfl).symm
    · have hout : ¬ (m * rs + n * 4 ≤ r * rs + c ∧ r * rs + c < m * rs + n * 4 + 3) := by
        intro hx
        exact hrm (hcase.mp ⟨by omega, by omega⟩).1
      rw [if_neg hout, ih (by omega) r c hc, if_neg (fun hx => hrm hx.1),
        if_neg (fun hx => hrm hx.1)]

/-- The premultiply loops after `m ≤ h` rows, byte by byte. -/
theorem premultiplyRows_rgba_getD (rs w h : Nat) (buf : List Nat)
    (hnrs : 4 * w ≤ rs) (hsz : rs * h ≤ 2147483647) (hrs31 : rs ≤ 2147483647)
    (hlen : buf.length = rs * h)
    (m : Nat) (hm : m ≤ h) (r c : Nat) (hc : c < rs) :
    (premultiplyRows GL_UNSIGNED_BYTE GL_RGBA (rs : Int) ((4 : Nat) : Int) (w : Int) buf m).getD
        (r * rs + c) 0 =
      if r < m ∧ c < 4 * w ∧ c % 4 < 3 then
        (mulNat 24 (buf.getD (r * rs + c) 0)
          (toFloat32 (doubleDiv (buf.getD (r * rs + (c - c % 4 + 3)) 0) 255))).trunc % 256
      else buf.getD (r * rs + c) 0 := by
  induction m generalizing r c with
  | zero =>
    rw [if_neg (by omega)]
    rfl
  | succ m ih =>
    simp only [premultiplyRows]
    rw [Int.toNat_natCast,
      premultiplyCols_rgba_getD rs w h m _ hnrs hsz hrs31
        (by rw [premultiplyRows_length, hlen]) (by omega) w (le_refl w) r c hc]
    by_cases hrm : r = m
    · subst hrm
      by_cases hcin : c < 4 * w ∧ c % 4 < 3
      · rw [if_pos ⟨rfl, hcin.1, hcin.2⟩, if_pos ⟨by omega, hcin.1, hcin.2⟩,
          ih (by omega) r c hc, if_neg (by omega),
          ih (by omega) r (c - c % 4 + 3) (by omega), if_neg (by omega)]
      · rw [if_neg (fun hx => hcin ⟨hx.2.1, hx.2.2⟩), if_neg (fun hx => hcin ⟨hx.2.1, hx.2.2⟩),
          ih (by omega) r c hc, if_neg (by omega)]
    · rw [if_neg (fun hx => hrm hx.1), ih (by omega) r c hc]
      have e : (r < m + 1 ∧ c < 4 * w ∧ c % 4 < 3) ↔ (r < m ∧ c < 4 * w ∧ c % 4 < 3) := by
        omega
      exact (if_congr e rfl rfl).symm

/-! ## Lemmas: the copy step on an image of exactly the image size -/

/-- Copying a whole buffer over one of the same length gives the source. -/
theorem memcpy_whole (dst src : List Nat) (n : Nat) (hd : dst.length = n) (hs : src.length = n) :
    memcpy dst 0 src 0 n = src := by
  apply ext_getD (by rw [memcpy_length, hd, hs])
  intro k hk
  rw [memcpy_length, hd] at hk
  rw [memcpy_getD, if_pos ⟨Nat.zero_le k, by omega, by omega⟩]
  simp

/-- The buffer built before the premultiply step has as many bytes as the
image size. -/
theorem unpackedRows_length (self : WebGLRenderingContext) (type format : Nat)
    (width height : Int) (pixels : List Nat) (fresh : Nat → Nat) :
    (unpackedRows self type format width height pixels fresh).length =
      (imageSize type format width height self.unpack_alignment).toNat := by
  unfold unpackedRows
  dsimp only
  split_ifs
  · rw [flipRows_length]
    simp
  · rw [memcpy_length]
    simp

/-- Without flip-Y, the copy step applied to a buffer that has exactly the
image size returns that buffer. -/
theorem unpackedRows_copy_whole (self : WebGLRenderingContext) (type format : Nat)
    (width height : Int) (pixels : List Nat) (fresh : Nat → Nat)
    (hflip : self.unpack_flip_y = false)
    (hlen : pixels.length = (imageSize type format width height self.unpack_alignment).toNat) :
    unpackedRows self type format width height pixels fresh = pixels := by
  unfold unpackedRows
  simp only [hflip]
  rw [if_neg (by simp)]
  exact memcpy_whole _ _ _ (by simp) hlen

/-! ## Lemmas: the zero-filled buffer of `TexImage2D` -/

theorem pixelSize_le_four (type format : Nat) (ht : type ≠ GL_FLOAT) :
    pixelSize type format ≤ 4 := by
  unfold pixelSize wrapInt32
  dsimp only
  split_ifs <;> omega

/-- Without overflow of `width * height * 4` the zero-filled buffer has
`width * height * 4` bytes, and 4 times as many for `GL_FLOAT`. -/
theorem zeroBufferLength_eq (w h type : Nat) (hsz : w * h * 4 ≤ 2147483647) :
    zeroBufferLength (w : Int) (h : Int) type =
      if type = GL_FLOAT then w * h * 16 else w * h * 4 := by
  have h0 : (0 : Int) ≤ ((w * h : Nat) : Int) := Int.natCast_nonneg _
  have h1 : ((w * h : Nat) : Int) * 4 ≤ 2147483647 := by
    have : ((w * h * 4 : Nat) : Int) ≤ 2147483647 := by exact_mod_cast hsz
    push_cast at this ⊢
    exact this
  have e1 : wrapInt32 ((w : Int) * (h : Int)) = ((w * h : Nat) : Int) := by
    rw [← Nat.cast_mul]
    exact wrapInt32_eq_self (by omega) (by omega)
  have e2 : wrapInt32 (((w * h : Nat) : Int) * 4) = ((w * h * 4 : Nat) : Int) := by
    rw [wrapInt32_eq_self (by omega) (by omega)]
    push_cast
    rfl
  have e3 : wrapSizeT ((w * h * 4 : Nat) : Int) = w * h * 4 := by
    unfold wrapSizeT
    rw [Int.emod_eq_of_lt (Int.natCast_nonneg _) (by omega), Int.toNat_natCast]
  have e4 : wrapSizeT (((w * h * 4 : Nat) : Int) * 4) = w * h * 16 := by
    unfold wrapSizeT
    have : ((w * h * 4 : Nat) : Int) * 4 = ((w * h * 16 : Nat) : Int) := by
      push_cast
      ring
    rw [this, Int.emod_eq_of_lt (Int.natCast_nonneg _) (by omega), Int.toNat_natCast]
  unfold zeroBufferLength
  dsimp only
  rw [e1, e2, e3, e4]

/-- For alignment 1, 2 or 4 the row stride is at most 4 bytes per pixel, and
at most 16 for `GL_FLOAT`. -/
theorem rowStride_le_of_small_alignment (type format w : Nat) (a : Int)
    (ha : a = 1 ∨ a = 2 ∨ a = 4) (hov : StrideFits type format (w : Int) a) :
    rowStride type format (w : Int) a ≤ (if type = GL_FLOAT then 16 else 4) * (w : Int) := by
  have hw : (0 : Int) ≤ (w : Int) := Int.natCast_nonneg w
  have hp := pixelSize_pos type format
  rw [rowStride_eq type format w a hw (by omega) hov]
  by_cases ht : type = GL_FLOAT
  · have hX : pixelSize type format * (w : Int) ≤ 16 * (w : Int) :=
      Int.mul_le_mul_of_nonneg_right (pixelSize_le type format) hw
    rw [if_pos ht]
    generalize pixelSize type format * (w : Int) = X at hX ⊢
    rcases ha with rfl | rfl | rfl <;> split_ifs <;> omega
  · have hX : pixelSize type format * (w : Int) ≤ 4 * (w : Int) :=
      Int.mul_le_mul_of_nonneg_right (pixelSize_le_four type format ht) hw
    rw [if_neg ht]
    generalize pixelSize type format * (w : Int) = X at hX ⊢
    rcases ha with rfl | rfl | rfl <;> split_ifs <;> omega

/-! ## Lemmas: `registerContext` on the list -/

/-- The links and the head after `registerContext`. -/
theorem registerContext_links (w : World) (c q : Nat) :
    ((registerContext w c).heap q).next =
      (if q = c then w.CONTEXT_LIST_HEAD else (w.heap q).next) ∧
    ((registerContext w c).heap q).prev =
      (if q = c then none
        else if w.CONTEXT_LIST_HEAD = some q then some c else (w.heap q).prev) ∧
    (registerContext w c).CONTEXT_LIST_HEAD = some c := by
  unfold registerContext
  cases hh : w.CONTEXT_LIST_HEAD with
  | none =>
    simp only [World.modify]
    by_cases hq : q = c
    · simp [hq, hh]
    · simp [hq, hh]
  | some head =>
    simp only [World.modify]
    by_cases hq : q = c
    · simp [hq, hh]
    · by_cases hq2 : q = head
      · have hhc : ¬ (head = c) := fun h => hq (hq2.trans h)
        simp [hq, hq2, hhc, hh]
      · have hne : ¬ (head = q) := fun h => hq2 h.symm
        simp [hq, hq2, hne, hh]

/-- `registerContext` of a context that is not in the list puts it in front. -/
theorem registerContext_inserts (w : World) (l : List Nat) (c : Nat)
    (hl : IsContextList w l) (hc : c ∉ l) :
    IsContextList (registerContext w c) (c :: l) := by
  obtain ⟨hnd, hlink⟩ := hl
  refine ⟨List.nodup_cons.mpr ⟨hc, hnd⟩, ?_⟩
  rw [(registerContext_links w c c).2.2]
  refine ⟨rfl, ?_, ?_⟩
  · rw [(registerContext_links w c c).2.1, if_pos rfl]
  · rw [(registerContext_links w c c).1, if_pos rfl]
    cases l with
    | nil => exact hlink
    | cons a rest =>
      obtain ⟨h1, h2, h3⟩ := hlink
      have hac : a ≠ c := fun h => hc (by rw [h]; exact List.mem_cons_self _ _)
      have hnd' := List.nodup_cons.mp hnd
      refine ⟨h1, ?_, ?_⟩
      · rw [(registerContext_links w c a).2.1, if_neg hac, if_pos h1]
      · rw [(registerContext_links w c a).1, if_neg hac]
        apply linked_congr w.heap _ rest _ _ _ h3
        intro q hq
        have hqc : q ≠ c := fun h => hc (by rw [← h]; exact List.mem_cons_of_mem _ hq)
        have hqa : ¬ (w.CONTEXT_LIST_HEAD = some q) := by
          rw [h1]
          intro h
          have : a = q := Option.some.inj h
          exact hnd'.1 (by rw [this]; exact hq)
        exact ⟨by rw [(registerContext_links w c q).1, if_neg hqc],
          by rw [(registerContext_links w c q).2.1, if_neg hqc, if_neg hqa]⟩

/-! ## Lemmas: the premultiply loops on packed 5-5-5-1 -/

/-- Before the premultiply step, byte `k < ps * w` of row `row` is byte `k` of
the source row the flip setting selects. -/
theorem unpackedRows_image_bytes (self : WebGLRenderingContext) (type format : Nat)
    (w h rs ps : Nat) (pixels : List Nat) (fresh : Nat → Nat)
    (ha : 1 ≤ self.unpack_alignment)
    (hps : pixelSize type format = (ps : Int))
    (hov : StrideFits type format (w : Int) self.unpack_alignment)
    (hrs : rowStride type format (w : Int) self.unpack_alignment = (rs : Int))
    (hsz : rs * h ≤ 2147483647) (row : Nat) (hrow : row < h) :
    ps * w ≤ rs ∧ rs ≤ 2147483647 ∧
    (unpackedRows self type format w h pixels fresh).length = rs * h ∧
    ∀ k, k < ps * w →
      (unpackedRows self type format w h pixels fresh).getD (row * rs + k) 0 =
        pixels.getD ((if self.unpack_flip_y = true then h - 1 - row else row) * rs + k) 0 := by
  have hC1 := rowStride_bounds type format w self.unpack_alignment (Int.natCast_nonneg w) ha hov
  have hnle : ((ps * w : Nat) : Int) ≤ (rs : Int) := by
    rw [← hrs]
    push_cast
    rw [← hps]
    exact hC1.1
  have hnrs : ps * w ≤ rs := by exact_mod_cast hnle
  have hrs31 : rs ≤ 2147483647 := by
    have h3 := hC1.2.2
    rw [hrs] at h3
    omega
  refine ⟨hnrs, hrs31, ?_⟩
  cases hflip : self.unpack_flip_y
  · obtain ⟨hulen, hu⟩ := unpackedRows_copy self type format w h rs pixels fresh hflip hrs hsz
    refine ⟨hulen, fun k hk => ?_⟩
    have hin : row * rs + k < rs * h := by
      have h4 := Nat.mul_le_mul_right rs (Nat.succ_le_of_lt hrow)
      rw [Nat.succ_mul, Nat.mul_comm h rs] at h4
      omega
    rw [hu, if_pos hin, if_neg (by simp)]
  · obtain ⟨hulen, hu⟩ :=
      unpackedRows_flip self type format w h rs ps pixels fresh hflip ha hps hov hrs hsz
    refine ⟨hulen, fun k hk => ?_⟩
    rw [hu row k hrow (by omega), if_pos hk, if_pos rfl]

/-- The loop body on a packed 5-5-5-1 pixel at offset `p`, byte by byte. -/
theorem premultiplyPixel_5551_getD (buf : List Nat) (p k : Nat) (hp : p + 1 < buf.length) :
    (premultiplyPixel GL_UNSIGNED_SHORT_5_5_5_1 GL_RGBA buf p).getD k 0 =
      if buf.getD p 0 % 2 = 0 ∧ p ≤ k ∧ k < p + 2 then (if k = p then 1 else 0)
      else buf.getD k 0 := by
  have hf1 : ¬ (GL_RGBA = GL_LUMINANCE_ALPHA) := by decide
  have ht1 : ¬ (GL_UNSIGNED_SHORT_5_5_5_1 = GL_UNSIGNED_BYTE) := by decide
  have ht2 : ¬ (GL_UNSIGNED_SHORT_5_5_5_1 = GL_UNSIGNED_SHORT_4_4_4_4) := by decide
  simp only [premultiplyPixel, if_neg hf1, if_neg ht1, if_neg ht2, if_true, Nat.and_one_is_mod]
  by_cases hbit : buf.getD p 0 % 2 = 0
  · rw [if_pos hbit]
    simp only [getD_set, List.length_set]
    by_cases h1 : p + 1 = k
    · subst h1
      rw [if_pos ⟨rfl, hp⟩, if_pos ⟨hbit, by omega, by omega⟩, if_neg (by omega)]
    · rw [if_neg (fun hx => h1 hx.1)]
      by_cases h0 : p = k
      · subst h0
        rw [if_pos ⟨rfl, by omega⟩, if_pos ⟨hbit, by omega, by omega⟩, if_pos rfl]
      · rw [if_neg (fun hx => h0 hx.1), if_neg (by omega)]
  · rw [if_neg hbit, if_neg (fun hx => hbit hx.1)]

/-- The inner loop of row `m` after `n ≤ w` pixels, byte by byte. -/
theorem premultiplyCols_5551_getD (rs w h m : Nat) (buf : List Nat)
    (hnrs : 2 * w ≤ rs) (hsz : rs * h ≤ 2147483647) (hrs31 : rs ≤ 2147483647)
    (hlen : buf.length = rs * h) (hm : m < h)
    (n : Nat) (hn : n ≤ w) (r c : Nat) (hc : c < rs) :
    (premultiplyCols GL_UNSIGNED_SHORT_5_5_5_1 GL_RGBA (rs : Int) ((2 : Nat) : Int) m buf n).getD
        (r * rs + c) 0 =
      if r = m ∧ c < 2 * n ∧ buf.getD (r * rs + (c - c % 2)) 0 % 2 = 0 then
        (if c % 2 = 0 then 1 else 0)
      else buf.getD (r * rs + c) 0 := by
  induction n generalizing r c with
  | zero =>
    rw [if_neg (by omega)]
    rfl
  | succ n ih =>
    have hin := pixel_byte_in_image rs 2 w h m n 1 hnrs hm (by omega) (by omega)
    simp only [premultiplyCols]
    rw [pixelOffset_eq rs 2 w h m n hnrs hsz hrs31 hm (by omega),
      premultiplyPixel_5551_getD _ _ _ (by rw [premultiplyCols_length, hlen]; exact hin)]
    have hfirst := ih (by omega) m (n * 2) (by omega)
    rw [if_neg (by omega)] at hfirst
    rw [hfirst]
    have hcase := row_index_cases rs r m c (2 * n + 2) hc (by omega)
    by_cases hrm : r = m
    · subst hrm
      by_cases hcin : 2 * n ≤ c ∧ c < 2 * n + 2
      · have e2 : c - c % 2 = n * 2 := by omega
        rw [e2]
        by_cases hbit : buf.getD (r * rs + n * 2) 0 % 2 = 0
        · have eL : buf.getD (r * rs + n * 2) 0 % 2 = 0 ∧ r * rs + n * 2 ≤ r * rs + c ∧
              r * rs + c < r * rs + n * 2 + 2 := ⟨hbit, by omega, by omega⟩
          have eR : r = r ∧ c < 2 * (n + 1) ∧ buf.getD (r * rs + n * 2) 0 % 2 = 0 :=
            ⟨rfl, by omega, hbit⟩
          rw [if_pos eL, if_pos eR]
          by_cases hk : r * rs + c = r * rs + n * 2
          · have hc2 : c % 2 = 0 := by omega
            rw [if_pos hk, if_pos hc2]
          · have hc2 : ¬ (c % 2 = 0) := by omega
            rw [if_neg hk, if_neg hc2]
        · rw [if_neg (fun hx => hbit hx.1), if_neg (fun hx => hbit hx.2.2),
            ih (by omega) r c hc, if_neg (by omega)]
      · rw [if_neg (by omega), ih (by omega) r c hc]
        have e : (r = r ∧ c < 2 * (n + 1) ∧ buf.getD (r * rs + (c - c % 2)) 0 % 2 = 0) ↔
            (r = r ∧ c < 2 * n ∧ buf.getD (r * rs + (c - c % 2)) 0 % 2 = 0) := by
          constructor
          · rintro ⟨h1, h2, h3⟩
            exact ⟨h1, by omega, h3⟩
          · rintro ⟨h1, h2, h3⟩
            exact ⟨h1, by omega, h3⟩
        exact (if_congr e rfl rfl).symm
    · have hout : ¬ (buf.getD (m * rs + n * 2) 0 % 2 = 0 ∧ m * rs + n * 2 ≤ r * rs + c ∧
          r * rs + c < m * rs + n * 2 + 2) := by
        intro hx
        exact hrm (hcase.mp ⟨by omega, by omega⟩).1
      rw [if_neg hout, ih (by omega) r c hc, if_neg (fun hx => hrm hx.1),
        if_neg (fun hx => hrm hx.1)]

/-- The premultiply loops after `m ≤ h` rows, byte by byte. -/
theorem premultiplyRows_5551_getD (rs w h : Nat) (buf : List Nat)
    (hnrs : 2 * w ≤ rs) (hsz : rs * h ≤ 2147483647) (hrs31 : rs ≤ 2147483647)
    (hlen : buf.length = rs * h)
    (m : Nat) (hm : m ≤ h) (r c : Nat) (hc : c < rs) :
    (premultiplyRows GL_UNSIGNED_SHORT_5_5_5_1 GL_RGBA (rs : Int) ((2 : Nat) : Int) (w : Int)
        buf m).getD (r * rs + c) 0 =
      if r < m ∧ c < 2 * w ∧ buf.getD (r * rs + (c - c % 2)) 0 % 2 = 0 then
        (if c % 2 = 0 then 1 else 0)
      else buf.getD (r * rs + c) 0 := by
  induction m generalizing r c with
  | zero =>
    rw [if_neg (by omega)]
    rfl
  | succ m ih =>
    simp only [premultiplyRows]
    rw [Int.toNat_natCast,
      premultiplyCols_5551_getD rs w h m _ hnrs hsz hrs31
        (by rw [premultiplyRows_length, hlen]) (by omega) w (le_refl w) r c hc]
    by_cases hrm : r = m
    · subst hrm
      have hA := ih (by omega) r (c - c % 2) (by omega)
      rw [if_neg (fun hx => absurd hx.1 (lt_irrefl _))] at hA
      have hB := ih (by omega) r c hc
      rw [if_neg (fun hx => absurd hx.1 (lt_irrefl _))] at hB
      rw [hA, hB]
      have e : (r = r ∧ c < 2 * w ∧ buf.getD (r * rs + (c - c % 2)) 0 % 2 = 0) ↔
          (r < r + 1 ∧ c < 2 * w ∧ buf.getD (r * rs + (c - c % 2)) 0 % 2 = 0) := by
        constructor
        · rintro ⟨-, h2, h3⟩
          exact ⟨by omega, h2, h3⟩
        · rintro ⟨-, h2, h3⟩
          exact ⟨rfl, h2, h3⟩
      exact if_congr e rfl rfl
    · rw [if_neg (fun hx => hrm hx.1), ih (by omega) r c hc]
      have e : (r < m + 1 ∧ c < 2 * w ∧ buf.getD (r * rs + (c - c % 2)) 0 % 2 = 0) ↔
          (r < m ∧ c < 2 * w ∧ buf.getD (r * rs + (c - c % 2)) 0 % 2 = 0) := by
        constructor
        · rintro ⟨h1, h2, h3⟩
          exact ⟨by omega, h2, h3⟩
        · rintro ⟨h1, h2, h3⟩
          exact ⟨by omega, h2, h3⟩
      exact (if_congr e rfl rfl).symm

/-! ## Lemmas: the display is set up once -/

theorem SameDisplaySetup.same (w : World) : SameDisplaySetup w w := ⟨rfl, rfl, rfl⟩

theorem SameDisplaySetup.andThen {w₁ w₂ w₃ : World} (h₁ : SameDisplaySetup w₁ w₂)
    (h₂ : SameDisplaySetup w₂ w₃) : SameDisplaySetup w₁ w₃ :=
  ⟨h₂.1.trans h₁.1, h₂.2.1.trans h₁.2.1, h₂.2.2.trans h₁.2.2⟩

theorem SameDisplaySetup.of_eq {w w' : World} (hd : w'.HAS_DISPLAY = w.HAS_DISPLAY)
    (hc : w'.calls = w.calls) : SameDisplaySetup w w' :=
  ⟨hd, by rw [hc], by rw [hc]⟩

/-- Appending calls none of which is `eglGetDisplay` or `eglInitialize`. -/
theorem SameDisplaySetup.of_append {w w' : World} (extra : List NativeCall)
    (hd : w'.HAS_DISPLAY = w.HAS_DISPLAY) (hc : w'.calls = w.calls ++ extra)
    (h1 : NativeCall.eglGetDisplay ∉ extra) (h2 : NativeCall.eglInitialize ∉ extra) :
    SameDisplaySetup w w' := by
  refine ⟨hd, ?_, ?_⟩
  · rw [hc, List.count_append, List.count_eq_zero.mpr h1, Nat.add_zero]
  · rw [hc, List.count_append, List.count_eq_zero.mpr h2, Nat.add_zero]

theorem deleteCall_ne_display (type : GLObjectType) (obj : Nat) :
    deleteCall type obj ≠ NativeCall.eglGetDisplay ∧
    deleteCall type obj ≠ NativeCall.eglInitialize := by
  cases type <;> exact ⟨fun h => NativeCall.noConfusion h, fun h => NativeCall.noConfusion h⟩

/-- `dispose` neither touches the display flag nor calls `eglGetDisplay` or
`eglInitialize`. -/
theorem dispose_sameDisplaySetup (egl : List NativeCall → Bool) (w : World) (this : Nat) :
    SameDisplaySetup w (dispose egl w this) := by
  have hd := (dispose_fields egl w this 0).2.2.2.2
  have hu := unregisterContext_sameButLinks w this
  cases hres : (setActive egl (unregisterContext w this) this).1
  · obtain ⟨hcalls, -, -⟩ := setActive_failed egl (unregisterContext w this) this hres
    have hdc : (dispose egl w this).calls =
        (setActive egl (unregisterContext w this) this).2.calls := by
      rw [dispose_of_failed egl w this hres]
      rfl
    rcases hcalls with hc | hc
    · exact SameDisplaySetup.of_eq hd (by rw [hdc, hc, hu.1])
    · refine SameDisplaySetup.of_append [makeCurrentCall ((unregisterContext w this).heap this)]
        hd (by rw [hdc, hc, hu.1]) ?_ ?_
      · simp [makeCurrentCall]
      · simp [makeCurrentCall]
  · obtain ⟨pre, hpre, hc⟩ := dispose_calls_of_active egl w this hres
    refine SameDisplaySetup.of_append
      (pre ++ (w.heap this).objects.map (fun k => deleteCall k.2 k.1) ++
        [NativeCall.eglMakeCurrent none none none,
          NativeCall.eglDestroyContext (w.heap this).context])
      hd (by rw [hc]; simp) ?_ ?_
    · intro hmem
      simp only [List.mem_append, List.mem_map, List.mem_cons, List.mem_singleton,
        List.not_mem_nil, or_false] at hmem
      rcases hmem with (hm | ⟨k, -, hk⟩) | hm | hm
      · rcases hpre with rfl | rfl
        · simp at hm
        · simp [makeCurrentCall] at hm
      · exact (deleteCall_ne_display k.2 k.1).1 hk
      · exact NativeCall.noConfusion hm
      · exact NativeCall.noConfusion hm
    · intro hmem
      simp only [List.mem_append, List.mem_map, List.mem_cons, List.mem_singleton,
        List.not_mem_nil, or_false] at hmem
      rcases hmem with (hm | ⟨k, -, hk⟩) | hm | hm
      · rcases hpre with rfl | rfl
        · simp at hm
        · simp [makeCurrentCall] at hm
      · exact (deleteCall_ne_display k.2 k.1).2 hk
      · exact NativeCall.noConfusion hm
      · exact NativeCall.noConfusion hm

theorem modify_sameDisplaySetup (w : World) (p : Nat)
    (f : WebGLRenderingContext → WebGLRenderingContext) :
    SameDisplaySetup w (w.modify p f) := ⟨rfl, rfl, rfl⟩

theorem constructFail_sameDisplaySetup (w : World) (this : Nat) :
    SameDisplaySetup w (constructFail w this) := ⟨rfl, rfl, rfl⟩

theorem issue_sameDisplaySetup (w : World) (call : NativeCall)
    (h1 : call ≠ NativeCall.eglGetDisplay) (h2 : call ≠ NativeCall.eglInitialize) :
    SameDisplaySetup w (issue w call) :=
  SameDisplaySetup.of_append [call] rfl rfl
    (by simpa using fun h => h1 h.symm) (by simpa using fun h => h2 h.symm)

theorem constructExtensions_sameDisplaySetup (drv : Driver) (w : World) (this : Nat) :
    SameDisplaySetup w (constructExtensions drv w this) := by
  have h0 := issue_sameDisplaySetup w (NativeCall.glGetString GL_EXTENSIONS)
    (fun h => NativeCall.noConfusion h) (fun h => NativeCall.noConfusion h)
  unfold constructExtensions
  dsimp only
  split_ifs
  · exact h0.andThen ((dispose_sameDisplaySetup _ _ this).andThen
      (constructFail_sameDisplaySetup _ this))
  · exact h0.andThen (modify_sameDisplaySetup _ this _)

theorem constructMakeCurrent_sameDisplaySetup (drv : Driver) (w : World) (this : Nat) :
    SameDisplaySetup w (constructMakeCurrent drv w this) := by
  have h0 := issue_sameDisplaySetup w (makeCurrentCall (w.heap this))
    (by simp [makeCurrentCall]) (by simp [makeCurrentCall])
  unfold constructMakeCurrent
  dsimp only
  split_ifs
  · exact h0.andThen (constructFail_sameDisplaySetup _ this)
  · refine h0.andThen
      (SameDisplaySetup.andThen ?_ (constructExtensions_sameDisplaySetup drv _ this))
    have hreg := registerContext_sameButLinks
      ((issue w (makeCurrentCall (w.heap this))).modify this
        (fun c => { c with state := GLCONTEXT_STATE_OK })) this
    exact SameDisplaySetup.of_eq hreg.2.2.1 hreg.1

theorem constructSurface_sameDisplaySetup (drv : Driver) (w : World) (this : Nat)
    (width height : Int) :
    SameDisplaySetup w (constructSurface drv w this width height) := by
  have h0 := issue_sameDisplaySetup w
    (NativeCall.eglCreatePbufferSurface (w.heap this).config (wrapInt32 width)
      (wrapInt32 height))
    (fun h => NativeCall.noConfusion h) (fun h => NativeCall.noConfusion h)
  unfold constructSurface
  dsimp only
  split_ifs
  · exact h0.andThen ((modify_sameDisplaySetup _ this _).andThen
      (constructFail_sameDisplaySetup _ this))
  · exact h0.andThen ((modify_sameDisplaySetup _ this _).andThen
      (constructMakeCurrent_sameDisplaySetup drv _ this))

theorem constructContext_sameDisplaySetup (drv : Driver) (w : World) (this : Nat)
    (width height : Int) :
    SameDisplaySetup w (constructContext drv w this width height) := by
  have h0 := issue_sameDisplaySetup w (NativeCall.eglCreateContext (w.heap this).config)
    (fun h => NativeCall.noConfusion h) (fun h => NativeCall.noConfusion h)
  unfold constructContext
  dsimp only
  split_ifs
  · exact h0.andThen ((modify_sameDisplaySetup _ this _).andThen
      (constructFail_sameDisplaySetup _ this))
  · exact h0.andThen ((modify_sameDisplaySetup _ this _).andThen
      (constructSurface_sameDisplaySetup drv _ this width height))

theorem constructConfig_sameDisplaySetup (drv : Driver) (w : World) (this : Nat)
    (width height : Int) :
    SameDisplaySetup w (constructConfig drv w this width height) := by
  have h0 := issue_sameDisplaySetup w NativeCall.eglChooseConfig
    (fun h => NativeCall.noConfusion h) (fun h => NativeCall.noConfusion h)
  unfold constructConfig
  dsimp only
  split_ifs
  · exact h0.andThen ((modify_sameDisplaySetup _ this _).andThen
      (constructFail_sameDisplaySetup _ this))
  · exact h0.andThen ((modify_sameDisplaySetup _ this _).andThen
      (constructContext_sameDisplaySetup drv _ this width height))

/-- A construction that finds the display flag set leaves it set and calls
neither `eglGetDisplay` nor `eglInitialize`. -/
theorem construct_sameDisplaySetup (drv : Driver) (w : World) (this : Nat)
    (width height : Int) (hd : w.HAS_DISPLAY = true) :
    SameDisplaySetup w (construct drv w this width height) := by
  unfold construct
  dsimp only
  have hd' : (constructInit w this).HAS_DISPLAY = true := hd
  rw [if_neg (by rw [hd']; exact Bool.noConfusion)]
  exact (SameDisplaySetup.of_eq rfl rfl : SameDisplaySetup w (constructInit w this)).andThen
    (constructConfig_sameDisplaySetup drv _ this width height)

theorem constructAll_sameDisplaySetup (drv : Driver) (reqs : List (Nat × Int × Int)) :
    ∀ w : World, w.HAS_DISPLAY = true → SameDisplaySetup w (constructAll drv w reqs) := by
  induction reqs with
  | nil => intro w _; exact SameDisplaySetup.same w
  | cons r rest ih =>
    intro w hd
    have h1 := construct_sameDisplaySetup drv w r.1 r.2.1 r.2.2 hd
    have h2 := ih (construct drv w r.1 r.2.1 r.2.2) (by rw [h1.1]; exact hd)
    exact h1.andThen h2

/-- A construction that finds the display flag clear sets it exactly when it
has obtained and initialised the display, and then it has called each of
`eglGetDisplay` and `eglInitialize` once. -/
theorem construct_sets_display (drv : Driver) (w : World) (this : Nat)
    (width height : Int) (hd : w.HAS_DISPLAY = false) :
    ((construct drv w this width height).HAS_DISPLAY = true ↔
      (drv.eglGetDisplay (w.calls ++ [NativeCall.eglGetDisplay]) ≠ none ∧
        drv.eglInitialize (w.calls ++ [NativeCall.eglGetDisplay, NativeCall.eglInitialize])
          = true)) ∧
    (construct drv w this width height).calls.count NativeCall.eglGetDisplay =
      w.calls.count NativeCall.eglGetDisplay + 1 ∧
    (construct drv w this width height).calls.count NativeCall.eglInitialize ≤
      w.calls.count NativeCall.eglInitialize + 1 := by
  unfold construct
  simp only [issue, (constructInit_calls w this).1, (constructInit_calls w this).2, hd, if_true]
  cases hg : drv.eglGetDisplay (w.calls ++ [NativeCall.eglGetDisplay]) with
  | none =>
    simp only [if_true]
    refine ⟨⟨fun h => ?_, fun h => absurd rfl h.1⟩, ?_, ?_⟩
    · exact Bool.noConfusion (h : false = true)
    · show (w.calls ++ [NativeCall.eglGetDisplay]).count NativeCall.eglGetDisplay = _
      simp
    · show (w.calls ++ [NativeCall.eglGetDisplay]).count NativeCall.eglInitialize ≤ _
      simp
  | some display =>
    have hne : (some display : Option Nat) ≠ none := by simp
    simp only [if_neg hne]
    have happ : w.calls ++ [NativeCall.eglGetDisplay] ++ [NativeCall.eglInitialize] =
        w.calls ++ [NativeCall.eglGetDisplay, NativeCall.eglInitialize] := by simp
    rw [happ]
    cases hi : drv.eglInitialize
        (w.calls ++ [NativeCall.eglGetDisplay, NativeCall.eglInitialize])
    · simp only [if_true]
      refine ⟨⟨fun h => ?_, fun h => Bool.noConfusion h.2⟩, ?_, ?_⟩
      · exact Bool.noConfusion (h : false = true)
      · show (w.calls ++ [NativeCall.eglGetDisplay, NativeCall.eglInitialize]).count
          NativeCall.eglGetDisplay = _
        simp
      · show (w.calls ++ [NativeCall.eglGetDisplay, NativeCall.eglInitialize]).count
          NativeCall.eglInitialize ≤ _
        simp
    · simp only [Bool.true_eq_false, if_false]
      have hs := constructConfig_sameDisplaySetup drv
        ({ heap := (constructInit w this).heap, ACTIVE := (constructInit w this).ACTIVE,
           CONTEXT_LIST_HEAD := (constructInit w this).CONTEXT_LIST_HEAD,
           HAS_DISPLAY := true,
           calls := w.calls ++ [NativeCall.eglGetDisplay, NativeCall.eglInitialize] } : World)
        this width height
      refine ⟨⟨fun _ => ⟨hne, trivial⟩, fun _ => hs.1⟩, ?_, ?_⟩
      · rw [hs.2.1]
        simp
      · rw [hs.2.2]
        simp

/-! ## Lemmas: the accesses of `unpackPixels` are in range -/

theorem mem_memcpyOffsets (off : Int) (n : Nat) (o : Int) :
    o ∈ memcpyOffsets off n ↔ ∃ k, k < n ∧ o = off + (k : Int) := by
  rw [memcpyOffsets, List.mem_map]
  constructor
  · rintro ⟨k, hk, rfl⟩
    exact ⟨k, List.mem_range.mp hk, rfl⟩
  · rintro ⟨k, hk, rfl⟩
    exact ⟨k, List.mem_range.mpr hk, rfl⟩

theorem wrap_nat_mul (a b : Nat) (h : a * b ≤ 2147483647) :
    wrapInt32 ((a : Int) * (b : Int)) = ((a * b : Nat) : Int) := by
  have h2 : ((a * b : Nat) : Int) ≤ 2147483647 := by exact_mod_cast h
  have h3 : (0 : Int) ≤ ((a * b : Nat) : Int) := Int.natCast_nonneg _
  rw [← Nat.cast_mul]
  exact wrapInt32_eq_self (by omega) h2

/-- An offset `k < n ≤ rs` into row `i < h` lies in the image. -/
theorem row_offset_in_image (rs h i k n : Nat) (hi : i < h) (hk : k < n) (hn : n ≤ rs) :
    i * rs ≤ rs * h ∧ i * rs + k < rs * h := by
  have h1 := Nat.mul_le_mul_right rs (Nat.succ_le_of_lt hi)
  rw [Nat.succ_mul, Nat.mul_comm h rs] at h1
  constructor <;> omega

theorem flipReads_bound (rs n h : Nat) (pixelSize width : Int)
    (hn : wrapInt32 (width * pixelSize) = (n : Int)) (hnrs : n ≤ rs)
    (hsz : rs * h ≤ 2147483647) (m : Nat) (hm : m ≤ h) (o : Int)
    (ho : o ∈ flipReads (rs : Int) pixelSize width m) :
    0 ≤ o ∧ o < ((rs * h : Nat) : Int) := by
  induction m with
  | zero => simp [flipReads] at ho
  | succ m ih =>
    simp only [flipReads, List.mem_append] at ho
    rcases ho with ho | ho
    · exact ih (by omega) ho
    · rw [hn, Int.toNat_natCast, mem_memcpyOffsets] at ho
      obtain ⟨k, hk, hok⟩ := ho
      rw [hok]
      obtain ⟨b1, b2⟩ := row_offset_in_image rs h m k n (by omega) hk hnrs
      rw [wrap_nat_mul m rs (by omega)]
      constructor
      · exact_mod_cast Nat.zero_le (m * rs + k)
      · exact_mod_cast b2

theorem flipWrites_bound (rs n h : Nat) (pixelSize width : Int)
    (hn : wrapInt32 (width * pixelSize) = (n : Int)) (hnrs : n ≤ rs)
    (hsz : rs * h ≤ 2147483647) (m : Nat) (hm : m ≤ h) (o : Int)
    (ho : o ∈ flipWrites (rs : Int) pixelSize width (h : Int) m) :
    0 ≤ o ∧ o < ((rs * h : Nat) : Int) := by
  induction m with
  | zero => simp [flipWrites] at ho
  | succ m ih =>
    simp only [flipWrites, List.mem_append] at ho
    rcases ho with ho | ho
    · exact ih (by omega) ho
    · rw [hn, Int.toNat_natCast, mem_memcpyOffsets] at ho
      obtain ⟨k, hk, hok⟩ := ho
      rw [hok]
      have hj : ((h : Int) - 1 - (m : Int)) = ((h - 1 - m : Nat) : Int) := by omega
      obtain ⟨b1, b2⟩ := row_offset_in_image rs h (h - 1 - m) k n (by omega) hk hnrs
      rw [hj, wrap_nat_mul (h - 1 - m) rs (by omega)]
      constructor
      · exact_mod_cast Nat.zero_le ((h - 1 - m) * rs + k)
      · exact_mod_cast b2

/-- The loop body stays inside its pixel, for the two formats the premultiply
step runs on. -/
theorem premultiplyPixelAccesses_bound (type format : Nat) (buf : List Nat) (p o : Int)
    (hf : format = GL_LUMINANCE_ALPHA ∨ format = GL_RGBA)
    (ho : o ∈ premultiplyPixelAccesses type format buf p) :
    p ≤ o ∧ o < p + pixelSize type format := by
  unfold premultiplyPixelAccesses at ho
  by_cases h1 : format = GL_LUMINANCE_ALPHA
  · rw [if_pos h1] at ho
    have hps : 2 ≤ pixelSize type format := by
      subst h1
      unfold pixelSize wrapInt32
      simp only [GL_LUMINANCE_ALPHA, GL_ALPHA, GL_LUMINANCE]
      split_ifs <;> omega
    simp only [List.mem_cons, List.mem_singleton, List.not_mem_nil, or_false] at ho
    rcases ho with rfl | rfl <;> constructor <;> omega
  · rw [if_neg h1] at ho
    have hrgba : format = GL_RGBA := hf.resolve_left h1
    subst hrgba
    by_cases h2 : type = GL_UNSIGNED_BYTE
    · rw [if_pos h2] at ho
      subst h2
      have hps : pixelSize GL_UNSIGNED_BYTE GL_RGBA = 4 := by decide
      rw [hps]
      simp only [List.mem_cons, List.mem_singleton, List.not_mem_nil, or_false] at ho
      rcases ho with rfl | rfl | rfl | rfl <;> constructor <;> omega
    · rw [if_neg h2] at ho
      by_cases h3 : type = GL_UNSIGNED_SHORT_4_4_4_4
      · rw [if_pos h3] at ho
        subst h3
        have hps : pixelSize GL_UNSIGNED_SHORT_4_4_4_4 GL_RGBA = 2 := by decide
        rw [hps]
        simp only [List.mem_cons, List.mem_singleton, List.not_mem_nil, or_false] at ho
        rcases ho with rfl | rfl <;> constructor <;> omega
      · rw [if_neg h3] at ho
        by_cases h4 : type = GL_UNSIGNED_SHORT_5_5_5_1
        · rw [if_pos h4] at ho
          subst h4
          have hps : pixelSize GL_UNSIGNED_SHORT_5_5_5_1 GL_RGBA = 2 := by decide
          rw [hps]
          split_ifs at ho
          · simp only [List.mem_cons, List.mem_singleton, List.not_mem_nil, or_false] at ho
            rcases ho with rfl | rfl <;> constructor <;> omega
          · simp only [List.mem_singleton] at ho
            subst ho
            constructor <;> omega
        · rw [if_neg h4] at ho
          simp at ho

theorem premultiplyColsAccesses_bound (type format : Nat) (rs ps w h row : Nat)
    (buf : List Nat) (hf : format = GL_LUMINANCE_ALPHA ∨ format = GL_RGBA)
    (hps : pixelSize type format = (ps : Int))
    (hnrs : ps * w ≤ rs) (hsz : rs * h ≤ 2147483647) (hrow : row < h)
    (n : Nat) (hn : n ≤ w) (o : Int)
    (ho : o ∈ premultiplyColsAccesses type format (rs : Int) (ps : Int) row buf n) :
    0 ≤ o ∧ o < ((rs * h : Nat) : Int) := by
  induction n with
  | zero => simp [premultiplyColsAccesses] at ho
  | succ n ih =>
    simp only [premultiplyColsAccesses, List.mem_append] at ho
    rcases ho with ho | ho
    · exact ih (by omega) ho
    · obtain ⟨b1, b2⟩ := premultiplyPixelAccesses_bound type format _ _ o hf ho
      have hrow' := Nat.mul_le_mul_right rs (Nat.succ_le_of_lt hrow)
      have hcol' := Nat.mul_le_mul_right ps (Nat.succ_le_of_lt (Nat.lt_of_succ_le hn))
      rw [Nat.succ_mul] at hrow' hcol'
      rw [Nat.mul_comm h rs] at hrow'
      rw [Nat.mul_comm w ps] at hcol'
      have g1 : row * rs ≤ 2147483647 := by omega
      have g2 : n * ps ≤ 2147483647 :=
        le_trans (le_trans (Nat.le_add_right _ _) hcol')
          (le_trans hnrs (le_trans (Nat.le_add_left _ _) (le_trans hrow' hsz)))
      have g3 : row * rs + n * ps + ps ≤ rs * h := by omega
      rw [wrap_nat_mul row rs g1, wrap_nat_mul n ps g2] at b1 b2
      rw [hps] at b2
      have c1 : (0 : Int) ≤ ((row * rs : Nat) : Int) := Int.natCast_nonneg _
      have c2 : (0 : Int) ≤ ((n * ps : Nat) : Int) := Int.natCast_nonneg _
      have c3 : ((row * rs : Nat) : Int) + ((n * ps : Nat) : Int) + (ps : Int) ≤
          ((rs * h : Nat) : Int) := by exact_mod_cast g3
      generalize ((row * rs : Nat) : Int) = A at b1 b2 c1 c3
      generalize ((n * ps : Nat) : Int) = B at b1 b2 c2 c3
      generalize ((rs * h : Nat) : Int) = C at c3 ⊢
      constructor <;> omega

theorem premultiplyRowsAccesses_bound (type format : Nat) (rs ps w h : Nat)
    (buf : List Nat) (hf : format = GL_LUMINANCE_ALPHA ∨ format = GL_RGBA)
    (hps : pixelSize type format = (ps : Int))
    (hnrs : ps * w ≤ rs) (hsz : rs * h ≤ 2147483647)
    (m : Nat) (hm : m ≤ h) (o : Int)
    (ho : o ∈ premultiplyRowsAccesses type format (rs : Int) (ps : Int) (w : Int) buf m) :
    0 ≤ o ∧ o < ((rs * h : Nat) : Int) := by
  induction m with
  | zero => simp [premultiplyRowsAccesses] at ho
  | succ m ih =>
    simp only [premultiplyRowsAccesses, List.mem_append, Int.toNat_natCast] at ho
    rcases ho with ho | ho
    · exact ih (by omega) ho
    · exact premultiplyColsAccesses_bound type format rs ps w h m _ hf hps hnrs hsz (by omega)
        w (le_refl w) o ho

/-! ## Lemmas: `ACTIVE` is the current context -/

theorem lastCurrentFrom_append (egl : List NativeCall → Bool) (l₁ l₂ : List NativeCall) :
    ∀ (done : List NativeCall) (cur : Option NativeCall),
      lastCurrentFrom egl done cur (l₁ ++ l₂) =
        lastCurrentFrom egl (done ++ l₁) (lastCurrentFrom egl done cur l₁) l₂ := by
  induction l₁ with
  | nil =>
    intro done cur
    simp [lastCurrentFrom]
  | cons c rest ih =>
    intro done cur
    show lastCurrentFrom egl (done ++ [c]) _ (rest ++ l₂) =
      lastCurrentFrom egl (done ++ c :: rest) (lastCurrentFrom egl (done ++ [c]) _ rest) l₂
    rw [ih]
    simp

theorem lastCurrent_append (egl : List NativeCall → Bool) (calls extra : List NativeCall) :
    lastCurrent egl (calls ++ extra) =
      lastCurrentFrom egl calls (lastCurrent egl calls) extra := by
  unfold lastCurrent
  rw [lastCurrentFrom_append]
  simp

/-- Calls that are not `eglMakeCurrent` do not change the current context. -/
theorem lastCurrentFrom_of_no_makeCurrent (egl : List NativeCall → Bool)
    (extra : List NativeCall) (h : ∀ c ∈ extra, c.isMakeCurrent = false) :
    ∀ (done : List NativeCall) (cur : Option NativeCall),
      lastCurrentFrom egl done cur extra = cur := by
  induction extra with
  | nil => intro done cur; rfl
  | cons c rest ih =>
    intro done cur
    have hc := h c (List.mem_cons_self _ _)
    simp only [lastCurrentFrom]
    rw [ih (fun x hx => h x (List.mem_cons_of_mem _ hx)), if_neg]
    rw [hc]
    exact fun hx => Bool.noConfusion hx.1

theorem lastCurrent_snoc (egl : List NativeCall → Bool) (calls : List NativeCall)
    (c : NativeCall) :
    lastCurrent egl (calls ++ [c]) =
      if c.isMakeCurrent = true ∧ egl (calls ++ [c]) = true then some c
      else lastCurrent egl calls := by
  rw [lastCurrent_append]
  rfl

theorem makeCurrentCall_isMakeCurrent (self : WebGLRenderingContext) :
    (makeCurrentCall self).isMakeCurrent = true := rfl

/-- The invariant looks only at `ACTIVE`, at the state and the native handles
of the context it points to, and at the accepted make-current calls. -/
theorem ActiveIsCurrent.frame {egl : List NativeCall → Bool} {w w' : World}
    (h : ActiveIsCurrent egl w) (hact : w'.ACTIVE = w.ACTIVE)
    (hcur : lastCurrent egl w'.calls = lastCurrent egl w.calls)
    (hheap : ∀ a, w.ACTIVE = some a →
      (w'.heap a).state = (w.heap a).state ∧ (w'.heap a).surface = (w.heap a).surface ∧
      (w'.heap a).context = (w.heap a).context) :
    ActiveIsCurrent egl w' := by
  intro a ha
  rw [hact] at ha
  obtain ⟨h1, h2⟩ := h a ha
  obtain ⟨e1, e2, e3⟩ := hheap a ha
  refine ⟨by rw [e1, h1], ?_⟩
  rw [hcur, h2]
  unfold makeCurrentCall
  rw [e2, e3]

theorem ActiveIsCurrent.of_none {egl : List NativeCall → Bool} {w : World}
    (h : w.ACTIVE = none) : ActiveIsCurrent egl w := by
  intro a ha
  rw [h] at ha
  cases ha

theorem ActiveIsCurrent.issue {egl : List NativeCall → Bool} {w : World}
    (h : ActiveIsCurrent egl w) (call : NativeCall) (hc : call.isMakeCurrent = false) :
    ActiveIsCurrent egl (issue w call) := by
  refine h.frame rfl ?_ (fun a _ => ⟨rfl, rfl, rfl⟩)
  show lastCurrent egl (w.calls ++ [call]) = _
  rw [lastCurrent_snoc, if_neg]
  rw [hc]
  exact fun hx => Bool.noConfusion hx.1

/-- A store into a context other than the one `ACTIVE` points to. -/
theorem ActiveIsCurrent.modify_other {egl : List NativeCall → Bool} {w : World}
    (h : ActiveIsCurrent egl w) (p : Nat) (f : WebGLRenderingContext → WebGLRenderingContext)
    (hne : w.ACTIVE ≠ some p) : ActiveIsCurrent egl (w.modify p f) := by
  refine h.frame rfl rfl (fun a ha => ?_)
  have hap : a ≠ p := fun hx => hne (by rw [ha, hx])
  simp [World.modify, hap]

/-- A store that changes neither the state nor the native handles. -/
theorem ActiveIsCurrent.modify_same {egl : List NativeCall → Bool} {w : World}
    (h : ActiveIsCurrent egl w) (p : Nat) (f : WebGLRenderingContext → WebGLRenderingContext)
    (hf : ∀ c, (f c).state = c.state ∧ (f c).surface = c.surface ∧ (f c).context = c.context) :
    ActiveIsCurrent egl (w.modify p f) := by
  refine h.frame rfl rfl (fun a _ => ?_)
  unfold World.modify
  dsimp only
  split_ifs
  · exact hf _
  · exact ⟨rfl, rfl, rfl⟩

theorem ActiveIsCurrent.sameButLinks {egl : List NativeCall → Bool} {w w' : World}
    (h : ActiveIsCurrent egl w) (hs : w.SameButLinks w') : ActiveIsCurrent egl w' := by
  refine h.frame hs.2.1 (by rw [hs.1]) (fun a _ => ?_)
  obtain ⟨e1, -, e3, e4, -⟩ := hs.2.2.2 a
  exact ⟨e1, e4, e3⟩

/-- `setActive` keeps the invariant; when it fails `ACTIVE` is not the
receiver afterwards. -/
theorem setActive_activeIsCurrent (egl : List NativeCall → Bool) (w : World) (this : Nat)
    (h : ActiveIsCurrent egl w) :
    ActiveIsCurrent egl (setActive egl w this).2 ∧
    ((setActive egl w this).1 = false → (setActive egl w this).2.ACTIVE ≠ some this) := by
  by_cases hstate : (w.heap this).state = GLCONTEXT_STATE_OK
  · by_cases hact : w.ACTIVE = some this
    · rw [setActive_of_active egl w this hstate hact]
      exact ⟨h, fun hx => Bool.noConfusion hx⟩
    · cases hegl : egl (w.calls ++ [makeCurrentCall (w.heap this)])
      · rw [setActive_of_rejected egl w this hstate hact hegl]
        refine ⟨?_, fun _ => hact⟩
        have h1 : ActiveIsCurrent egl
            ({ w with calls := w.calls ++ [makeCurrentCall (w.heap this)] } : World) := by
          refine h.frame rfl ?_ (fun a _ => ⟨rfl, rfl, rfl⟩)
          show lastCurrent egl (w.calls ++ [makeCurrentCall (w.heap this)]) = _
          rw [lastCurrent_snoc, if_neg]
          rw [hegl]
          exact fun hx => Bool.noConfusion hx.2
        exact h1.modify_other this _ hact
      · rw [setActive_of_accepted egl w this hstate hact hegl]
        refine ⟨?_, fun hx => Bool.noConfusion hx⟩
        intro a ha
        have hat : a = this := (Option.some.inj ha).symm
        subst hat
        refine ⟨hstate, ?_⟩
        show lastCurrent egl (w.calls ++ [makeCurrentCall (w.heap a)]) = _
        rw [lastCurrent_snoc, if_pos ⟨makeCurrentCall_isMakeCurrent _, hegl⟩]
  · rw [setActive_of_not_ok egl w this hstate]
    refine ⟨h, fun _ hact => ?_⟩
    exact hstate (h this hact).1

/-- `dispose` keeps the invariant and never leaves `ACTIVE` pointing to the
disposed context. -/
theorem dispose_activeIsCurrent (egl : List NativeCall → Bool) (w : World) (this : Nat)
    (h : ActiveIsCurrent egl w) :
    ActiveIsCurrent egl (dispose egl w this) ∧ (dispose egl w this).ACTIVE ≠ some this := by
  have h1 := h.sameButLinks (unregisterContext_sameButLinks w this)
  obtain ⟨h2, hfail⟩ := setActive_activeIsCurrent egl (unregisterContext w this) this h1
  cases hres : (setActive egl (unregisterContext w this) this).1
  · rw [dispose_of_failed egl w this hres]
    exact ⟨h2.modify_other this _ (hfail hres), hfail hres⟩
  · have hnone : (dispose egl w this).ACTIVE = none := by
      rw [dispose_of_succeeded egl w this hres]
    exact ⟨ActiveIsCurrent.of_none hnone, by rw [hnone]; exact fun hx => Option.noConfusion hx⟩

theorem makeCurrentCall_congr {c c' : WebGLRenderingContext}
    (hs : c'.surface = c.surface) (hc : c'.context = c.context) :
    makeCurrentCall c' = makeCurrentCall c := by
  unfold makeCurrentCall
  rw [hs, hc]

theorem constructFail_activeIsCurrent {egl : List NativeCall → Bool} {w : World}
    (h : ActiveIsCurrent egl w) (this : Nat) (hne : w.ACTIVE ≠ some this) :
    ActiveIsCurrent egl (constructFail w this) :=
  h.modify_other this _ hne

/-- The constructor from `initPointers()` on keeps the invariant. -/
theorem constructExtensions_activeIsCurrent (drv : Driver) (w : World) (this : Nat)
    (h : ActiveIsCurrent drv.eglMakeCurrent w) :
    ActiveIsCurrent drv.eglMakeCurrent (constructExtensions drv w this) := by
  have h1 := h.issue (NativeCall.glGetString GL_EXTENSIONS) rfl
  unfold constructExtensions
  dsimp only
  split_ifs
  · obtain ⟨h2, h3⟩ := dispose_activeIsCurrent drv.eglMakeCurrent _ this h1
    exact constructFail_activeIsCurrent h2 this h3
  · exact h1.modify_same this _ (fun _ => ⟨rfl, rfl, rfl⟩)

/-- The constructor from the make-current on keeps the invariant. -/
theorem constructMakeCurrent_activeIsCurrent (drv : Driver) (w : World) (this : Nat)
    (h : ActiveIsCurrent drv.eglMakeCurrent w) (hne : w.ACTIVE ≠ some this) :
    ActiveIsCurrent drv.eglMakeCurrent (constructMakeCurrent drv w this) := by
  unfold constructMakeCurrent
  dsimp only
  cases hegl : drv.eglMakeCurrent (issue w (makeCurrentCall (w.heap this))).calls
  · rw [if_pos rfl]
    have h1 : ActiveIsCurrent drv.eglMakeCurrent (issue w (makeCurrentCall (w.heap this))) := by
      refine h.frame rfl ?_ (fun a _ => ⟨rfl, rfl, rfl⟩)
      show lastCurrent drv.eglMakeCurrent (w.calls ++ [makeCurrentCall (w.heap this)]) = _
      rw [lastCurrent_snoc, if_neg]
      intro hx
      have hx2 := hx.2
      rw [show w.calls ++ [makeCurrentCall (w.heap this)] =
        (issue w (makeCurrentCall (w.heap this))).calls from rfl, hegl] at hx2
      exact Bool.noConfusion hx2
    exact constructFail_activeIsCurrent h1 this hne
  · rw [if_neg (fun hx => Bool.noConfusion hx)]
    apply constructExtensions_activeIsCurrent
    have hreg := registerContext_sameButLinks
      ((issue w (makeCurrentCall (w.heap this))).modify this
        (fun c => { c with state := GLCONTEXT_STATE_OK })) this
    intro a ha
    have hat : a = this := (Option.some.inj ha).symm
    subst hat
    obtain ⟨e1, -, e3, e4, -⟩ := hreg.2.2.2 a
    have hst : ((registerContext
        ((issue w (makeCurrentCall (w.heap a))).modify a
          (fun c => { c with state := GLCONTEXT_STATE_OK })) a).heap a).state =
        GLCONTEXT_STATE_OK := by
      rw [e1, modify_state, if_pos rfl]
    have hmc : makeCurrentCall ((registerContext
        ((issue w (makeCurrentCall (w.heap a))).modify a
          (fun c => { c with state := GLCONTEXT_STATE_OK })) a).heap a) =
        makeCurrentCall (w.heap a) := by
      refine (makeCurrentCall_congr e4 e3).trans ?_
      exact makeCurrentCall_congr (by simp [World.modify, issue]) (by simp [World.modify, issue])
    refine ⟨hst, ?_⟩
    show lastCurrent drv.eglMakeCurrent (registerContext _ a).calls = _
    rw [hreg.1, hmc]
    show lastCurrent drv.eglMakeCurrent (w.calls ++ [makeCurrentCall (w.heap a)]) = _
    rw [lastCurrent_snoc, if_pos ⟨makeCurrentCall_isMakeCurrent _, hegl⟩]

theorem constructSurface_activeIsCurrent (drv : Driver) (w : World) (this : Nat)
    (width height : Int)
    (h : ActiveIsCurrent drv.eglMakeCurrent w) (hne : w.ACTIVE ≠ some this) :
    ActiveIsCurrent drv.eglMakeCurrent (constructSurface drv w this width height) := by
  have h1 := (h.issue (NativeCall.eglCreatePbufferSurface (w.heap this).config
    (wrapInt32 width) (wrapInt32 height)) rfl).modify_other this
    (fun c => { c with surface := (drv.eglCreatePbufferSurface (issue w
      (NativeCall.eglCreatePbufferSurface (w.heap this).config (wrapInt32 width)
        (wrapInt32 height))).calls).getD 0 }) hne
  unfold constructSurface
  dsimp only
  split_ifs
  · exact constructFail_activeIsCurrent h1 this hne
  · exact constructMakeCurrent_activeIsCurrent drv _ this h1 hne

theorem constructContext_activeIsCurrent (drv : Driver) (w : World) (this : Nat)
    (width height : Int)
    (h : ActiveIsCurrent drv.eglMakeCurrent w) (hne : w.ACTIVE ≠ some this) :
    ActiveIsCurrent drv.eglMakeCurrent (constructContext drv w this width height) := by
  have h1 := (h.issue (NativeCall.eglCreateContext (w.heap this).config) rfl).modify_other this
    (fun c => { c with context := (drv.eglCreateContext (issue w
      (NativeCall.eglCreateContext (w.heap this).config)).calls).getD 0 }) hne
  unfold constructContext
  dsimp only
  split_ifs
  · exact constructFail_activeIsCurrent h1 this hne
  · exact constructSurface_activeIsCurrent drv _ this width height h1 hne

theorem constructConfig_activeIsCurrent (drv : Driver) (w : World) (this : Nat)
    (width height : Int)
    (h : ActiveIsCurrent drv.eglMakeCurrent w) (hne : w.ACTIVE ≠ some this) :
    ActiveIsCurrent drv.eglMakeCurrent (constructConfig drv w this width height) := by
  have h1 := (h.issue NativeCall.eglChooseConfig rfl).modify_other this
    (fun c => { c with config := (drv.eglChooseConfig (issue w
      NativeCall.eglChooseConfig).calls).2.2 }) hne
  unfold constructConfig
  dsimp only
  split_ifs
  · exact constructFail_activeIsCurrent h1 this hne
  · exact constructContext_activeIsCurrent drv _ this width height h1 hne

/-- A construction on storage other than that of the `ACTIVE` context keeps
the invariant. -/
theorem construct_activeIsCurrent (drv : Driver) (w : World) (this : Nat)
    (width height : Int)
    (h : ActiveIsCurrent drv.eglMakeCurrent w) (hne : w.ACTIVE ≠ some this) :
    ActiveIsCurrent drv.eglMakeCurrent (construct drv w this width height) := by
  have h0 : ActiveIsCurrent drv.eglMakeCurrent (constructInit w this) :=
    h.modify_other this _ hne
  have hne0 : (constructInit w this).ACTIVE ≠ some this := hne
  unfold construct
  dsimp only
  split_ifs
  · exact constructFail_activeIsCurrent (h0.issue NativeCall.eglGetDisplay rfl) this hne0
  · exact constructFail_activeIsCurrent
      ((h0.issue NativeCall.eglGetDisplay rfl).issue NativeCall.eglInitialize rfl) this hne0
  · refine constructConfig_activeIsCurrent drv _ this width height ?_ hne0
    exact ((h0.issue NativeCall.eglGetDisplay rfl).issue NativeCall.eglInitialize rfl).frame
      rfl rfl (fun a _ => ⟨rfl, rfl, rfl⟩)
  · exact constructConfig_activeIsCurrent drv _ this width height h0 hne0

theorem disposeLoop_activeIsCurrent (egl : List NativeCall → Bool) :
    ∀ (fuel : Nat) (w w' : World), ActiveIsCurrent egl w → disposeLoop egl fuel w = some w' →
      ActiveIsCurrent egl w' := by
  intro fuel
  induction fuel with
  | zero =>
    intro w w' h hrun
    unfold disposeLoop at hrun
    split_ifs at hrun
    cases hrun
    exact h
  | succ fuel ih =>
    intro w w' h hrun
    unfold disposeLoop at hrun
    cases hh : w.CONTEXT_LIST_HEAD with
    | none =>
      rw [hh] at hrun
      cases hrun
      exact h
    | some head =>
      rw [hh] at hrun
      exact ih _ _ (dispose_activeIsCurrent egl w head h).1 hrun

theorem terminateDisplay_activeIsCurrent {egl : List NativeCall → Bool} {w : World}
    (h : ActiveIsCurrent egl w) : ActiveIsCurrent egl (terminateDisplay w) := by
  unfold terminateDisplay
  split_ifs
  · exact (h.issue NativeCall.eglTerminate rfl).frame rfl rfl (fun a _ => ⟨rfl, rfl, rfl⟩)
  · exact h

/-- In every reachable process `ACTIVE` is the current context. -/
theorem reachable_activeIsCurrent (drv : Driver) (w : World) (h : Reachable drv w) :
    ActiveIsCurrent drv.eglMakeCurrent w := by
  induction h with
  | start w hnone => exact ActiveIsCurrent.of_none hnone
  | construct this width height _ hne ih =>
    exact construct_activeIsCurrent drv _ this width height ih hne
  | setActive this _ ih => exact (setActive_activeIsCurrent _ _ this ih).1
  | dispose this _ ih => exact (dispose_activeIsCurrent _ _ this ih).1
  | disposeAll fuel _ hrun ih =>
    unfold DisposeAll at hrun
    cases hloop : disposeLoop drv.eglMakeCurrent fuel _ with
    | none =>
      rw [hloop] at hrun
      cases hrun
    | some w₁ =>
      rw [hloop] at hrun
      cases hrun
      exact terminateDisplay_activeIsCurrent (disposeLoop_activeIsCurrent _ fuel _ _ ih hloop)


/-! ## Lemmas: the clear, copy and read entry points and the driver -/

theorem toFloat32_one : toFloat32 BinFloat.one = BinFloat.oneF := by decide

theorem toFloat32_zero : toFloat32 BinFloat.zero = BinFloat.zero := by decide

/-- What the premultiply loop body accesses for the first pixel of a row is
among the accesses of the inner loop as soon as it runs once. -/
theorem premultiplyColsAccesses_first (type format : Nat) (rowStride pixelSize : Int) (row : Nat)
    (unpacked : List Nat) (o : Int)
    (ho : o ∈ premultiplyPixelAccesses type format unpacked
      (wrapInt32 ((row : Int) * rowStride) + wrapInt32 (((0 : Nat) : Int) * pixelSize))) :
    ∀ n, 0 < n → o ∈ premultiplyColsAccesses type format rowStride pixelSize row unpacked n := by
  intro n
  induction n with
  | zero => intro h; exact absurd h (lt_irrefl 0)
  | succ n ih =>
    intro _
    unfold premultiplyColsAccesses
    rcases Nat.eq_zero_or_pos n with h0 | hpos
    · subst h0
      exact List.mem_append_right _ ho
    · exact List.mem_append_left _ (ih hpos)

/-! ## Claims -/

/-- C1: for every (type, format), width >= 0 and unpack alignment a >= 1 for
which no 32-bit overflow occurs (`StrideFits`), the row stride of
`unpackPixels` is non-negative, a multiple of `a`, at least
`pixelSize * width` and less than `pixelSize * width + a`; it is the least
multiple of `a` that is at least `pixelSize * width`. -/
theorem rowStride_least_multiple (type format : Nat) (width a : Int)
    (hw : 0 ≤ width) (ha : 1 ≤ a)
    (hov : StrideFits type format width a) :
    0 ≤ rowStride type format width a ∧
    a ∣ rowStride type format width a ∧
    pixelSize type format * width ≤ rowStride type format width a ∧
    rowStride type format width a < pixelSize type format * width + a ∧
    (∀ m : Int, a ∣ m → pixelSize type format * width ≤ m →
      rowStride type format width a ≤ m) := by
  have hp := pixelSize_pos type format
  have hprod : 0 ≤ pixelSize type format * width := by positivity
  have hm0 : 0 ≤ (pixelSize type format * width) % a := Int.emod_nonneg _ (by omega)
  have hm1 : (pixelSize type format * width) % a < a := Int.emod_lt_of_pos _ (by omega)
  have hdiv : a * ((pixelSize type format * width) / a) + (pixelSize type format * width) % a
      = pixelSize type format * width := Int.ediv_add_emod _ _
  rw [rowStride_eq type format width a hw ha hov]
  generalize pixelSize type format * width = P at *
  generalize hq : P / a = q at *
  generalize hr : P % a = r at *
  split_ifs with h
  · refine ⟨hprod, ⟨q, by omega⟩, le_refl _, by omega, fun m _ hm => hm⟩
  · refine ⟨by omega, ⟨q + 1, by rw [mul_add]; omega⟩, by omega, by omega, ?_⟩
    rintro m ⟨k, rfl⟩ hm
    have hlt : a * q < a * k := by omega
    have hqk : q < k := lt_of_mul_lt_mul_left hlt (by omega)
    have : a * (q + 1) ≤ a * k := mul_le_mul_of_nonneg_left (by omega) (by omega)
    rw [mul_add] at this
    omega

/-- Witness for C1: RGB bytes, width 5, the default alignment 4: stride 16. -/
theorem rowStride_least_multiple_witness :
    rowStride GL_UNSIGNED_BYTE GL_RGB 5 4 = 16 ∧
    (0 ≤ rowStride GL_UNSIGNED_BYTE GL_RGB 5 4 ∧
    (4 : Int) ∣ rowStride GL_UNSIGNED_BYTE GL_RGB 5 4 ∧
    pixelSize GL_UNSIGNED_BYTE GL_RGB * 5 ≤ rowStride GL_UNSIGNED_BYTE GL_RGB 5 4 ∧
    rowStride GL_UNSIGNED_BYTE GL_RGB 5 4 < pixelSize GL_UNSIGNED_BYTE GL_RGB * 5 + 4 ∧
    (∀ m : Int, (4 : Int) ∣ m → pixelSize GL_UNSIGNED_BYTE GL_RGB * 5 ≤ m →
      rowStride GL_UNSIGNED_BYTE GL_RGB 5 4 ≤ m)) :=
  ⟨by decide, rowStride_least_multiple GL_UNSIGNED_BYTE GL_RGB 5 4 (by decide) (by decide)
    (by decide)⟩


/-- C2 (counterexample): a 1 x 2 image of `ALPHA` bytes has stride 4 under the
default alignment. Flipping the source rows `[1,2,3,4]`, `[5,6,7,8]` into an
allocation that held zeros gives `[5,0,0,0]`, `[1,0,0,0]`: output row 0 is not
the four bytes of source row 1, because only `width * pixelSize = 1` byte of
each row is copied. -/
theorem unpackPixels_flipY_whole_rows_counterexample :
    rowStride GL_UNSIGNED_BYTE GL_ALPHA 1 flipContext.unpack_alignment = 4 ∧
    unpackPixels flipContext GL_UNSIGNED_BYTE GL_ALPHA 1 2 [1, 2, 3, 4, 5, 6, 7, 8]
      (fun _ => 0) = [5, 0, 0, 0, 1, 0, 0, 0] ∧
    ((unpackPixels flipContext GL_UNSIGNED_BYTE GL_ALPHA 1 2 [1, 2, 3, 4, 5, 6, 7, 8]
      (fun _ => 0)).drop (0 * 4)).take 4 ≠
      (([1, 2, 3, 4, 5, 6, 7, 8] : List Nat).drop ((2 - 1 - 0) * 4)).take 4 := by
  decide

/-- C2 (amended): with flip-Y set and premultiply-alpha clear, for every width
`w`, height `h` (no 32-bit overflow in the stride `rs` and the size `rs * h`)
and every source, `unpackPixels` returns `rs * h` bytes in which, for every row
`i < h`, the first `pixelSize * w` bytes are those of source row `h - 1 - i`;
the padding bytes of the row are not copied: they are what the fresh
allocation held. -/
theorem unpackPixels_flipY_rows (self : WebGLRenderingContext) (type format : Nat)
    (w h rs ps : Nat) (pixels : List Nat) (fresh : Nat → Nat)
    (hflip : self.unpack_flip_y = true) (hpre : self.unpack_premultiply_alpha = false)
    (ha : 1 ≤ self.unpack_alignment)
    (hps : pixelSize type format = (ps : Int))
    (hov : StrideFits type format (w : Int) self.unpack_alignment)
    (hrs : rowStride type format (w : Int) self.unpack_alignment = (rs : Int))
    (hsz : rs * h ≤ 2147483647) :
    (unpackPixels self type format w h pixels fresh).length = rs * h ∧
    ∀ i k, i < h → k < rs →
      (unpackPixels self type format w h pixels fresh).getD (i * rs + k) 0 =
        if k < ps * w then pixels.getD ((h - 1 - i) * rs + k) 0 else fresh (i * rs + k) := by
  rw [unpackPixels_of_not_premultiply self type format w h pixels fresh hpre]
  exact unpackedRows_flip self type format w h rs ps pixels fresh hflip ha hps hov hrs hsz

/-- Witness for C2 (amended): a 3 x 2 image of `RGB` bytes, stride 12. -/
theorem unpackPixels_flipY_rows_witness :
    (unpackPixels flipContext GL_UNSIGNED_BYTE GL_RGB ((3 : Nat) : Int) ((2 : Nat) : Int)
        (List.range 24) (fun _ => 99)).length = 12 * 2 ∧
    ∀ i k, i < 2 → k < 12 →
      (unpackPixels flipContext GL_UNSIGNED_BYTE GL_RGB ((3 : Nat) : Int) ((2 : Nat) : Int)
        (List.range 24) (fun _ => 99)).getD (i * 12 + k) 0 =
        if k < 3 * 3 then (List.range 24).getD ((2 - 1 - i) * 12 + k) 0
        else (fun _ => 99) (i * 12 + k) :=
  unpackPixels_flipY_rows flipContext GL_UNSIGNED_BYTE GL_RGB 3 2 12 3 (List.range 24)
    (fun _ => 99) rfl rfl (by decide) (by decide) (by decide) (by decide) (by decide)

/-- C3 (counterexample): for the 1 x 2 `ALPHA` image of stride 4, flipping
`[1,2,3,4,5,6,7,8]` twice (each time into an allocation that held zeros) gives
`[1,0,0,0,5,0,0,0]`, not the original bytes. -/
theorem unpackPixels_flipY_twice_counterexample :
    unpackPixels flipContext GL_UNSIGNED_BYTE GL_ALPHA 1 2
      (unpackPixels flipContext GL_UNSIGNED_BYTE GL_ALPHA 1 2 [1, 2, 3, 4, 5, 6, 7, 8]
        (fun _ => 0)) (fun _ => 0) = [1, 0, 0, 0, 5, 0, 0, 0] ∧
    unpackPixels flipContext GL_UNSIGNED_BYTE GL_ALPHA 1 2
      (unpackPixels flipContext GL_UNSIGNED_BYTE GL_ALPHA 1 2 [1, 2, 3, 4, 5, 6, 7, 8]
        (fun _ => 0)) (fun _ => 0) ≠ [1, 2, 3, 4, 5, 6, 7, 8] := by
  decide

/-- C3 (amended): with flip-Y set and premultiply-alpha clear, applying
`unpackPixels` to its own output (same type, format, width, height and
alignment; no 32-bit overflow) returns `rs * h` bytes that agree with the
original on the first `pixelSize * w` bytes of every row; when the rows have
no padding (`rs = pixelSize * w`) the result is exactly the original
`rs * h` bytes. -/
theorem unpackPixels_flipY_twice (self : WebGLRenderingContext) (type format : Nat)
    (w h rs ps : Nat) (pixels : List Nat) (fresh₁ fresh₂ : Nat → Nat)
    (hflip : self.unpack_flip_y = true) (hpre : self.unpack_premultiply_alpha = false)
    (ha : 1 ≤ self.unpack_alignment)
    (hps : pixelSize type format = (ps : Int))
    (hov : StrideFits type format (w : Int) self.unpack_alignment)
    (hrs : rowStride type format (w : Int) self.unpack_alignment = (rs : Int))
    (hsz : rs * h ≤ 2147483647)
    (hlen : pixels.length = rs * h) :
    (unpackPixels self type format w h
      (unpackPixels self type format w h pixels fresh₁) fresh₂).length = rs * h ∧
    (∀ i k, i < h → k < ps * w →
      (unpackPixels self type format w h
        (unpackPixels self type format w h pixels fresh₁) fresh₂).getD (i * rs + k) 0 =
        pixels.getD (i * rs + k) 0) ∧
    (rs = ps * w →
      unpackPixels self type format w h
        (unpackPixels self type format w h pixels fresh₁) fresh₂ = pixels) := by
  rw [unpackPixels_of_not_premultiply self type format w h _ fresh₂ hpre,
    unpackPixels_of_not_premultiply self type format w h pixels fresh₁ hpre]
  have h1 := unpackedRows_flip self type format w h rs ps pixels fresh₁
    hflip ha hps hov hrs hsz
  have h2 := unpackedRows_flip self type format w h rs ps
    (unpackedRows self type format w h pixels fresh₁) fresh₂ hflip ha hps hov hrs hsz
  have hC1 := rowStride_bounds type format w self.unpack_alignment
    (Int.natCast_nonneg w) ha hov
  have hnle : ((ps * w : Nat) : Int) ≤ (rs : Int) := by
    rw [← hrs]
    push_cast
    rw [← hps]
    exact hC1.1
  have hnrs : ps * w ≤ rs := by exact_mod_cast hnle
  have hpix : ∀ i k, i < h → k < ps * w →
      (unpackedRows self type format w h
        (unpackedRows self type format w h pixels fresh₁) fresh₂).getD (i * rs + k) 0 =
        pixels.getD (i * rs + k) 0 := by
    intro i k hi hk
    have e : h - 1 - (h - 1 - i) = i := by omega
    rw [h2.2 i k hi (by omega), if_pos hk, h1.2 (h - 1 - i) k (by omega) (by omega), if_pos hk, e]
  refine ⟨h2.1, hpix, ?_⟩
  intro hno
  apply ext_getD (by rw [h2.1, hlen])
  intro idx hidx
  rw [h2.1] at hidx
  obtain ⟨hi, hk, hsplit⟩ := offset_split rs h idx hidx
  rw [← hsplit]
  exact hpix _ _ hi (by omega)

/-- Witness for C3 (amended): a 2 x 2 image of `RGB` bytes, stride 8. -/
theorem unpackPixels_flipY_twice_witness :
    (unpackPixels flipContext GL_UNSIGNED_BYTE GL_RGB ((2 : Nat) : Int) ((2 : Nat) : Int)
      (unpackPixels flipContext GL_UNSIGNED_BYTE GL_RGB ((2 : Nat) : Int) ((2 : Nat) : Int)
        (List.range 16) (fun _ => 7)) (fun _ => 9)).length = 8 * 2 ∧
    (∀ i k, i < 2 → k < 3 * 2 →
      (unpackPixels flipContext GL_UNSIGNED_BYTE GL_RGB ((2 : Nat) : Int) ((2 : Nat) : Int)
        (unpackPixels flipContext GL_UNSIGNED_BYTE GL_RGB ((2 : Nat) : Int) ((2 : Nat) : Int)
          (List.range 16) (fun _ => 7)) (fun _ => 9)).getD (i * 8 + k) 0 =
        (List.range 16).getD (i * 8 + k) 0) ∧
    (8 = 3 * 2 →
      unpackPixels flipContext GL_UNSIGNED_BYTE GL_RGB ((2 : Nat) : Int) ((2 : Nat) : Int)
        (unpackPixels flipContext GL_UNSIGNED_BYTE GL_RGB ((2 : Nat) : Int) ((2 : Nat) : Int)
          (List.range 16) (fun _ => 7)) (fun _ => 9) = List.range 16) :=
  unpackPixels_flipY_twice flipContext GL_UNSIGNED_BYTE GL_RGB 2 2 8 3 (List.range 16)
    (fun _ => 7) (fun _ => 9) rfl rfl (by decide) (by decide) (by decide) (by decide)
    (by decide) (by decide)

/-- C4: with premultiply-alpha set and flip-Y clear, for every image (width
`w`, height `h`, stride `rs`, no 32-bit overflow, a source of at least
`rs * h` bytes) in which every pixel has its alpha at the maximum (`alphaIsMax`:
byte 255 for 1-byte RGBA and LUMINANCE_ALPHA, bit 1 for 5-5-5-1), every byte of
every pixel of the output of `unpackPixels`, the colour channels among them,
equals the corresponding byte of the source pixel; the output is the first
`rs * h` bytes of the source. -/
theorem unpackPixels_premultiply_alphaMax (self : WebGLRenderingContext) (type format : Nat)
    (w h rs ps : Nat) (pixels : List Nat) (fresh : Nat → Nat)
    (hflip : self.unpack_flip_y = false) (hpre : self.unpack_premultiply_alpha = true)
    (ha : 1 ≤ self.unpack_alignment)
    (hps : pixelSize type format = (ps : Int))
    (hov : StrideFits type format (w : Int) self.unpack_alignment)
    (hrs : rowStride type format (w : Int) self.unpack_alignment = (rs : Int))
    (hsz : rs * h ≤ 2147483647)
    (hlen : rs * h ≤ pixels.length)
    (hbytes : ∀ b ∈ pixels, b < 256)
    (hmax : ∀ row, row < h → ∀ col, col < w →
      alphaIsMax type format pixels (row * rs + col * ps)) :
    (∀ row col k, row < h → col < w → k < ps →
      (unpackPixels self type format w h pixels fresh).getD (row * rs + col * ps + k) 0 =
        pixels.getD (row * rs + col * ps + k) 0) ∧
    unpackPixels self type format w h pixels fresh = pixels.take (rs * h) := by
  have hC1 := rowStride_bounds type format w self.unpack_alignment (Int.natCast_nonneg w) ha hov
  have hnle : ((ps * w : Nat) : Int) ≤ (rs : Int) := by
    rw [← hrs]
    push_cast
    rw [← hps]
    exact hC1.1
  have hnrs : ps * w ≤ rs := by exact_mod_cast hnle
  have hrs31 : rs ≤ 2147483647 := by
    have := hC1.2.2
    rw [hrs] at this
    omega
  obtain ⟨hulen, hu⟩ := unpackedRows_copy self type format w h rs pixels fresh hflip hrs hsz
  have hpb : ∀ k, pixels.getD k 0 < 256 := by
    intro k
    by_cases hk : k < pixels.length
    · rw [List.getD_eq_getElem pixels 0 hk]
      exact hbytes _ (List.getElem_mem hk)
    · rw [List.getD_eq_default _ _ (by omega)]
      decide
  have hub : ∀ k, (unpackedRows self type format w h pixels fresh).getD k 0 < 256 := by
    intro k
    rw [hu k]
    split_ifs
    · exact hpb k
    · decide
  have hps1 : 1 ≤ ps := by
    have := pixelSize_pos type format
    rw [hps] at this
    exact_mod_cast this
  have huop : ∀ row, row < h → ∀ col, col < w →
      alphaIsMax type format (unpackedRows self type format w h pixels fresh)
        (row * rs + col * ps) := by
    intro row hrow col hcol
    have hb0 := pixel_byte_in_image rs ps w h row col 0 hnrs hrow hcol (by omega)
    rcases hmax row hrow col hcol with ⟨ht, hf, hal⟩ | ⟨ht, hf, hal⟩ | ⟨ht, hf, hal⟩
    · have hps4 : ps = 4 := by
        have : pixelSize type format = 4 := by subst ht hf; decide
        rw [hps] at this
        exact_mod_cast this
      have hb := pixel_byte_in_image rs ps w h row col 3 hnrs hrow hcol (by omega)
      exact Or.inl ⟨ht, hf, by rw [hu, if_pos hb]; exact hal⟩
    · have hps2 : ps = 2 := by
        have : pixelSize type format = 2 := by subst ht hf; decide
        rw [hps] at this
        exact_mod_cast this
      have hb := pixel_byte_in_image rs ps w h row col 1 hnrs hrow hcol (by omega)
      exact Or.inr (Or.inl ⟨ht, hf, by rw [hu, if_pos hb]; exact hal⟩)
    · exact Or.inr (Or.inr ⟨ht, hf, by rw [hu, if_pos (by omega)]; exact hal⟩)
  have hout : unpackPixels self type format w h pixels fresh =
      unpackedRows self type format w h pixels fresh := by
    unfold unpackPixels
    simp only [hpre, true_and]
    split_ifs
    · rw [hrs, hps, Int.toNat_natCast]
      exact premultiplyRows_alphaMax type format rs ps w h _ hnrs hsz hrs31 hub huop h (le_refl h)
    · rfl
  rw [hout]
  constructor
  · intro row col k hrow hcol hk
    have hb := pixel_byte_in_image rs ps w h row col k hnrs hrow hcol hk
    rw [hu, if_pos hb]
  · apply ext_getD (by rw [hulen, List.length_take]; omega)
    intro k hk
    rw [hulen] at hk
    rw [hu, if_pos hk, List.getD_eq_getElem?_getD, List.getD_eq_getElem?_getD,
      List.getElem?_take_of_lt hk]

/-- Witness for C4: a 2 x 2 opaque RGBA image, stride 8. -/
theorem unpackPixels_premultiply_alphaMax_witness :
    (∀ row col k, row < 2 → col < 2 → k < 4 →
      (unpackPixels premultiplyContext GL_UNSIGNED_BYTE GL_RGBA ((2 : Nat) : Int)
        ((2 : Nat) : Int)
        [10, 20, 30, 255, 40, 50, 60, 255, 70, 80, 90, 255, 100, 110, 120, 255]
        (fun _ => 0)).getD (row * 8 + col * 4 + k) 0 =
      ([10, 20, 30, 255, 40, 50, 60, 255, 70, 80, 90, 255, 100, 110, 120, 255] :
        List Nat).getD (row * 8 + col * 4 + k) 0) ∧
    unpackPixels premultiplyContext GL_UNSIGNED_BYTE GL_RGBA ((2 : Nat) : Int)
        ((2 : Nat) : Int)
        [10, 20, 30, 255, 40, 50, 60, 255, 70, 80, 90, 255, 100, 110, 120, 255]
        (fun _ => 0) =
      ([10, 20, 30, 255, 40, 50, 60, 255, 70, 80, 90, 255, 100, 110, 120, 255] :
        List Nat).take (8 * 2) :=
  unpackPixels_premultiply_alphaMax premultiplyContext GL_UNSIGNED_BYTE GL_RGBA 2 2 8 4
    [10, 20, 30, 255, 40, 50, 60, 255, 70, 80, 90, 255, 100, 110, 120, 255] (fun _ => 0)
    rfl rfl (by decide) (by decide) (by decide) (by decide) (by decide) (by decide)
    (by decide) (by decide)

/-- C5 (the code at the failing input): the shadow is clear and the driver has
`GL_INVALID_ENUM` pending; `setError(GL_INVALID_VALUE)` queries the driver,
which consumes that error, and records nothing: afterwards the shadow is still
clear, nothing is pending in the driver, and `getError` returns
`GL_NO_ERROR`. -/
theorem setError_consumes_driver_error :
    (setError (newContext GLCONTEXT_STATE_OK 1 1) [GL_INVALID_ENUM] GL_INVALID_VALUE).1.lastError
      = GL_NO_ERROR ∧
    (setError (newContext GLCONTEXT_STATE_OK 1 1) [GL_INVALID_ENUM] GL_INVALID_VALUE).2 = [] ∧
    (getError
      (setError (newContext GLCONTEXT_STATE_OK 1 1) [GL_INVALID_ENUM] GL_INVALID_VALUE).1
      (setError (newContext GLCONTEXT_STATE_OK 1 1) [GL_INVALID_ENUM] GL_INVALID_VALUE).2).1
      = GL_NO_ERROR := by
  decide

/-- C6: `getError` returns the shadow error when the shadow is non-clear and
otherwise the oldest error pending in the driver (`GL_NO_ERROR` when the driver
has none); in both cases the shadow is clear after the call. -/
theorem getError_result (self : WebGLRenderingContext) (driver : List Nat) :
    (getError self driver).1 =
      (if self.lastError ≠ GL_NO_ERROR then self.lastError else driver.headD GL_NO_ERROR) ∧
    (getError self driver).2.1.lastError = GL_NO_ERROR := by
  refine ⟨?_, rfl⟩
  cases driver with
  | nil => rfl
  | cons error rest => rfl

/-- C7 (counterexample): the shadow holds `GL_INVALID_VALUE` and the driver has
`GL_INVALID_ENUM` pending. `getError` returns the shadow, but the driver's
error is no longer pending afterwards, and the next `getError` returns
`GL_NO_ERROR`, not `GL_INVALID_ENUM`. -/
theorem getError_both_pending_counterexample :
    (getError { newContext GLCONTEXT_STATE_OK 1 1 with lastError := GL_INVALID_VALUE }
      [GL_INVALID_ENUM]).1 = GL_INVALID_VALUE ∧
    (getError { newContext GLCONTEXT_STATE_OK 1 1 with lastError := GL_INVALID_VALUE }
      [GL_INVALID_ENUM]).2.2 = [] ∧
    (getError
      (getError { newContext GLCONTEXT_STATE_OK 1 1 with lastError := GL_INVALID_VALUE }
        [GL_INVALID_ENUM]).2.1
      (getError { newContext GLCONTEXT_STATE_OK 1 1 with lastError := GL_INVALID_VALUE }
        [GL_INVALID_ENUM]).2.2).1 = GL_NO_ERROR ∧
    GL_NO_ERROR ≠ GL_INVALID_ENUM := by
  decide

/-- C7 (amended): when both the shadow and the driver hold a pending error,
`getError` returns the shadow and clears it, and the same call also consumes
the driver's oldest pending error (the driver is queried first,
unconditionally); so the next `getError` returns the driver's next pending
error, `GL_NO_ERROR` when it had only one. -/
theorem getError_both_pending (self : WebGLRenderingContext) (error : Nat) (rest : List Nat)
    (hshadow : self.lastError ≠ GL_NO_ERROR) :
    (getError self (error :: rest)).1 = self.lastError ∧
    (getError self (error :: rest)).2.1.lastError = GL_NO_ERROR ∧
    (getError self (error :: rest)).2.2 = rest ∧
    (getError (getError self (error :: rest)).2.1 (getError self (error :: rest)).2.2).1
      = rest.headD GL_NO_ERROR := by
  refine ⟨?_, rfl, rfl, ?_⟩
  · simp [getError, hshadow]
  · cases rest with
    | nil => rfl
    | cons e r => rfl

/-- Witness for C7 (amended): shadow `GL_INVALID_VALUE`, driver errors
`GL_INVALID_ENUM` and `GL_INVALID_VALUE`. -/
theorem getError_both_pending_witness :
    (getError { newContext GLCONTEXT_STATE_OK 1 1 with lastError := GL_INVALID_VALUE }
      [GL_INVALID_ENUM, GL_INVALID_VALUE]).1 = GL_INVALID_VALUE ∧
    (getError { newContext GLCONTEXT_STATE_OK 1 1 with lastError := GL_INVALID_VALUE }
      [GL_INVALID_ENUM, GL_INVALID_VALUE]).2.1.lastError = GL_NO_ERROR ∧
    (getError { newContext GLCONTEXT_STATE_OK 1 1 with lastError := GL_INVALID_VALUE }
      [GL_INVALID_ENUM, GL_INVALID_VALUE]).2.2 = [GL_INVALID_VALUE] ∧
    (getError
      (getError { newContext GLCONTEXT_STATE_OK 1 1 with lastError := GL_INVALID_VALUE }
        [GL_INVALID_ENUM, GL_INVALID_VALUE]).2.1
      (getError { newContext GLCONTEXT_STATE_OK 1 1 with lastError := GL_INVALID_VALUE }
        [GL_INVALID_ENUM, GL_INVALID_VALUE]).2.2).1 = [GL_INVALID_VALUE].headD GL_NO_ERROR :=
  getError_both_pending { newContext GLCONTEXT_STATE_OK 1 1 with lastError := GL_INVALID_VALUE }
    GL_INVALID_ENUM [GL_INVALID_VALUE] (by decide)

/-- C8: `setActive` on a Ready context. If it is already the process-wide
`ACTIVE` one the call returns true and the process is unchanged (no native
call, no state change). If it is not `ACTIVE` and the native make-current is
accepted, the call returns true, that one native call has been issued and
`ACTIVE` is this context (all contexts unchanged). If the native make-current
is rejected, the call returns false, this context's state is `Error` and
`ACTIVE` is unchanged. -/
theorem setActive_ready (egl : List NativeCall → Bool) (w : World) (this : Nat)
    (hstate : (w.heap this).state = GLCONTEXT_STATE_OK) :
    (w.ACTIVE = some this → setActive egl w this = (true, w)) ∧
    (w.ACTIVE ≠ some this → egl (w.calls ++ [makeCurrentCall (w.heap this)]) = true →
      (setActive egl w this).1 = true ∧
      (setActive egl w this).2.ACTIVE = some this ∧
      (setActive egl w this).2.calls = w.calls ++ [makeCurrentCall (w.heap this)] ∧
      (setActive egl w this).2.heap = w.heap) ∧
    (w.ACTIVE ≠ some this → egl (w.calls ++ [makeCurrentCall (w.heap this)]) = false →
      (setActive egl w this).1 = false ∧
      ((setActive egl w this).2.heap this).state = GLCONTEXT_STATE_ERROR ∧
      (setActive egl w this).2.ACTIVE = w.ACTIVE ∧
      (setActive egl w this).2.calls = w.calls ++ [makeCurrentCall (w.heap this)]) := by
  refine ⟨fun hact => setActive_of_active egl w this hstate hact, ?_, ?_⟩
  · intro hact hegl
    rw [setActive_of_accepted egl w this hstate hact hegl]
    exact ⟨rfl, rfl, rfl, rfl⟩
  · intro hact hegl
    rw [setActive_of_rejected egl w this hstate hact hegl]
    refine ⟨rfl, ?_, rfl, rfl⟩
    rw [modify_state, if_pos rfl]

/-- Witness for C8: the three cases on the two-context process, with context 0
already active, with a driver that accepts, and with a driver that rejects. -/
theorem setActive_ready_witness :
    setActive (fun _ => false) { twoContexts with ACTIVE := some 0 } 0 =
      (true, { twoContexts with ACTIVE := some 0 }) ∧
    ((setActive (fun _ => true) twoContexts 0).1 = true ∧
      (setActive (fun _ => true) twoContexts 0).2.ACTIVE = some 0 ∧
      (setActive (fun _ => true) twoContexts 0).2.calls =
        twoContexts.calls ++ [makeCurrentCall (twoContexts.heap 0)] ∧
      (setActive (fun _ => true) twoContexts 0).2.heap = twoContexts.heap) ∧
    ((setActive (fun _ => false) twoContexts 0).1 = false ∧
      ((setActive (fun _ => false) twoContexts 0).2.heap 0).state = GLCONTEXT_STATE_ERROR ∧
      (setActive (fun _ => false) twoContexts 0).2.ACTIVE = twoContexts.ACTIVE ∧
      (setActive (fun _ => false) twoContexts 0).2.calls =
        twoContexts.calls ++ [makeCurrentCall (twoContexts.heap 0)]) :=
  ⟨(setActive_ready (fun _ => false) { twoContexts with ACTIVE := some 0 } 0 rfl).1 rfl,
   (setActive_ready (fun _ => true) twoContexts 0 rfl).2.1 (by decide) rfl,
   (setActive_ready (fun _ => false) twoContexts 0 rfl).2.2 (by decide) rfl⟩

/-- C9: once a context's state is `Error` or `Destroyed`, after every sequence
of `setActive` and `dispose` calls (on any contexts, whatever the driver
answers) its state is still `Error` or `Destroyed`, never Ready, and
`setActive` on it returns false and leaves the process, the list of issued
native calls included, exactly as it was. -/
theorem error_or_destroyed_is_final (egl : List NativeCall → Bool) (w : World) (c : Nat)
    (calls : List ContextCall)
    (h : (w.heap c).state = GLCONTEXT_STATE_ERROR ∨ (w.heap c).state = GLCONTEXT_STATE_DESTROY) :
    (((run egl w calls).heap c).state = GLCONTEXT_STATE_ERROR ∨
      ((run egl w calls).heap c).state = GLCONTEXT_STATE_DESTROY) ∧
    ((run egl w calls).heap c).state ≠ GLCONTEXT_STATE_OK ∧
    setActive egl (run egl w calls) c = (false, run egl w calls) := by
  have hfin := run_state_final egl c calls w h
  have hne : ((run egl w calls).heap c).state ≠ GLCONTEXT_STATE_OK := by
    rcases hfin with h1 | h1 <;> rw [h1] <;> decide
  exact ⟨hfin, hne, setActive_of_not_ok egl _ c hne⟩

/-- Witness for C9: context 0 is made `Error` by a rejected make-current; then
`dispose 0`, `setActive 1`, `setActive 0`, `dispose 1`, `dispose 0` run against
a driver that accepts everything. -/
theorem error_or_destroyed_is_final_witness :
    ((setActive (fun _ => false) twoContexts 0).2.heap 0).state = GLCONTEXT_STATE_ERROR ∧
    ((((run (fun _ => true) (setActive (fun _ => false) twoContexts 0).2
        [.dispose 0, .setActive 1, .setActive 0, .dispose 1, .dispose 0]).heap 0).state
        = GLCONTEXT_STATE_ERROR ∨
      ((run (fun _ => true) (setActive (fun _ => false) twoContexts 0).2
        [.dispose 0, .setActive 1, .setActive 0, .dispose 1, .dispose 0]).heap 0).state
        = GLCONTEXT_STATE_DESTROY) ∧
    ((run (fun _ => true) (setActive (fun _ => false) twoContexts 0).2
        [.dispose 0, .setActive 1, .setActive 0, .dispose 1, .dispose 0]).heap 0).state
        ≠ GLCONTEXT_STATE_OK ∧
    setActive (fun _ => true)
      (run (fun _ => true) (setActive (fun _ => false) twoContexts 0).2
        [.dispose 0, .setActive 1, .setActive 0, .dispose 1, .dispose 0]) 0 =
      (false, run (fun _ => true) (setActive (fun _ => false) twoContexts 0).2
        [.dispose 0, .setActive 1, .setActive 0, .dispose 1, .dispose 0])) :=
  ⟨by decide,
   error_or_destroyed_is_final (fun _ => true) (setActive (fun _ => false) twoContexts 0).2 0
    [.dispose 0, .setActive 1, .setActive 0, .dispose 1, .dispose 0] (Or.inl (by decide))⟩

/-- C10: when `dispose` runs on a Ready context whose `setActive` succeeds (the
context is already `ACTIVE`, or the driver accepts the make-current), and
whose registry results from a history of `registerGLObj` / `unregisterGLObj`
calls on the initially empty map, the native calls it issues are: at most the
make-current of `setActive`, then the delete calls `dels`, then the release of
the current context and `eglDestroyContext`. `dels` has one call per registry
entry, through the delete entry point of its kind with its id, without
repetition; a delete call is in `dels` exactly when its (id, kind) pair was
registered and not unregistered since. -/
theorem dispose_delete_calls (egl : List NativeCall → Bool) (w : World) (this : Nat)
    (history : List RegistryCall)
    (hstate : (w.heap this).state = GLCONTEXT_STATE_OK)
    (hreg : (w.heap this).objects = registryAfter history)
    (hact : w.ACTIVE = some this ∨
      egl (w.calls ++ [makeCurrentCall (w.heap this)]) = true) :
    ∃ pre dels,
      (pre = [] ∨ pre = [makeCurrentCall (w.heap this)]) ∧
      (dispose egl w this).calls = w.calls ++ pre ++ dels ++
        [NativeCall.eglMakeCurrent none none none,
          NativeCall.eglDestroyContext (w.heap this).context] ∧
      dels = (w.heap this).objects.map (fun k => deleteCall k.2 k.1) ∧
      dels.Nodup ∧
      (∀ type obj, deleteCall type obj ∈ dels ↔ registeredSince history (obj, type)) := by
  obtain ⟨hcalls, hactive, -, hheap⟩ := unregisterContext_sameButLinks w this
  obtain ⟨hst, -, hctx, hsurf, -⟩ := hheap this
  have hok : ((unregisterContext w this).heap this).state = GLCONTEXT_STATE_OK := by
    rw [hst, hstate]
  have hsucc : (setActive egl (unregisterContext w this) this).1 = true := by
    by_cases ha : (unregisterContext w this).ACTIVE = some this
    · rw [setActive_of_active egl _ this hok ha]
    · have hegl : egl ((unregisterContext w this).calls ++
          [makeCurrentCall ((unregisterContext w this).heap this)]) = true := by
        rcases hact with h | h
        · exact absurd (hactive.trans h) ha
        · unfold makeCurrentCall at h ⊢
          rw [hcalls, hctx, hsurf]
          exact h
      rw [setActive_of_accepted egl _ this hok ha hegl]
  obtain ⟨pre, hpre, hdis⟩ := dispose_calls_of_active egl w this hsucc
  refine ⟨pre, (w.heap this).objects.map (fun k => deleteCall k.2 k.1), hpre, hdis, rfl,
    ?_, ?_⟩
  · rw [hreg]
    exact List.Nodup.map (fun a b h => deleteCall_injective a b h)
      (sorted_nodup _ (registryAfter_sorted history))
  · intro type obj
    rw [hreg, ← mem_registryAfter, List.mem_map]
    constructor
    · rintro ⟨k, hk, he⟩
      have : k = (obj, type) := deleteCall_injective k (obj, type) he
      rw [← this]
      exact hk
    · intro h
      exact ⟨(obj, type), h, rfl⟩

/-- Witness for C10: disposing context 0 of `twoContextsWithObjects` against a
driver that accepts the make-current. -/
theorem dispose_delete_calls_witness :
    (dispose (fun _ => true) twoContextsWithObjects 0).calls =
      [NativeCall.eglMakeCurrent (some 20) (some 20) (some 10),
       NativeCall.glDeleteBuffers 2, NativeCall.glDeleteShader 3, NativeCall.glDeleteTextures 3,
       NativeCall.eglMakeCurrent none none none, NativeCall.eglDestroyContext 10] ∧
    ∃ pre dels,
      (pre = [] ∨ pre = [makeCurrentCall (twoContextsWithObjects.heap 0)]) ∧
      (dispose (fun _ => true) twoContextsWithObjects 0).calls =
        twoContextsWithObjects.calls ++ pre ++ dels ++
        [NativeCall.eglMakeCurrent none none none,
          NativeCall.eglDestroyContext (twoContextsWithObjects.heap 0).context] ∧
      dels = (twoContextsWithObjects.heap 0).objects.map (fun k => deleteCall k.2 k.1) ∧
      dels.Nodup ∧
      (∀ type obj, deleteCall type obj ∈ dels ↔
        registeredSince
          [.register GLOBJECT_TYPE_TEXTURE 3, .register GLOBJECT_TYPE_BUFFER 1,
           .register GLOBJECT_TYPE_TEXTURE 3, .register GLOBJECT_TYPE_SHADER 3,
           .register GLOBJECT_TYPE_BUFFER 2, .unregister GLOBJECT_TYPE_BUFFER 1]
          (obj, type)) :=
  ⟨by decide,
   dispose_delete_calls (fun _ => true) twoContextsWithObjects 0
    [.register GLOBJECT_TYPE_TEXTURE 3, .register GLOBJECT_TYPE_BUFFER 1,
     .register GLOBJECT_TYPE_TEXTURE 3, .register GLOBJECT_TYPE_SHADER 3,
     .register GLOBJECT_TYPE_BUFFER 2, .unregister GLOBJECT_TYPE_BUFFER 1]
    (by decide) rfl (Or.inr rfl)⟩

/-- C19: the pixel size `unpackPixels` derives from (type, format). For type
`UNSIGNED_BYTE` it is 1 for `ALPHA` and `LUMINANCE`, 2 for `LUMINANCE_ALPHA`,
3 for `RGB` and 4 for `RGBA`; for type `FLOAT` four times that (4, 4, 8, 12,
16); for every other type, the packed 16-bit types among them, it is 2
whatever the format. -/
theorem pixelSize_table :
    (pixelSize GL_UNSIGNED_BYTE GL_ALPHA = 1 ∧ pixelSize GL_UNSIGNED_BYTE GL_LUMINANCE = 1 ∧
      pixelSize GL_UNSIGNED_BYTE GL_LUMINANCE_ALPHA = 2 ∧ pixelSize GL_UNSIGNED_BYTE GL_RGB = 3 ∧
      pixelSize GL_UNSIGNED_BYTE GL_RGBA = 4) ∧
    (pixelSize GL_FLOAT GL_ALPHA = 4 ∧ pixelSize GL_FLOAT GL_LUMINANCE = 4 ∧
      pixelSize GL_FLOAT GL_LUMINANCE_ALPHA = 8 ∧ pixelSize GL_FLOAT GL_RGB = 12 ∧
      pixelSize GL_FLOAT GL_RGBA = 16) ∧
    (∀ format, pixelSize GL_UNSIGNED_SHORT_4_4_4_4 format = 2 ∧
      pixelSize GL_UNSIGNED_SHORT_5_5_5_1 format = 2 ∧
      pixelSize GL_UNSIGNED_SHORT_5_6_5 format = 2) ∧
    (∀ type format, type ≠ GL_UNSIGNED_BYTE → type ≠ GL_FLOAT → pixelSize type format = 2) := by
  have hother : ∀ type format, type ≠ GL_UNSIGNED_BYTE → type ≠ GL_FLOAT →
      pixelSize type format = 2 := by
    intro type format h1 h2
    unfold pixelSize
    rw [if_neg (by rintro (h | h); exact h1 h; exact h2 h)]
  refine ⟨by decide, by decide, ?_, hother⟩
  intro format
  exact ⟨hother _ _ (by decide) (by decide), hother _ _ (by decide) (by decide),
    hother _ _ (by decide) (by decide)⟩

/-- C11 (counterexample): context 0 of `twoContextsWithObjects` is Ready and
holds three registry entries; after `dispose` (make-current accepted) its
state is `Destroyed` and its registry still holds the same three entries. -/
theorem dispose_registry_counterexample :
    (twoContextsWithObjects.heap 0).state = GLCONTEXT_STATE_OK ∧
    ((dispose (fun _ => true) twoContextsWithObjects 0).heap 0).state =
      GLCONTEXT_STATE_DESTROY ∧
    ((dispose (fun _ => true) twoContextsWithObjects 0).heap 0).objects =
      [(2, GLOBJECT_TYPE_BUFFER), (3, GLOBJECT_TYPE_SHADER), (3, GLOBJECT_TYPE_TEXTURE)] ∧
    ((dispose (fun _ => true) twoContextsWithObjects 0).heap 0).objects ≠ [] := by
  decide

/-- C11 (amended): `dispose` never touches the registry map. After `dispose`,
on a Ready context or any other, whatever the driver answers, every context's
registry holds exactly the (id, kind) pairs it held before: the native delete
calls are issued for them (C10) but no entry is erased. -/
theorem dispose_registry_unchanged (egl : List NativeCall → Bool) (w : World) (this q : Nat) :
    ((dispose egl w this).heap q).objects = (w.heap q).objects :=
  dispose_objects egl w this q

/-- C12 (counterexample): context 0 of `twoContextsWithObjects` is disposed
(make-current accepted) and is `Destroyed`; a second `dispose` leaves it in
state `Error`, not `Destroyed`. -/
theorem dispose_twice_counterexample :
    ((dispose (fun _ => true) twoContextsWithObjects 0).heap 0).state =
      GLCONTEXT_STATE_DESTROY ∧
    ((dispose (fun _ => true) (dispose (fun _ => true) twoContextsWithObjects 0) 0).heap 0).state =
      GLCONTEXT_STATE_ERROR ∧
    GLCONTEXT_STATE_ERROR ≠ GLCONTEXT_STATE_DESTROY := by
  decide

/-- C12 (amended): let `w₁` be the process after `dispose` on a Ready context
whose `setActive` succeeded, and `w₂` the process after a second `dispose` on
it (whatever the driver answers). The context is `Destroyed` in `w₁`. In `w₂`
no native call has been added, `ACTIVE`, the list head and the display flag
are as in `w₁`, every context has the registry and the links it had in `w₁`,
every other context has the state it had, and the context list is the same
list; but the context's own state has moved from `Destroyed` to `Error`. -/
theorem dispose_twice (egl egl' : List NativeCall → Bool) (w w₁ w₂ : World) (l : List Nat)
    (this : Nat)
    (hl : IsContextList w l)
    (hthis : this ∈ l ∨ ((w.heap this).next = none ∧ (w.heap this).prev = none))
    (hstate : (w.heap this).state = GLCONTEXT_STATE_OK)
    (hact : w.ACTIVE = some this ∨ egl (w.calls ++ [makeCurrentCall (w.heap this)]) = true)
    (h₁ : w₁ = dispose egl w this) (h₂ : w₂ = dispose egl' w₁ this) :
    (w₁.heap this).state = GLCONTEXT_STATE_DESTROY ∧
    (w₂.heap this).state = GLCONTEXT_STATE_ERROR ∧
    w₂.calls = w₁.calls ∧ w₂.ACTIVE = w₁.ACTIVE ∧
    w₂.CONTEXT_LIST_HEAD = w₁.CONTEXT_LIST_HEAD ∧ w₂.HAS_DISPLAY = w₁.HAS_DISPLAY ∧
    (∀ q, (w₂.heap q).objects = (w₁.heap q).objects ∧ (w₂.heap q).next = (w₁.heap q).next ∧
      (w₂.heap q).prev = (w₁.heap q).prev ∧
      (q ≠ this → (w₂.heap q).state = (w₁.heap q).state)) ∧
    IsContextList w₁ (l.erase this) ∧ IsContextList w₂ (l.erase this) := by
  -- the first dispose
  obtain ⟨hcalls, hactive, -, hheap⟩ := unregisterContext_sameButLinks w this
  obtain ⟨hst, -, hctx, hsurf, -⟩ := hheap this
  have hok : ((unregisterContext w this).heap this).state = GLCONTEXT_STATE_OK := by
    rw [hst, hstate]
  have hsucc : (setActive egl (unregisterContext w this) this).1 = true := by
    by_cases ha : (unregisterContext w this).ACTIVE = some this
    · rw [setActive_of_active egl _ this hok ha]
    · have hegl : egl ((unregisterContext w this).calls ++
          [makeCurrentCall ((unregisterContext w this).heap this)]) = true := by
        rcases hact with h | h
        · exact absurd (hactive.trans h) ha
        · unfold makeCurrentCall at h ⊢
          rw [hcalls, hctx, hsurf]
          exact h
      rw [setActive_of_accepted egl _ this hok ha hegl]
  have hd1 : (w₁.heap this).state = GLCONTEXT_STATE_DESTROY := by
    rw [h₁, dispose_of_succeeded egl w this hsucc]
    dsimp only
    rw [(deleteObjects_frame _ _).1, modify_state, if_pos rfl]
  obtain ⟨hl1, hnot⟩ := dispose_removes egl w l this hl hthis
  rw [← h₁] at hl1
  -- the links of the context after the first dispose
  have hnull : (w₁.heap this).next = none ∧ (w₁.heap this).prev = none := by
    rw [h₁]
    obtain ⟨-, f2, f3, -, -⟩ := dispose_fields egl w this this
    rw [f2, f3, (unregisterContext_links w this this).1, (unregisterContext_links w this this).2.1]
    simp
  -- the second dispose
  have hnotok : ((unregisterContext w₁ this).heap this).state ≠ GLCONTEXT_STATE_OK := by
    rw [((unregisterContext_sameButLinks w₁ this).2.2.2 this).1, hd1]
    decide
  have hfail := setActive_of_not_ok egl' (unregisterContext w₁ this) this hnotok
  have hdis2 : w₂ = (unregisterContext w₁ this).modify this
      (fun c => { c with state := GLCONTEXT_STATE_ERROR }) := by
    rw [h₂, dispose_of_failed egl' w₁ this (by rw [hfail]), hfail]
  obtain ⟨u1, u2, u3, u4⟩ := unregisterContext_sameButLinks w₁ this
  have hl2 := (dispose_removes egl' w₁ (l.erase this) this hl1 (Or.inr hnull)).1
  rw [← h₂, List.erase_of_not_mem hnot] at hl2
  have hhead2 : w₂.CONTEXT_LIST_HEAD = w₁.CONTEXT_LIST_HEAD := by
    rw [linked_head _ _ _ _ hl2.2, linked_head _ _ _ _ hl1.2]
  refine ⟨hd1, ?_, ?_, ?_, hhead2, ?_, ?_, hl1, hl2⟩
  · rw [hdis2, modify_state, if_pos rfl]
  · rw [hdis2]
    exact u1
  · rw [hdis2]
    exact u2
  · rw [hdis2]
    exact u3
  · intro q
    obtain ⟨f1, f2, f3, -, -⟩ := dispose_fields egl' w₁ this q
    obtain ⟨n1, n2, -⟩ := unregisterContext_links w₁ this q
    rw [h₂]
    refine ⟨f1, ?_, ?_, ?_⟩
    · rw [f2, n1, hnull.2]
      by_cases hq : q = this
      · rw [if_pos hq, hq, hnull.1]
      · rw [if_neg hq, if_neg (by simp)]
    · rw [f3, n2, hnull.1]
      by_cases hq : q = this
      · rw [if_pos hq, hq, hnull.2]
      · rw [if_neg hq, if_neg (by simp)]
    · intro hq
      rw [← h₂, hdis2, modify_state, if_neg hq]
      exact (u4 q).1

/-- Witness for C12 (amended): context 0 of `twoContextsRegistered`, disposed
with a driver that accepts, then again with a driver that rejects. -/
theorem dispose_twice_witness :
    IsContextList twoContextsRegistered [1, 0] ∧
    ((dispose (fun _ => true) twoContextsRegistered 0).heap 0).state = GLCONTEXT_STATE_DESTROY ∧
    ((dispose (fun _ => false) (dispose (fun _ => true) twoContextsRegistered 0) 0).heap 0).state
      = GLCONTEXT_STATE_ERROR ∧
    (dispose (fun _ => false) (dispose (fun _ => true) twoContextsRegistered 0) 0).calls =
      (dispose (fun _ => true) twoContextsRegistered 0).calls ∧
    (dispose (fun _ => false) (dispose (fun _ => true) twoContextsRegistered 0) 0).ACTIVE =
      (dispose (fun _ => true) twoContextsRegistered 0).ACTIVE ∧
    (dispose (fun _ => false) (dispose (fun _ => true) twoContextsRegistered 0) 0).CONTEXT_LIST_HEAD
      = (dispose (fun _ => true) twoContextsRegistered 0).CONTEXT_LIST_HEAD ∧
    (dispose (fun _ => false) (dispose (fun _ => true) twoContextsRegistered 0) 0).HAS_DISPLAY =
      (dispose (fun _ => true) twoContextsRegistered 0).HAS_DISPLAY ∧
    (∀ q,
      ((dispose (fun _ => false) (dispose (fun _ => true) twoContextsRegistered 0) 0).heap
          q).objects = ((dispose (fun _ => true) twoContextsRegistered 0).heap q).objects ∧
      ((dispose (fun _ => false) (dispose (fun _ => true) twoContextsRegistered 0) 0).heap
          q).next = ((dispose (fun _ => true) twoContextsRegistered 0).heap q).next ∧
      ((dispose (fun _ => false) (dispose (fun _ => true) twoContextsRegistered 0) 0).heap
          q).prev = ((dispose (fun _ => true) twoContextsRegistered 0).heap q).prev ∧
      (q ≠ 0 →
        ((dispose (fun _ => false) (dispose (fun _ => true) twoContextsRegistered 0) 0).heap
          q).state = ((dispose (fun _ => true) twoContextsRegistered 0).heap q).state)) ∧
    IsContextList (dispose (fun _ => true) twoContextsRegistered 0) ([1, 0].erase 0) ∧
    IsContextList (dispose (fun _ => false) (dispose (fun _ => true) twoContextsRegistered 0) 0)
      ([1, 0].erase 0) :=
  ⟨by decide,
   dispose_twice (fun _ => true) (fun _ => false) twoContextsRegistered _ _ [1, 0] 0
    (by decide) (Or.inl (by decide)) (by decide) (Or.inr rfl) rfl rfl⟩

/-- C13: if `setActive` fails inside `dispose` (on a context that is in the
context list or has `NULL` links), the context has nevertheless been removed
from the context list, its state is `Error` afterwards, `ACTIVE` is unchanged,
and the only native call `dispose` may have issued is the rejected
make-current of `setActive`: no delete call, no release of the current
context, no `eglDestroyContext`. -/
theorem dispose_when_setActive_fails (egl : List NativeCall → Bool) (w : World) (l : List Nat)
    (this : Nat)
    (hl : IsContextList w l)
    (hthis : this ∈ l ∨ ((w.heap this).next = none ∧ (w.heap this).prev = none))
    (hfail : (setActive egl (unregisterContext w this) this).1 = false) :
    IsContextList (dispose egl w this) (l.erase this) ∧ this ∉ l.erase this ∧
    ((dispose egl w this).heap this).state = GLCONTEXT_STATE_ERROR ∧
    ((dispose egl w this).calls = w.calls ∨
      (dispose egl w this).calls = w.calls ++ [makeCurrentCall (w.heap this)]) ∧
    (dispose egl w this).ACTIVE = w.ACTIVE := by
  obtain ⟨hrem, hnot⟩ := dispose_removes egl w l this hl hthis
  obtain ⟨hcalls, hactive, -, hheap⟩ := unregisterContext_sameButLinks w this
  obtain ⟨-, -, hctx, hsurf, -⟩ := hheap this
  obtain ⟨f1, f2, -⟩ := setActive_failed egl (unregisterContext w this) this hfail
  have hmc : makeCurrentCall ((unregisterContext w this).heap this) =
      makeCurrentCall (w.heap this) := by
    unfold makeCurrentCall
    rw [hctx, hsurf]
  refine ⟨hrem, hnot, ?_, ?_, ?_⟩
  · rw [dispose_of_failed egl w this hfail, modify_state, if_pos rfl]
  · rw [dispose_of_failed egl w this hfail]
    show (setActive egl (unregisterContext w this) this).2.calls = _ ∨
      (setActive egl (unregisterContext w this) this).2.calls = _
    rw [← hcalls, ← hmc]
    exact f1
  · rw [dispose_of_failed egl w this hfail]
    show (setActive egl (unregisterContext w this) this).2.ACTIVE = _
    rw [f2, hactive]

/-- Witness for C13: context 0 of `twoContextsRegistered` is not `ACTIVE` and
the driver rejects the make-current. -/
theorem dispose_when_setActive_fails_witness :
    (dispose (fun _ => false) twoContextsRegistered 0).calls =
      [NativeCall.eglMakeCurrent (some 20) (some 20) (some 10)] ∧
    (IsContextList (dispose (fun _ => false) twoContextsRegistered 0) ([1, 0].erase 0) ∧
    0 ∉ [1, 0].erase 0 ∧
    ((dispose (fun _ => false) twoContextsRegistered 0).heap 0).state = GLCONTEXT_STATE_ERROR ∧
    ((dispose (fun _ => false) twoContextsRegistered 0).calls = twoContextsRegistered.calls ∨
      (dispose (fun _ => false) twoContextsRegistered 0).calls =
        twoContextsRegistered.calls ++ [makeCurrentCall (twoContextsRegistered.heap 0)]) ∧
    (dispose (fun _ => false) twoContextsRegistered 0).ACTIVE = twoContextsRegistered.ACTIVE) :=
  ⟨by decide,
   dispose_when_setActive_fails (fun _ => false) twoContextsRegistered [1, 0] 0
    (by decide) (Or.inl (by decide)) (by decide)⟩

/-- C15: for every process whose context set is a finite list `l`, whatever
the states of its members and whatever the driver answers, `DisposeAll`
terminates (its loop ends within `l.length` iterations), and afterwards
`CONTEXT_LIST_HEAD` is `NULL` (the set is empty) and the display flag is
false. -/
theorem DisposeAll_terminates (egl : List NativeCall → Bool) (w : World) (l : List Nat)
    (fuel : Nat) (hl : IsContextList w l) (hfuel : l.length ≤ fuel) :
    ∃ w', DisposeAll egl fuel w = some w' ∧ w'.CONTEXT_LIST_HEAD = none ∧
      IsContextList w' [] ∧ w'.HAS_DISPLAY = false := by
  obtain ⟨w₀, h1, h2, -⟩ := disposeLoop_terminates egl fuel w l hl hfuel
  refine ⟨terminateDisplay w₀, by simp [DisposeAll, h1], ?_, ?_, ?_⟩
  · unfold terminateDisplay
    split_ifs <;> exact h2
  · refine ⟨List.nodup_nil, ?_⟩
    show (terminateDisplay w₀).CONTEXT_LIST_HEAD = none
    unfold terminateDisplay
    split_ifs <;> exact h2
  · unfold terminateDisplay
    split_ifs with h
    · rfl
    · simpa using h

/-- Witness for C15: the two registered contexts, a driver that rejects every
make-current, two iterations. -/
theorem DisposeAll_terminates_witness :
    IsContextList twoContextsRegistered [1, 0] ∧
    ∃ w', DisposeAll (fun _ => false) 2 twoContextsRegistered = some w' ∧
      w'.CONTEXT_LIST_HEAD = none ∧ IsContextList w' [] ∧ w'.HAS_DISPLAY = false :=
  ⟨by decide,
   DisposeAll_terminates (fun _ => false) twoContextsRegistered [1, 0] 2 (by decide)
    (by decide)⟩


/-- C14 (counterexample): two configs match the attribute list. The
constructor asks `eglChooseConfig` for at most one config (webgl.cc 81-87), so
it is answered `num_config = 1` and the construction ends in state `OK`, not
`ERROR`. -/
theorem construct_multiple_configs_counterexample :
    ([2, 5] : List Nat).length = 2 ∧
    chooseConfigAnswer [2, 5] 1 0 = (true, 1, 2) ∧
    ((construct (matchingDriver [2, 5] exampleExtensions) emptyWorld 0 16 16).heap 0).state =
      GLCONTEXT_STATE_OK ∧
    GLCONTEXT_STATE_OK ≠ GLCONTEXT_STATE_ERROR := by
  decide

/-- C14 (amended): the constructor leaves the context in state `OK` exactly
when every step succeeds (display there or obtained and initialised,
`eglChooseConfig` returning true with `num_config` 1, native context and
surface created, make-current accepted, every required extension found in the
extension string); when some step fails it leaves `ERROR`; it never ends in
`INIT` or `DESTROY`. As the call gives room for one config, a driver that
answers as EGL prescribes passes the config step exactly when at least one
config matches, also when several do, and the construction ends in `ERROR`
when none matches. -/
theorem construct_final_state (drv : Driver) (w : World) (this : Nat) (width height : Int) :
    (((construct drv w this width height).heap this).state = GLCONTEXT_STATE_OK ↔
      ConstructionSucceeds drv w width height) ∧
    (¬ ConstructionSucceeds drv w width height →
      ((construct drv w this width height).heap this).state = GLCONTEXT_STATE_ERROR) ∧
    (∀ (matching : List Nat) (old : Nat),
      drv.eglChooseConfig (callsAtChooseConfig w) = chooseConfigAnswer matching 1 old →
      (((drv.eglChooseConfig (callsAtChooseConfig w)).1 = true ∧
          (drv.eglChooseConfig (callsAtChooseConfig w)).2.1 = 1) ↔ matching ≠ []) ∧
      (matching = [] →
        ((construct drv w this width height).heap this).state = GLCONTEXT_STATE_ERROR)) ∧
    ((construct drv w this width height).heap this).state ≠ GLCONTEXT_STATE_INIT ∧
    ((construct drv w this width height).heap this).state ≠ GLCONTEXT_STATE_DESTROY := by
  have h := (construct_result drv w this width height).1
  have hcfg : ∀ (matching : List Nat) (old : Nat),
      drv.eglChooseConfig (callsAtChooseConfig w) = chooseConfigAnswer matching 1 old →
      (((drv.eglChooseConfig (callsAtChooseConfig w)).1 = true ∧
          (drv.eglChooseConfig (callsAtChooseConfig w)).2.1 = 1) ↔ matching ≠ []) := by
    intro matching old e
    rw [e]
    cases matching with
    | nil => simp [chooseConfigAnswer]
    | cons c rest => simp [chooseConfigAnswer]
  by_cases hc : ConstructionSucceeds drv w width height
  · rw [if_pos hc] at h
    rw [h]
    refine ⟨⟨fun _ => hc, fun _ => rfl⟩, fun hn => absurd hc hn, fun matching old e =>
      ⟨hcfg matching old e, fun hm => ?_⟩, by decide, by decide⟩
    exact absurd hm ((hcfg matching old e).mp hc.2.1)
  · rw [if_neg hc] at h
    rw [h]
    refine ⟨⟨fun h => ?_, fun h => absurd h hc⟩, fun _ => rfl, fun matching old e =>
      ⟨hcfg matching old e, fun _ => rfl⟩, by decide, by decide⟩
    exact absurd h (by decide)

/-- An instance of C14: with a driver that accepts every step and returns an
extension string with both required extensions, the first context of a process
ends in state `OK`; with a driver for which no config matches it ends in
`ERROR`. -/
theorem construct_final_state_witness :
    ((construct (acceptingDriver exampleExtensions) emptyWorld 0 16 16).heap 0).state =
      GLCONTEXT_STATE_OK ∧
    ((construct (matchingDriver [] exampleExtensions) emptyWorld 0 16 16).heap 0).state =
      GLCONTEXT_STATE_ERROR :=
  ⟨(construct_final_state (acceptingDriver exampleExtensions) emptyWorld 0 16 16).1.2 (by decide),
   ((construct_final_state (matchingDriver [] exampleExtensions) emptyWorld 0 16 16).2.2.1
      [] 0 rfl).2 rfl⟩


/-- C17: `RenderbufferStorage` on a context whose `GL_BOILERPLATE` passes issues,
after the boilerplate, exactly one `glRenderbufferStorage` call, with `target`,
`width` and `height` unchanged and internal format `DEPTH24_STENCIL8_OES` for a
requested `DEPTH_STENCIL_OES`; for a requested `DEPTH_COMPONENT32_OES` the
preferred depth of the context, which for a context built by a successful
construction is `DEPTH_COMPONENT32_OES` if the extension string contains
`GL_OES_depth32`, else `DEPTH_COMPONENT24_OES` if it contains `GL_OES_depth24`,
else `DEPTH_COMPONENT16`; and the requested format otherwise. The format
forwarded is never `DEPTH_STENCIL_OES`. -/
theorem RenderbufferStorage_internalformat (drv : Driver) (w₀ : World) (cw ch : Int)
    (egl : List NativeCall → Bool) (w : World) (this : Nat) (target internalformat : Nat)
    (width height : Int)
    (hctor : ConstructionSucceeds drv w₀ cw ch)
    (hpd : (w.heap this).preferredDepth =
      ((construct drv w₀ this cw ch).heap this).preferredDepth)
    (hact : (GL_BOILERPLATE egl w this).1 = true) :
    ((GL_BOILERPLATE egl w this).2.calls = w.calls ∨
      (GL_BOILERPLATE egl w this).2.calls = w.calls ++ [makeCurrentCall (w.heap this)]) ∧
    (RenderbufferStorage egl w this target internalformat width height).calls =
      (GL_BOILERPLATE egl w this).2.calls ++
        [NativeCall.glRenderbufferStorage target
          (if internalformat = GL_DEPTH_STENCIL_OES then GL_DEPTH24_STENCIL8_OES
           else if internalformat = GL_DEPTH_COMPONENT32_OES then
             (if strstr (constructedExtensionString drv w₀ cw ch) "GL_OES_depth32".toList = true
                then GL_DEPTH_COMPONENT32_OES
              else if strstr (constructedExtensionString drv w₀ cw ch) "GL_OES_depth24".toList
                  = true then GL_DEPTH_COMPONENT24_OES
              else GL_DEPTH_COMPONENT16)
           else internalformat)
          width height] ∧
    (if internalformat = GL_DEPTH_STENCIL_OES then GL_DEPTH24_STENCIL8_OES
     else if internalformat = GL_DEPTH_COMPONENT32_OES then
       (if strstr (constructedExtensionString drv w₀ cw ch) "GL_OES_depth32".toList = true
          then GL_DEPTH_COMPONENT32_OES
        else if strstr (constructedExtensionString drv w₀ cw ch) "GL_OES_depth24".toList
            = true then GL_DEPTH_COMPONENT24_OES
        else GL_DEPTH_COMPONENT16)
     else internalformat) ≠ GL_DEPTH_STENCIL_OES := by
  obtain ⟨hheap, hcalls⟩ := GL_BOILERPLATE_ok egl w this hact
  have hsel := (construct_result drv w₀ this cw ch).2 hctor
  refine ⟨hcalls, ?_, ?_⟩
  · unfold RenderbufferStorage
    dsimp only
    rw [if_neg (by rw [hact]; exact Bool.noConfusion), hheap, hpd, hsel]
    rfl
  · by_cases h1 : internalformat = GL_DEPTH_STENCIL_OES
    · rw [if_pos h1]
      decide
    · rw [if_neg h1]
      by_cases h2 : internalformat = GL_DEPTH_COMPONENT32_OES
      · rw [if_pos h2]
        split_ifs <;> decide
      · rw [if_neg h2]
        exact h1

/-- An instance of C17: on the context just built with an extension string that
has `GL_OES_depth24` but not `GL_OES_depth32`, a request for
`DEPTH_COMPONENT32_OES` at 16×16 issues one `glRenderbufferStorage` with
`DEPTH_COMPONENT24_OES`. -/
theorem RenderbufferStorage_internalformat_witness :
    (RenderbufferStorage (fun _ => true)
        (construct (acceptingDriver exampleExtensions) emptyWorld 0 16 16) 0
        0x8D41 GL_DEPTH_COMPONENT32_OES 16 16).calls =
      (construct (acceptingDriver exampleExtensions) emptyWorld 0 16 16).calls ++
        [NativeCall.glRenderbufferStorage 0x8D41 GL_DEPTH_COMPONENT24_OES 16 16] := by
  have h := (RenderbufferStorage_internalformat (acceptingDriver exampleExtensions) emptyWorld
    16 16 (fun _ => true)
    (construct (acceptingDriver exampleExtensions) emptyWorld 0 16 16) 0
    0x8D41 GL_DEPTH_COMPONENT32_OES 16 16 (by decide) rfl (by decide)).2.1
  rw [h]
  decide


/-- C18: on a context whose `GL_BOILERPLATE` passes, `FramebufferTexture2D` and
`FramebufferRenderbuffer` given the attachment `0x821A` issue, after the
boilerplate, exactly two native attach calls, the first for `DEPTH_ATTACHMENT`
and the second for `STENCIL_ATTACHMENT`, with the same target, object and
remaining arguments; given any other attachment they issue exactly one native
attach call with all arguments unchanged. -/
theorem framebuffer_attach_calls (egl : List NativeCall → Bool) (w : World) (this : Nat)
    (target attachment : Nat) (textarget texture level : Int)
    (renderbuffertarget renderbuffer : Nat)
    (hact : (GL_BOILERPLATE egl w this).1 = true) :
    ((GL_BOILERPLATE egl w this).2.calls = w.calls ∨
      (GL_BOILERPLATE egl w this).2.calls = w.calls ++ [makeCurrentCall (w.heap this)]) ∧
    (FramebufferTexture2D egl w this target attachment textarget texture level).calls =
      (GL_BOILERPLATE egl w this).2.calls ++
        (if attachment = 0x821A then
          [NativeCall.glFramebufferTexture2D target GL_DEPTH_ATTACHMENT textarget texture level,
           NativeCall.glFramebufferTexture2D target GL_STENCIL_ATTACHMENT textarget texture level]
         else [NativeCall.glFramebufferTexture2D target attachment textarget texture level]) ∧
    (FramebufferRenderbuffer egl w this target attachment renderbuffertarget renderbuffer).calls =
      (GL_BOILERPLATE egl w this).2.calls ++
        (if attachment = 0x821A then
          [NativeCall.glFramebufferRenderbuffer target GL_DEPTH_ATTACHMENT renderbuffertarget
             renderbuffer,
           NativeCall.glFramebufferRenderbuffer target GL_STENCIL_ATTACHMENT renderbuffertarget
             renderbuffer]
         else [NativeCall.glFramebufferRenderbuffer target attachment renderbuffertarget
           renderbuffer]) := by
  refine ⟨(GL_BOILERPLATE_ok egl w this hact).2, ?_, ?_⟩
  · unfold FramebufferTexture2D
    dsimp only
    rw [if_neg (by rw [hact]; exact Bool.noConfusion)]
    by_cases h : attachment = 0x821A
    · rw [if_pos h, if_pos h]
      simp [issue]
    · rw [if_neg h, if_neg h]
      rfl
  · unfold FramebufferRenderbuffer
    dsimp only
    rw [if_neg (by rw [hact]; exact Bool.noConfusion)]
    by_cases h : attachment = 0x821A
    · rw [if_pos h, if_pos h]
      simp [issue]
    · rw [if_neg h, if_neg h]
      rfl

/-- An instance of C18: context 0 of the two-context process, not current,
make-current accepted; the combined attachment gives the make-current and then
the depth and the stencil attach call. -/
theorem framebuffer_attach_calls_witness :
    (FramebufferTexture2D (fun _ => true) twoContexts 0 0x8D40 0x821A 0x0DE1 7 0).calls =
      [NativeCall.eglMakeCurrent (some 20) (some 20) (some 10),
       NativeCall.glFramebufferTexture2D 0x8D40 GL_DEPTH_ATTACHMENT 0x0DE1 7 0,
       NativeCall.glFramebufferTexture2D 0x8D40 GL_STENCIL_ATTACHMENT 0x0DE1 7 0] ∧
    (FramebufferRenderbuffer (fun _ => true) twoContexts 0 0x8D40 0x8D00 0x8D41 5).calls =
      [NativeCall.eglMakeCurrent (some 20) (some 20) (some 10),
       NativeCall.glFramebufferRenderbuffer 0x8D40 0x8D00 0x8D41 5] := by
  have h1 := (framebuffer_attach_calls (fun _ => true) twoContexts 0 0x8D40 0x821A 0x0DE1 7 0
    0x8D41 5 (by decide)).2.1
  have h2 := (framebuffer_attach_calls (fun _ => true) twoContexts 0 0x8D40 0x8D00 0x0DE1 7 0
    0x8D41 5 (by decide)).2.2
  exact ⟨h1.trans (by decide), h2.trans (by decide)⟩


/-- C16: the zero-filled buffer `TexImage2D` uploads when no source buffer is
given is not sized by the row stride. It has `width * height * 4` bytes (times
4 again for `GL_FLOAT`), all zero. For `UNSIGNED_BYTE` / `RGBA`, width 1,
height 2 and unpack alignment 8 it has 8 bytes, while the row stride is 8 and
stride × height is 16: the second row the driver reads starts at the end of the
buffer. For `UNSIGNED_SHORT_5_6_5` / `RGB`, width 2, height 1 and alignment 4
it has 8 bytes while stride × height is 4. -/
theorem TexImage2D_zero_buffer_size :
    (∀ (egl : List NativeCall → Bool) (w : World) (this target : Nat) (level : Int)
        (internalformat : Nat) (width height border : Int) (format type : Nat)
        (fresh : Nat → Nat),
      (GL_BOILERPLATE egl w this).1 = true →
      (TexImage2D egl w this target level internalformat width height border format type
          none fresh).calls =
        (GL_BOILERPLATE egl w this).2.calls ++
          [NativeCall.glTexImage2D target level internalformat width height border format type
            (List.replicate (zeroBufferLength width height type) 0)]) ∧
    (TexImage2D (fun _ => true) alignment8World 0 0x0DE1 0 GL_RGBA 1 2 0 GL_RGBA
        GL_UNSIGNED_BYTE none (fun _ => 0)).calls =
      [NativeCall.glTexImage2D 0x0DE1 0 GL_RGBA 1 2 0 GL_RGBA GL_UNSIGNED_BYTE
        [0, 0, 0, 0, 0, 0, 0, 0]] ∧
    rowStride GL_UNSIGNED_BYTE GL_RGBA 1 (alignment8World.heap 0).unpack_alignment = 8 ∧
    rowStride GL_UNSIGNED_BYTE GL_RGBA 1 (alignment8World.heap 0).unpack_alignment * 2 = 16 ∧
    (TexImage2D (fun _ => true) twoContexts 0 0x0DE1 0 GL_RGB 2 1 0 GL_RGB
        GL_UNSIGNED_SHORT_5_6_5 none (fun _ => 0)).calls =
      [NativeCall.eglMakeCurrent (some 20) (some 20) (some 10),
       NativeCall.glTexImage2D 0x0DE1 0 GL_RGB 2 1 0 GL_RGB GL_UNSIGNED_SHORT_5_6_5
        [0, 0, 0, 0, 0, 0, 0, 0]] ∧
    rowStride GL_UNSIGNED_SHORT_5_6_5 GL_RGB 2 (twoContexts.heap 0).unpack_alignment * 1 = 4 := by
  refine ⟨?_, by decide, by decide, by decide, by decide, by decide⟩
  intro egl w this target level internalformat width height border format type fresh hact
  unfold TexImage2D
  dsimp only
  rw [if_neg (by rw [hact]; exact Bool.noConfusion)]
  rfl


/-- C20: for type `UNSIGNED_BYTE` and format `RGBA` with premultiply-alpha set
(sizes without `int` overflow, source bytes below 256), every output pixel
`(row, col)` of `unpackPixels` has the alpha byte of its input pixel unchanged
and each of its R, G, B bytes equal to the input byte `c` scaled by the alpha
`A`: `c * A / 255` rounded down. The input pixel is `(row, col)` without flip-Y
and `(h - 1 - row, col)` with flip-Y. -/
theorem unpackPixels_premultiply_rgba (self : WebGLRenderingContext)
    (w h rs : Nat) (pixels : List Nat) (fresh : Nat → Nat)
    (hpre : self.unpack_premultiply_alpha = true)
    (ha : 1 ≤ self.unpack_alignment)
    (hov : StrideFits GL_UNSIGNED_BYTE GL_RGBA (w : Int) self.unpack_alignment)
    (hrs : rowStride GL_UNSIGNED_BYTE GL_RGBA (w : Int) self.unpack_alignment = (rs : Int))
    (hsz : rs * h ≤ 2147483647)
    (hbytes : ∀ b ∈ pixels, b < 256)
    (row col : Nat) (hrow : row < h) (hcol : col < w) :
    (unpackPixels self GL_UNSIGNED_BYTE GL_RGBA w h pixels fresh).getD
        (row * rs + col * 4 + 3) 0 =
      pixels.getD ((if self.unpack_flip_y = true then h - 1 - row else row) * rs + col * 4 + 3) 0 ∧
    ∀ j, j < 3 →
      (unpackPixels self GL_UNSIGNED_BYTE GL_RGBA w h pixels fresh).getD
          (row * rs + col * 4 + j) 0 =
        pixels.getD
            ((if self.unpack_flip_y = true then h - 1 - row else row) * rs + col * 4 + j) 0 *
          pixels.getD
            ((if self.unpack_flip_y = true then h - 1 - row else row) * rs + col * 4 + 3) 0 /
          255 := by
  have hps : pixelSize GL_UNSIGNED_BYTE GL_RGBA = ((4 : Nat) : Int) := by decide
  have hC1 := rowStride_bounds GL_UNSIGNED_BYTE GL_RGBA w self.unpack_alignment
    (Int.natCast_nonneg w) ha hov
  have hnle : ((4 * w : Nat) : Int) ≤ (rs : Int) := by
    rw [← hrs]
    push_cast
    have := hC1.1
    rw [hps] at this
    push_cast at this
    exact this
  have hnrs : 4 * w ≤ rs := by exact_mod_cast hnle
  have hrs31 : rs ≤ 2147483647 := by
    have := hC1.2.2
    rw [hrs] at this
    omega
  have hpb : ∀ k, pixels.getD k 0 < 256 := by
    intro k
    by_cases hk : k < pixels.length
    · rw [List.getD_eq_getElem pixels 0 hk]
      exact hbytes _ (List.getElem_mem hk)
    · rw [List.getD_eq_default _ _ (by omega)]
      decide
  have hU : (unpackedRows self GL_UNSIGNED_BYTE GL_RGBA w h pixels fresh).length = rs * h ∧
      ∀ k, k < 4 * w →
        (unpackedRows self GL_UNSIGNED_BYTE GL_RGBA w h pixels fresh).getD (row * rs + k) 0 =
          pixels.getD
            ((if self.unpack_flip_y = true then h - 1 - row else row) * rs + k) 0 := by
    cases hflip : self.unpack_flip_y
    · obtain ⟨hulen, hu⟩ :=
        unpackedRows_copy self GL_UNSIGNED_BYTE GL_RGBA w h rs pixels fresh hflip hrs hsz
      refine ⟨hulen, fun k hk => ?_⟩
      have hin : row * rs + k < rs * h := by
        have := Nat.mul_le_mul_right rs (Nat.succ_le_of_lt hrow)
        rw [Nat.succ_mul, Nat.mul_comm h rs] at this
        omega
      rw [hu, if_pos hin, if_neg (by simp)]
    · obtain ⟨hulen, hu⟩ :=
        unpackedRows_flip self GL_UNSIGNED_BYTE GL_RGBA w h rs 4 pixels fresh hflip ha hps hov
          hrs hsz
      refine ⟨hulen, fun k hk => ?_⟩
      rw [hu row k hrow (by omega), if_pos hk, if_pos rfl]
  have hout : unpackPixels self GL_UNSIGNED_BYTE GL_RGBA w h pixels fresh =
      premultiplyRows GL_UNSIGNED_BYTE GL_RGBA (rs : Int) ((4 : Nat) : Int) (w : Int)
        (unpackedRows self GL_UNSIGNED_BYTE GL_RGBA w h pixels fresh) h := by
    unfold unpackPixels
    simp only [hpre, true_and]
    rw [if_pos (Or.inr trivial), hrs, hps, Int.toNat_natCast]
  have hbyte : ∀ j, j < 4 →
      (unpackPixels self GL_UNSIGNED_BYTE GL_RGBA w h pixels fresh).getD
          (row * rs + col * 4 + j) 0 =
        if j < 3 then
          pixels.getD
              ((if self.unpack_flip_y = true then h - 1 - row else row) * rs + col * 4 + j) 0 *
            pixels.getD
              ((if self.unpack_flip_y = true then h - 1 - row else row) * rs + col * 4 + 3) 0 /
            255
        else
          pixels.getD
            ((if self.unpack_flip_y = true then h - 1 - row else row) * rs + col * 4 + j) 0 := by
    intro j hj
    have hc4 : col * 4 + j < 4 * w := by omega
    have hmod : (col * 4 + j) % 4 = j := by omega
    rw [hout, Nat.add_assoc,
      premultiplyRows_rgba_getD rs w h _ hnrs hsz hrs31 hU.1 h (le_refl h) row (col * 4 + j)
        (by omega)]
    by_cases hj3 : j < 3
    · have e : col * 4 + j - (col * 4 + j) % 4 + 3 = col * 4 + 3 := by omega
      rw [if_pos ⟨hrow, hc4, by omega⟩, if_pos hj3, e, hU.2 _ hc4, hU.2 _ (by omega),
        premultiply_table _ _ (hpb _) (hpb _), Nat.add_assoc, Nat.add_assoc]
    · rw [if_neg (by omega), if_neg hj3, hU.2 _ hc4, Nat.add_assoc]
  refine ⟨?_, fun j hj => ?_⟩
  · have := hbyte 3 (by omega)
    rwa [if_neg (by omega)] at this
  · have := hbyte j (by omega)
    rwa [if_pos hj] at this

/-- An instance of C20: a 2 x 2 `RGBA` image, stride 8, alphas 128, 0, 255 and
51; the pixel at row 1, column 1 is (100, 110, 120, 51) and becomes
(20, 22, 24, 51). -/
theorem unpackPixels_premultiply_rgba_witness :
    (unpackPixels premultiplyContext GL_UNSIGNED_BYTE GL_RGBA ((2 : Nat) : Int)
        ((2 : Nat) : Int)
        [10, 20, 30, 128, 40, 50, 60, 0, 70, 80, 90, 255, 100, 110, 120, 51]
        (fun _ => 0)).getD (1 * 8 + 1 * 4 + 3) 0 = 51 ∧
    ∀ j, j < 3 →
      (unpackPixels premultiplyContext GL_UNSIGNED_BYTE GL_RGBA ((2 : Nat) : Int)
          ((2 : Nat) : Int)
          [10, 20, 30, 128, 40, 50, 60, 0, 70, 80, 90, 255, 100, 110, 120, 51]
          (fun _ => 0)).getD (1 * 8 + 1 * 4 + j) 0 =
        ([10, 20, 30, 128, 40, 50, 60, 0, 70, 80, 90, 255, 100, 110, 120, 51] :
            List Nat).getD (1 * 8 + 1 * 4 + j) 0 * 51 / 255 :=
  unpackPixels_premultiply_rgba premultiplyContext 2 2 8
    [10, 20, 30, 128, 40, 50, 60, 0, 70, 80, 90, 255, 100, 110, 120, 51] (fun _ => 0)
    rfl (by decide) (by decide) (by decide) (by decide) (by decide) 1 1 (by decide) (by decide)


/-- C26 (counterexample): 1-byte `RGBA` of width 2^30 and height 1 with flip-Y
and alignment 4. `pixelSize * width` is 2^32, which an `int` holds as 0: the
stride, the image size and the length of each row copy are 0, the buffer
`unpackPixels` builds has no bytes, and its byte 0 of row 0 is not byte 0 of
source row 0. -/
theorem unpackedRows_flipY_overflow_counterexample :
    ¬ StrideFits GL_UNSIGNED_BYTE GL_RGBA 1073741824 flipContext.unpack_alignment ∧
    rowStride GL_UNSIGNED_BYTE GL_RGBA 1073741824 flipContext.unpack_alignment = 0 ∧
    unpackedRows flipContext GL_UNSIGNED_BYTE GL_RGBA 1073741824 1 [5, 6, 7, 8] (fun _ => 0) =
      [] ∧
    (unpackedRows flipContext GL_UNSIGNED_BYTE GL_RGBA 1073741824 1 [5, 6, 7, 8]
        (fun _ => 0)).getD (0 * 0 + 0) 0 ≠
      ([5, 6, 7, 8] : List Nat).getD ((1 - 1 - 0) * 0 + 0) 0 := by
  decide

/-- C26 (amended): with flip-Y set, alignment at least 1 and no `int` overflow
in the stride and in stride × height, in the buffer
`unpackPixels` builds before any premultiplication, byte `k < pixelSize * w` of
row `i < h` is byte `k` of source row `h - 1 - i`, rows being `rs` bytes apart
in both buffers; the padding bytes at offsets `pixelSize * w ≤ k < rs` of a
row are not copied from the source: they are what the allocation held. -/
theorem unpackedRows_flipY_bytes (self : WebGLRenderingContext) (type format : Nat)
    (w h rs ps : Nat) (pixels : List Nat) (fresh : Nat → Nat)
    (hflip : self.unpack_flip_y = true)
    (ha : 1 ≤ self.unpack_alignment)
    (hps : pixelSize type format = (ps : Int))
    (hov : StrideFits type format (w : Int) self.unpack_alignment)
    (hrs : rowStride type format (w : Int) self.unpack_alignment = (rs : Int))
    (hsz : rs * h ≤ 2147483647) :
    ps * w ≤ rs ∧
    (∀ i k, i < h → k < ps * w →
      (unpackedRows self type format w h pixels fresh).getD (i * rs + k) 0 =
        pixels.getD ((h - 1 - i) * rs + k) 0) ∧
    (∀ i k, i < h → ps * w ≤ k → k < rs →
      (unpackedRows self type format w h pixels fresh).getD (i * rs + k) 0 =
        fresh (i * rs + k)) := by
  obtain ⟨-, hu⟩ := unpackedRows_flip self type format w h rs ps pixels fresh hflip ha hps hov
    hrs hsz
  have hC1 := rowStride_bounds type format w self.unpack_alignment (Int.natCast_nonneg w) ha hov
  have hnle : ((ps * w : Nat) : Int) ≤ (rs : Int) := by
    rw [← hrs]
    push_cast
    rw [← hps]
    exact hC1.1
  have hnrs : ps * w ≤ rs := by exact_mod_cast hnle
  refine ⟨hnrs, fun i k hi hk => ?_, fun i k hi hk1 hk2 => ?_⟩
  · rw [hu i k hi (by omega), if_pos hk]
  · rw [hu i k hi hk2, if_neg (by omega)]

/-- An instance of C26: a 3 x 2 image of `RGB` bytes with alignment 4, stride
12; the scratch allocation held 99 everywhere. -/
theorem unpackedRows_flipY_bytes_witness :
    3 * 3 ≤ 12 ∧
    (∀ i k, i < 2 → k < 3 * 3 →
      (unpackedRows flipContext GL_UNSIGNED_BYTE GL_RGB ((3 : Nat) : Int) ((2 : Nat) : Int)
        (List.range 24) (fun _ => 99)).getD (i * 12 + k) 0 =
        (List.range 24).getD ((2 - 1 - i) * 12 + k) 0) ∧
    (∀ i k, i < 2 → 3 * 3 ≤ k → k < 12 →
      (unpackedRows flipContext GL_UNSIGNED_BYTE GL_RGB ((3 : Nat) : Int) ((2 : Nat) : Int)
        (List.range 24) (fun _ => 99)).getD (i * 12 + k) 0 =
        (fun _ => 99) (i * 12 + k)) :=
  unpackedRows_flipY_bytes flipContext GL_UNSIGNED_BYTE GL_RGB 3 2 12 3 (List.range 24)
    (fun _ => 99) rfl (by decide) (by decide) (by decide) (by decide) (by decide)


/-- C28: with both flip-Y and premultiply-alpha set, `unpackPixels` returns what
the premultiply-only transform returns on the output of the flip-only
transform of the same source, for every type, format, width, height,
alignment and source (and whatever the two scratch allocations held). -/
theorem unpackPixels_flip_then_premultiply (self : WebGLRenderingContext) (type format : Nat)
    (width height : Int) (pixels : List Nat) (fresh fresh' : Nat → Nat) :
    unpackPixels { self with unpack_flip_y := true, unpack_premultiply_alpha := true }
        type format width height pixels fresh =
      unpackPixels { self with unpack_flip_y := false, unpack_premultiply_alpha := true }
        type format width height
        (unpackPixels { self with unpack_flip_y := true, unpack_premultiply_alpha := false }
          type format width height pixels fresh)
        fresh' := by
  have hflipOnly :
      unpackPixels { self with unpack_flip_y := true, unpack_premultiply_alpha := false }
          type format width height pixels fresh =
        unpackedRows { self with unpack_flip_y := true, unpack_premultiply_alpha := false }
          type format width height pixels fresh :=
    unpackPixels_of_not_premultiply _ type format width height pixels fresh rfl
  have hsame :
      unpackedRows { self with unpack_flip_y := true, unpack_premultiply_alpha := false }
          type format width height pixels fresh =
        unpackedRows { self with unpack_flip_y := true, unpack_premultiply_alpha := true }
          type format width height pixels fresh := rfl
  have hcopy := unpackedRows_copy_whole
    { self with unpack_flip_y := false, unpack_premultiply_alpha := true } type format width
    height
    (unpackedRows { self with unpack_flip_y := true, unpack_premultiply_alpha := true }
      type format width height pixels fresh) fresh' rfl
    (unpackedRows_length _ type format width height pixels fresh)
  rw [hflipOnly, hsame]
  unfold unpackPixels
  dsimp only
  rw [hcopy]


/-- C30 (counterexample): `ALPHA` / `UNSIGNED_BYTE`, 32768 x 32768, alignment
4. The stride is 32768 without overflow and stride × height is 2^30, but
`width * height * 4` is 2^32, which an `int` holds as 0 (webgl.cc 862): the
zero-filled buffer has no bytes. -/
theorem zeroBuffer_overflow_counterexample :
    StrideFits GL_UNSIGNED_BYTE GL_ALPHA 32768 4 ∧
    rowStride GL_UNSIGNED_BYTE GL_ALPHA 32768 4 * 32768 = 1073741824 ∧
    zeroBufferLength 32768 32768 GL_UNSIGNED_BYTE = 0 ∧
    ¬ (rowStride GL_UNSIGNED_BYTE GL_ALPHA 32768 4 * 32768 ≤
      (zeroBufferLength 32768 32768 GL_UNSIGNED_BYTE : Int)) := by
  decide

/-- C30 (amended): for every type, format, width `w`, height `h` and unpack
alignment 1, 2 or 4 (no `int` overflow in the stride and in `w * h * 4`), the
zero-filled buffer `TexImage2D` allocates when no source buffer is supplied has
`w * h * 4` bytes, 4 times as many for `GL_FLOAT`, and that is at least
stride × height, the stride being the row stride of `unpackPixels` for the same
type, format, width and alignment. -/
theorem zeroBuffer_covers_image (type format w h : Nat) (a : Int)
    (ha : a = 1 ∨ a = 2 ∨ a = 4)
    (hov : StrideFits type format (w : Int) a)
    (hsz : w * h * 4 ≤ 2147483647) :
    zeroBufferLength (w : Int) (h : Int) type = (if type = GL_FLOAT then w * h * 16 else w * h * 4) ∧
    rowStride type format (w : Int) a * (h : Int) ≤ (zeroBufferLength (w : Int) (h : Int) type : Int) := by
  refine ⟨zeroBufferLength_eq w h type hsz, ?_⟩
  have hh : (0 : Int) ≤ (h : Int) := Int.natCast_nonneg h
  have hrs := Int.mul_le_mul_of_nonneg_right
    (rowStride_le_of_small_alignment type format w a ha hov) hh
  rw [zeroBufferLength_eq w h type hsz]
  refine le_trans hrs (le_of_eq ?_)
  split_ifs
  · push_cast
    ring
  · push_cast
    ring

/-- An instance of C30: `UNSIGNED_SHORT_5_6_5` / `RGB`, 3 x 2, alignment 4: the
stride is 8, stride × height is 16, and the zero-filled buffer has 24
bytes. -/
theorem zeroBuffer_covers_image_witness :
    zeroBufferLength ((3 : Nat) : Int) ((2 : Nat) : Int) GL_UNSIGNED_SHORT_5_6_5 =
      (if GL_UNSIGNED_SHORT_5_6_5 = GL_FLOAT then 3 * 2 * 16 else 3 * 2 * 4) ∧
    rowStride GL_UNSIGNED_SHORT_5_6_5 GL_RGB ((3 : Nat) : Int) 4 * ((2 : Nat) : Int) ≤
      (zeroBufferLength ((3 : Nat) : Int) ((2 : Nat) : Int) GL_UNSIGNED_SHORT_5_6_5 : Int) :=
  zeroBuffer_covers_image GL_UNSIGNED_SHORT_5_6_5 GL_RGB 3 2 4 (by decide) (by decide)
    (by decide)


/-- C29: the intrusive context list implements a set with insert and remove.
With the nodes reachable from `CONTEXT_LIST_HEAD` read as the duplicate-free
list `l` in which `prev` mirrors `next` (`IsContextList`): `registerContext` of
a `c` not in `l` yields `c :: l`; `unregisterContext` of a `c` at any position
of `l` yields `l` with exactly `c` removed, the others in their order;
`unregisterContext` of a `c` not in `l` with `NULL` links leaves `l`
unchanged; the result is again such a list (the mirror property holds). -/
theorem contextList_insert_remove (w : World) (l : List Nat) (c : Nat)
    (hl : IsContextList w l) :
    (c ∉ l → IsContextList (registerContext w c) (c :: l)) ∧
    (c ∈ l → IsContextList (unregisterContext w c) (l.erase c) ∧ c ∉ l.erase c ∧
      l.erase c = l.filter (fun x => decide (x ≠ c))) ∧
    (c ∉ l → (w.heap c).next = none ∧ (w.heap c).prev = none →
      IsContextList (unregisterContext w c) l) := by
  refine ⟨registerContext_inserts w l c hl, fun hc => ?_,
    unregisterContext_of_not_mem w l c hl⟩
  refine ⟨unregisterContext_of_mem w l c hl hc,
    fun h => ((List.Nodup.mem_erase_iff hl.1).mp h).1 rfl, ?_⟩
  rw [List.Nodup.erase_eq_filter hl.1]
  congr 1
  funext x
  by_cases h : x = c <;> simp [h]

/-- An instance of C29: in the process whose list is `[1, 0]`, removing the
tail 0 leaves `[1]`, removing the head 1 leaves `[0]`, and inserting 2 gives
`[2, 1, 0]`. -/
theorem contextList_insert_remove_witness :
    IsContextList (unregisterContext twoContextsRegistered 0) [1] ∧
    IsContextList (unregisterContext twoContextsRegistered 1) [0] ∧
    IsContextList (registerContext twoContextsRegistered 2) [2, 1, 0] :=
  ⟨((contextList_insert_remove twoContextsRegistered [1, 0] 0 (by decide)).2.1 (by decide)).1,
   ((contextList_insert_remove twoContextsRegistered [1, 0] 1 (by decide)).2.1 (by decide)).1,
   (contextList_insert_remove twoContextsRegistered [1, 0] 2 (by decide)).1 (by decide)⟩


/-- C21 (the code at two failing inputs): for `UNSIGNED_SHORT_4_4_4_4` / `RGBA`
with premultiply-alpha set, the loop body takes its `a` from the high nibble of
the second byte, which holds R, and scales the other three nibbles, among them
the low nibble of the first byte, which holds A. The opaque pixel `0x8FFF`
(R 8, G 15, B 15, A 15; bytes `FF 8F`) should stay as it is and becomes
`0x8888`: its alpha drops to 8. The pixel `0xFC48` (R 15, G 12, B 4, A 8; bytes
`48 FC`) should become `0x8628` (bytes `28 86`) and is left unchanged. -/
theorem unpackPixels_premultiply_4444_wrong_channel :
    unpackPixels premultiplyContext GL_UNSIGNED_SHORT_4_4_4_4 GL_RGBA 1 1 [0xFF, 0x8F, 0, 0]
      (fun _ => 0) = [0x88, 0x88, 0, 0] ∧
    premultiply4444Expected 0xFF 0x8F = (0xFF, 0x8F) ∧
    unpackPixels premultiplyContext GL_UNSIGNED_SHORT_4_4_4_4 GL_RGBA 1 1 [0x48, 0xFC, 0, 0]
      (fun _ => 0) = [0x48, 0xFC, 0, 0] ∧
    premultiply4444Expected 0x48 0xFC = (0x28, 0x86) := by
  refine ⟨by decide, by decide, by decide, by decide⟩


/-- C22: for type `UNSIGNED_SHORT_5_5_5_1` and format `RGBA` with
premultiply-alpha set (sizes without `int` overflow), every output pixel
`(row, col)` of `unpackPixels` is the two bytes `(0x01, 0x00)` when bit 0 of
the first byte of its input pixel is 0, and is the input pixel byte for byte
when that bit is 1. The input pixel is `(row, col)` without flip-Y and
`(h - 1 - row, col)` with flip-Y. -/
theorem unpackPixels_premultiply_5551 (self : WebGLRenderingContext)
    (w h rs : Nat) (pixels : List Nat) (fresh : Nat → Nat)
    (hpre : self.unpack_premultiply_alpha = true)
    (ha : 1 ≤ self.unpack_alignment)
    (hov : StrideFits GL_UNSIGNED_SHORT_5_5_5_1 GL_RGBA (w : Int) self.unpack_alignment)
    (hrs : rowStride GL_UNSIGNED_SHORT_5_5_5_1 GL_RGBA (w : Int) self.unpack_alignment =
      (rs : Int))
    (hsz : rs * h ≤ 2147483647)
    (row col : Nat) (hrow : row < h) (hcol : col < w) :
    (pixels.getD ((if self.unpack_flip_y = true then h - 1 - row else row) * rs + col * 2) 0
        % 2 = 0 →
      (unpackPixels self GL_UNSIGNED_SHORT_5_5_5_1 GL_RGBA w h pixels fresh).getD
          (row * rs + col * 2) 0 = 1 ∧
      (unpackPixels self GL_UNSIGNED_SHORT_5_5_5_1 GL_RGBA w h pixels fresh).getD
          (row * rs + col * 2 + 1) 0 = 0) ∧
    (pixels.getD ((if self.unpack_flip_y = true then h - 1 - row else row) * rs + col * 2) 0
        % 2 = 1 →
      ∀ j, j < 2 →
        (unpackPixels self GL_UNSIGNED_SHORT_5_5_5_1 GL_RGBA w h pixels fresh).getD
            (row * rs + col * 2 + j) 0 =
          pixels.getD
            ((if self.unpack_flip_y = true then h - 1 - row else row) * rs + col * 2 + j) 0) := by
  have hps : pixelSize GL_UNSIGNED_SHORT_5_5_5_1 GL_RGBA = ((2 : Nat) : Int) := by decide
  obtain ⟨hnrs, hrs31, hulen, hU⟩ := unpackedRows_image_bytes self GL_UNSIGNED_SHORT_5_5_5_1
    GL_RGBA w h rs 2 pixels fresh ha hps hov hrs hsz row hrow
  have hout : unpackPixels self GL_UNSIGNED_SHORT_5_5_5_1 GL_RGBA w h pixels fresh =
      premultiplyRows GL_UNSIGNED_SHORT_5_5_5_1 GL_RGBA (rs : Int) ((2 : Nat) : Int) (w : Int)
        (unpackedRows self GL_UNSIGNED_SHORT_5_5_5_1 GL_RGBA w h pixels fresh) h := by
    unfold unpackPixels
    simp only [hpre, true_and]
    rw [if_pos (Or.inr trivial), hrs, hps, Int.toNat_natCast]
  have hbyte : ∀ j, j < 2 →
      (unpackPixels self GL_UNSIGNED_SHORT_5_5_5_1 GL_RGBA w h pixels fresh).getD
          (row * rs + col * 2 + j) 0 =
        if pixels.getD
            ((if self.unpack_flip_y = true then h - 1 - row else row) * rs + col * 2) 0 % 2 = 0
        then (if j = 0 then 1 else 0)
        else pixels.getD
          ((if self.unpack_flip_y = true then h - 1 - row else row) * rs + col * 2 + j) 0 := by
    intro j hj
    have hc2 : col * 2 + j < 2 * w := by omega
    have e : col * 2 + j - (col * 2 + j) % 2 = col * 2 := by omega
    rw [hout, Nat.add_assoc,
      premultiplyRows_5551_getD rs w h _ hnrs hsz hrs31 hulen h (le_refl h) row (col * 2 + j)
        (by omega), e, hU _ (by omega), hU _ hc2, Nat.add_assoc]
    by_cases hbit : pixels.getD
        ((if self.unpack_flip_y = true then h - 1 - row else row) * rs + col * 2) 0 % 2 = 0
    · rw [if_pos ⟨hrow, hc2, hbit⟩, if_pos hbit]
      by_cases hj0 : j = 0
      · rw [if_pos hj0, if_pos (by omega)]
      · rw [if_neg hj0, if_neg (by omega)]
    · rw [if_neg (fun hx => hbit hx.2.2), if_neg hbit]
  refine ⟨fun hbit => ?_, fun hbit j hj => ?_⟩
  · have h0 := hbyte 0 (by omega)
    have h1 := hbyte 1 (by omega)
    rw [if_pos hbit] at h0 h1
    exact ⟨by simpa using h0, by simpa using h1⟩
  · have hj' := hbyte j hj
    rwa [if_neg (by omega)] at hj'

/-- An instance of C22: a 2 x 1 image, stride 4; the first pixel `02 80` has
alpha bit 0 and becomes `01 00`. -/
theorem unpackPixels_premultiply_5551_witness :
    (unpackPixels premultiplyContext GL_UNSIGNED_SHORT_5_5_5_1 GL_RGBA ((2 : Nat) : Int)
        ((1 : Nat) : Int) [0x02, 0x80, 0x03, 0x80] (fun _ => 0)).getD (0 * 4 + 0 * 2) 0 = 1 ∧
    (unpackPixels premultiplyContext GL_UNSIGNED_SHORT_5_5_5_1 GL_RGBA ((2 : Nat) : Int)
        ((1 : Nat) : Int) [0x02, 0x80, 0x03, 0x80] (fun _ => 0)).getD (0 * 4 + 0 * 2 + 1) 0 = 0 :=
  (unpackPixels_premultiply_5551 premultiplyContext 2 1 4 [0x02, 0x80, 0x03, 0x80] (fun _ => 0)
    rfl (by decide) (by decide) (by decide) (by decide) 0 0 (by decide) (by decide)).1
    (by decide)


/-- C23 (counterexample): with a driver whose first `eglInitialize` fails, two
constructions call `eglGetDisplay` twice and `eglInitialize` twice: the first
construction fails before the display flag is set, and the second repeats both
calls. -/
theorem display_setup_repeated_counterexample :
    ((construct (flakyDriver exampleExtensions) emptyWorld 0 16 16).heap 0).state =
      GLCONTEXT_STATE_ERROR ∧
    (construct (flakyDriver exampleExtensions) emptyWorld 0 16 16).HAS_DISPLAY = false ∧
    (constructAll (flakyDriver exampleExtensions) emptyWorld
      [(0, 16, 16), (1, 16, 16)]).calls.count NativeCall.eglGetDisplay = 2 ∧
    (constructAll (flakyDriver exampleExtensions) emptyWorld
      [(0, 16, 16), (1, 16, 16)]).calls.count NativeCall.eglInitialize = 2 := by
  decide

/-- C23 (amended): once the display flag is set, no construction of any
sequence of constructions calls `eglGetDisplay` or `eglInitialize`, and the
flag stays set; and a construction that finds the flag clear sets it exactly
when it has obtained and initialised the display, with one `eglGetDisplay`
call and at most one `eglInitialize` call. -/
theorem display_setup_once (drv : Driver) (w : World) (reqs : List (Nat × Int × Int))
    (hd : w.HAS_DISPLAY = true) :
    ((constructAll drv w reqs).HAS_DISPLAY = true ∧
      (constructAll drv w reqs).calls.count NativeCall.eglGetDisplay =
        w.calls.count NativeCall.eglGetDisplay ∧
      (constructAll drv w reqs).calls.count NativeCall.eglInitialize =
        w.calls.count NativeCall.eglInitialize) ∧
    (∀ (w₀ : World) (this : Nat) (width height : Int), w₀.HAS_DISPLAY = false →
      ((construct drv w₀ this width height).HAS_DISPLAY = true ↔
        (drv.eglGetDisplay (w₀.calls ++ [NativeCall.eglGetDisplay]) ≠ none ∧
          drv.eglInitialize
            (w₀.calls ++ [NativeCall.eglGetDisplay, NativeCall.eglInitialize]) = true)) ∧
      (construct drv w₀ this width height).calls.count NativeCall.eglGetDisplay =
        w₀.calls.count NativeCall.eglGetDisplay + 1 ∧
      (construct drv w₀ this width height).calls.count NativeCall.eglInitialize ≤
        w₀.calls.count NativeCall.eglInitialize + 1) := by
  obtain ⟨h1, h2, h3⟩ := constructAll_sameDisplaySetup drv reqs w hd
  exact ⟨⟨h1.trans hd, h2, h3⟩, fun w₀ this width height h0 =>
    construct_sets_display drv w₀ this width height h0⟩

/-- An instance of C23: after a first construction has set up the display, two
more constructions (one of them failing for lack of a matching config would
make no difference) leave one `eglGetDisplay` and one `eglInitialize` call in
the trace. -/
theorem display_setup_once_witness :
    (constructAll (acceptingDriver exampleExtensions)
        (construct (acceptingDriver exampleExtensions) emptyWorld 0 16 16)
        [(1, 16, 16), (2, 8, 8)]).calls.count NativeCall.eglGetDisplay = 1 ∧
    (constructAll (acceptingDriver exampleExtensions)
        (construct (acceptingDriver exampleExtensions) emptyWorld 0 16 16)
        [(1, 16, 16), (2, 8, 8)]).calls.count NativeCall.eglInitialize = 1 := by
  have h := (display_setup_once (acceptingDriver exampleExtensions)
    (construct (acceptingDriver exampleExtensions) emptyWorld 0 16 16)
    [(1, 16, 16), (2, 8, 8)] (by decide)).1
  exact ⟨h.2.1.trans (by decide), h.2.2.trans (by decide)⟩


/-- C27: 1-byte `RGBA` of width 2^30 and height 1 with premultiply-alpha and
alignment 4. `pixelSize * width` is 2^32, which an `int` holds as 0, so the
stride and the image size are 0 and the output buffer has no bytes, whatever
the source; the premultiply loop still runs over the 2^30 pixels of the row
and for the first of them accesses offset 3 of the output buffer (its alpha
byte), which is not below stride × height. -/
theorem unpackPixels_overflow_out_of_range :
    rowStride GL_UNSIGNED_BYTE GL_RGBA 1073741824 premultiplyContext.unpack_alignment * 1 = 0 ∧
    imageSize GL_UNSIGNED_BYTE GL_RGBA 1073741824 1 premultiplyContext.unpack_alignment = 0 ∧
    (∀ (pixels : List Nat) (fresh : Nat → Nat),
      unpackedRows premultiplyContext GL_UNSIGNED_BYTE GL_RGBA 1073741824 1 pixels fresh = []) ∧
    (∀ (pixels : List Nat) (fresh : Nat → Nat),
      (3 : Int) ∈ unpackPixelsOutputAccesses premultiplyContext GL_UNSIGNED_BYTE GL_RGBA
        1073741824 1 pixels fresh) ∧
    ¬ ((3 : Int) <
      rowStride GL_UNSIGNED_BYTE GL_RGBA 1073741824 premultiplyContext.unpack_alignment * 1) := by
  have hrs : rowStride GL_UNSIGNED_BYTE GL_RGBA 1073741824 premultiplyContext.unpack_alignment =
      0 := by decide
  have himg : imageSize GL_UNSIGNED_BYTE GL_RGBA 1073741824 1
      premultiplyContext.unpack_alignment = 0 := by decide
  refine ⟨by decide, himg, fun pixels fresh => ?_, fun pixels fresh => ?_, by decide⟩
  · unfold unpackedRows
    simp only [himg]
    rfl
  · unfold unpackPixelsOutputAccesses
    refine List.mem_append_right _ ?_
    rw [if_pos ⟨rfl, Or.inr rfl⟩]
    have hrows : ∀ (unpacked : List Nat) (rs ps width : Int),
        premultiplyRowsAccesses GL_UNSIGNED_BYTE GL_RGBA rs ps width unpacked (1 : Int).toNat =
          premultiplyRowsAccesses GL_UNSIGNED_BYTE GL_RGBA rs ps width unpacked 0 ++
            premultiplyColsAccesses GL_UNSIGNED_BYTE GL_RGBA rs ps 0
              (premultiplyRows GL_UNSIGNED_BYTE GL_RGBA rs ps width unpacked 0) width.toNat :=
      fun _ _ _ _ => rfl
    rw [hrows]
    refine List.mem_append_right _ ?_
    refine premultiplyColsAccesses_first GL_UNSIGNED_BYTE GL_RGBA _ _ 0 _ 3 ?_ _ (by decide)
    rw [hrs]
    simp [premultiplyPixelAccesses, GL_RGBA, GL_LUMINANCE_ALPHA, wrapInt32]

/-- When no `int` overflows, the accesses of `unpackPixels` are in range: for
every type, format, width `w`, height `h`, alignment at least 1
(sizes without `int` overflow) and every combination of the flip-Y and
premultiply flags, the output buffer of `unpackPixels` has stride × height
bytes, every offset `unpackPixels` reads in the source is at least 0 and below
stride × height, and so is every offset it reads or writes in its output
buffer (the row copies and the accesses of the premultiply loop body). -/
theorem unpackPixels_accesses_in_range (self : WebGLRenderingContext) (type format : Nat)
    (w h rs ps : Nat) (pixels : List Nat) (fresh : Nat → Nat)
    (ha : 1 ≤ self.unpack_alignment)
    (hps : pixelSize type format = (ps : Int))
    (hov : StrideFits type format (w : Int) self.unpack_alignment)
    (hrs : rowStride type format (w : Int) self.unpack_alignment = (rs : Int))
    (hsz : rs * h ≤ 2147483647) :
    (unpackPixels self type format w h pixels fresh).length = rs * h ∧
    (∀ o ∈ unpackPixelsSourceReads self type format w h, 0 ≤ o ∧ o < ((rs * h : Nat) : Int)) ∧
    (∀ o ∈ unpackPixelsOutputAccesses self type format w h pixels fresh,
      0 ≤ o ∧ o < ((rs * h : Nat) : Int)) := by
  have hC1 := rowStride_bounds type format w self.unpack_alignment (Int.natCast_nonneg w) ha hov
  have hn0 : ((ps * w : Nat) : Int) = (w : Int) * pixelSize type format := by
    rw [hps]
    push_cast
    ring
  have hnle : ((ps * w : Nat) : Int) ≤ (rs : Int) := by
    rw [hn0, ← hrs, mul_comm]
    exact hC1.1
  have hnrs : ps * w ≤ rs := by exact_mod_cast hnle
  have hn : wrapInt32 ((w : Int) * pixelSize type format) = ((ps * w : Nat) : Int) := by
    rw [← hn0]
    exact wrapInt32_eq_self (by omega) (by omega)
  have himg := imageSize_toNat self type format w h rs hrs hsz
  have hcopy : ∀ o ∈ memcpyOffsets 0 (rs * h), 0 ≤ o ∧ o < ((rs * h : Nat) : Int) := by
    intro o ho
    rw [mem_memcpyOffsets] at ho
    obtain ⟨k, hk, hok⟩ := ho
    rw [hok, zero_add]
    constructor
    · exact Int.natCast_nonneg k
    · exact_mod_cast hk
  refine ⟨?_, ?_, ?_⟩
  · unfold unpackPixels
    dsimp only
    split_ifs
    · rw [premultiplyRows_length, unpackedRows_length, himg]
    · rw [unpackedRows_length, himg]
  · intro o ho
    unfold unpackPixelsSourceReads at ho
    rw [hrs, himg, Int.toNat_natCast] at ho
    split_ifs at ho
    · exact flipReads_bound rs (ps * w) h _ _ hn hnrs hsz h (le_refl h) o ho
    · exact hcopy o ho
  · intro o ho
    unfold unpackPixelsOutputAccesses at ho
    rw [hrs, himg, Int.toNat_natCast, List.mem_append] at ho
    rcases ho with ho | ho
    · split_ifs at ho
      · exact flipWrites_bound rs (ps * w) h _ _ hn hnrs hsz h (le_refl h) o ho
      · exact hcopy o ho
    · split_ifs at ho with hcond
      · rw [hps] at ho
        exact premultiplyRowsAccesses_bound type format rs ps w h _ hcond.2 hps hnrs hsz h
          (le_refl h) o ho
      · simp at ho

/-- An instance of the accesses in range: a 2 x 2 image of 1-byte `RGBA` with
both flags set, alignment 4, stride 8: all accesses lie below 16. -/
theorem unpackPixels_accesses_in_range_witness :
    (unpackPixels { premultiplyContext with unpack_flip_y := true } GL_UNSIGNED_BYTE GL_RGBA
      ((2 : Nat) : Int) ((2 : Nat) : Int) (List.range 16) (fun _ => 0)).length = 8 * 2 ∧
    (∀ o ∈ unpackPixelsSourceReads { premultiplyContext with unpack_flip_y := true }
        GL_UNSIGNED_BYTE GL_RGBA ((2 : Nat) : Int) ((2 : Nat) : Int),
      0 ≤ o ∧ o < ((8 * 2 : Nat) : Int)) ∧
    (∀ o ∈ unpackPixelsOutputAccesses { premultiplyContext with unpack_flip_y := true }
        GL_UNSIGNED_BYTE GL_RGBA ((2 : Nat) : Int) ((2 : Nat) : Int) (List.range 16)
        (fun _ => 0),
      0 ≤ o ∧ o < ((8 * 2 : Nat) : Int)) :=
  unpackPixels_accesses_in_range { premultiplyContext with unpack_flip_y := true }
    GL_UNSIGNED_BYTE GL_RGBA 2 2 8 4 (List.range 16) (fun _ => 0)
    (by decide) (by decide) (by decide) (by decide) (by decide)


/-- C25: in every process reachable through constructions, `setActive`,
`dispose` and `DisposeAll`, `ACTIVE` is `NULL` or points to a context that is
Ready and whose surface/context pair is the target of the most recent
`eglMakeCurrent` the driver accepted; and `dispose` never leaves `ACTIVE`
pointing to the context it disposed (so the storage of a destroyed context,
which a later construction may reuse, is never what `ACTIVE` points to). -/
theorem active_is_current_context (drv : Driver) (w : World) (h : Reachable drv w) :
    (w.ACTIVE = none ∨
      ∃ a, w.ACTIVE = some a ∧ (w.heap a).state = GLCONTEXT_STATE_OK ∧
        lastCurrent drv.eglMakeCurrent w.calls = some (makeCurrentCall (w.heap a))) ∧
    (∀ this, (dispose drv.eglMakeCurrent w this).ACTIVE ≠ some this) := by
  have hinv := reachable_activeIsCurrent drv w h
  refine ⟨?_, fun this => (dispose_activeIsCurrent _ w this hinv).2⟩
  cases ha : w.ACTIVE with
  | none => exact Or.inl rfl
  | some a => exact Or.inr ⟨a, rfl, hinv a ha⟩

/-- An instance of C25: after the first construction with an accepting driver,
a rejected `setActive` of an unconstructed context and a second construction,
`ACTIVE` is the second context, which is Ready and the target of the last
accepted make-current. -/
theorem active_is_current_context_witness :
    (construct (acceptingDriver exampleExtensions)
        (setActive (acceptingDriver exampleExtensions).eglMakeCurrent
          (construct (acceptingDriver exampleExtensions) emptyWorld 0 16 16) 5).2
        1 8 8).ACTIVE = some 1 ∧
    (((construct (acceptingDriver exampleExtensions)
        (setActive (acceptingDriver exampleExtensions).eglMakeCurrent
          (construct (acceptingDriver exampleExtensions) emptyWorld 0 16 16) 5).2
        1 8 8).ACTIVE = none) ∨
      ∃ a, (construct (acceptingDriver exampleExtensions)
          (setActive (acceptingDriver exampleExtensions).eglMakeCurrent
            (construct (acceptingDriver exampleExtensions) emptyWorld 0 16 16) 5).2
          1 8 8).ACTIVE = some a ∧
        ((construct (acceptingDriver exampleExtensions)
          (setActive (acceptingDriver exampleExtensions).eglMakeCurrent
            (construct (acceptingDriver exampleExtensions) emptyWorld 0 16 16) 5).2
          1 8 8).heap a).state = GLCONTEXT_STATE_OK ∧
        lastCurrent (acceptingDriver exampleExtensions).eglMakeCurrent
          (construct (acceptingDriver exampleExtensions)
            (setActive (acceptingDriver exampleExtensions).eglMakeCurrent
              (construct (acceptingDriver exampleExtensions) emptyWorld 0 16 16) 5).2
            1 8 8).calls =
          some (makeCurrentCall ((construct (acceptingDriver exampleExtensions)
            (setActive (acceptingDriver exampleExtensions).eglMakeCurrent
              (construct (acceptingDriver exampleExtensions) emptyWorld 0 16 16) 5).2
            1 8 8).heap a))) :=
  ⟨by decide,
   (active_is_current_context (acceptingDriver exampleExtensions) _
    (Reachable.construct 1 8 8
      (Reachable.setActive 5
        (Reachable.construct 0 16 16 (Reachable.start emptyWorld rfl) (by decide)))
      (by decide))).1⟩


end WebGL
